import Mathlib

/-!
# The replication job state machine (`src/job/statemachine.go`)

A shallow embedding of `JobSM` and of its methods `EnterState`, `Start`,
`AddTransition`, `RemoveTransition`, `Stop`, `Init` and `Reset`, followed by
theorems about them.

* State names are Go strings, so they are `String` here.
* A Go `map[string]T` is an association list with at most one entry per key
  (`mapGet`, `mapSet`); a `map[string]struct{}` is a duplicate-free
  `List String` (`setAdd`, `setDel`).  `len` of such a map is `List.length`.
* Handlers are values of the interface `StateHandler`.  Their side effects
  act on an external world `W` (registries, data base, the shared base
  handler); every method takes the world and returns the new one.
* Every method of the engine returns the engine it leaves behind, and a log
  of what it did: one `Event` per `log.Debugf`/`log.Errorf`/`log.Warningf`
  line of the source that matters, per handler method invoked, and per error
  returned.
* `Start` contains an unbounded `for` loop; the embedding runs it with a
  bound on the number of iterations and reports whether the loop ended.
* `Stop` may be called from another goroutine while `Start` runs.  The only
  field it writes, `desiredState`, is read by `Start` only at the head of
  the loop, so an interleaving is described by the job ids with which `Stop`
  is called while the k-th `EnterState` call of the run executes.
-/

/-! ## Constants declared outside the two source files -/

namespace models

/-- Modelled from the spec: constant `models.JobPending` (state `Pending`), declared outside the source files. -/
def JobPending : String := "pending"
/-- Modelled from the spec: constant `models.JobRunning` (state `Running`), declared outside the source files. -/
def JobRunning : String := "running"
/-- Modelled from the spec: constant `models.JobError` (state `Error`), declared outside the source files. -/
def JobError : String := "error"
/-- Modelled from the spec: constant `models.JobStopped` (state `Stopped`), declared outside the source files. -/
def JobStopped : String := "stopped"
/-- Modelled from the spec: constant `models.JobFinished` (state `Finished`), declared outside the source files. -/
def JobFinished : String := "finished"
/-- Modelled from the spec: constant `models.JobCanceled` (state `Canceled`), declared outside the source files. -/
def JobCanceled : String := "canceled"
/-- Modelled from the spec: constant `models.JobContinue`, the continuation sentinel; the comment above
`Start` in the source spells it `"_continue"`. -/
def JobContinue : String := "_continue"
/-- Modelled from the spec: constant `models.RepOpTransfer` (operation `transfer`), declared outside the source files. -/
def RepOpTransfer : String := "transfer"
/-- Modelled from the spec: constant `models.RepOpDelete` (operation `delete`), declared outside the source files. -/
def RepOpDelete : String := "delete"

end models

namespace replication

/-- Modelled from the spec: constant `replication.StateCheck` (state `Check`), declared outside the source files. -/
def StateCheck : String := "check"
/-- Modelled from the spec: constant `replication.StatePullManifest` (state `PullManifest`), declared outside the source files. -/
def StatePullManifest : String := "pull_manifest"
/-- Modelled from the spec: constant `replication.StateTransferBlob` (state `TransferBlob`), declared outside the source files. -/
def StateTransferBlob : String := "transfer_blob"
/-- Modelled from the spec: constant `replication.StatePushManifest` (state `PushManifest`), declared outside the source files. -/
def StatePushManifest : String := "push_manifest"
/-- Modelled from the spec: constant `replication.StateDelete` (state `Delete`), declared outside the source files. -/
def StateDelete : String := "delete"

end replication

/-! ## Go maps -/

/-- Lookup `m[key]` in a Go map; `none` when the key is absent. -/
def mapGet {β : Type} : List (String × β) → String → Option β
  | [], _ => none
  | (k, v) :: m, key => if k = key then some v else mapGet m key

/-- Assignment `m[key] = v` in a Go map. -/
def mapSet {β : Type} : List (String × β) → String → β → List (String × β)
  | [], key, v => [(key, v)]
  | (k, x) :: m, key, v => if k = key then (key, v) :: m else (k, x) :: mapSet m key v

/-- Assignment `m[s] = struct{}{}` in a Go `map[string]struct{}`. -/
def setAdd (m : List String) (s : String) : List String :=
  if s ∈ m then m else m ++ [s]

/-- Statement `delete(m, s)` on a Go `map[string]struct{}`. -/
def setDel (m : List String) (s : String) : List String :=
  m.filter (fun x => decide (x ≠ s))

/-! ## Errors, events, handlers -/

/-- Values of Go type `error` that occur: those built by `fmt.Errorf` in the
source, and those returned by collaborators (`ext`). -/
inductive Error where
  | ext (msg : String)
  | noTransition (jobID : Int) (cur : String) (s : String)
  | unableToContinue
  | failedToGetJob (cause : Error)
  | jobNotExist (jobID : Int)
  | failedToGetPolicy (cause : Error)
  | policyNotExist (policyID : Int)
  | failedToGetTarget (cause : Error)
  | targetNotExist (targetID : Int)
  | failedToDecrypt (cause : Error)
  | unsupportedOperation (op : String)
  deriving DecidableEq, Repr

/-- What a run of the engine does, in order of occurrence. -/
inductive Event where
  /-- Method `EnterState(s)` is called (line 44). -/
  | call (s : String)
  /-- Method `Exit()` of the handler bound to state `s` is invoked (line 53). -/
  | exit (s : String)
  /-- Method `Enter()` of the handler bound to state `s` is invoked (line 63). -/
  | enter (s : String)
  /-- Field `CurrentState` becomes `s` and `EnterState` returns a nil error (lines 69-72). -/
  | entered (s : String)
  /-- Method `EnterState` returns the error `e` (lines 49, 54, 64). -/
  | failed (e : Error)
  /-- The pending desired state `d` replaces the next state (lines 83-86). -/
  | override (d : String)
  /-- The sole successor `t` replaces the continuation sentinel (lines 89-93). -/
  | cont (t : String)
  /-- The continuation cannot be decided (lines 96-98). -/
  | undecidable
  /-- Method `Start` leaves the loop with an error and turns to the Error state (line 104). -/
  | fallback
  deriving DecidableEq, Repr

/-- Interface `StateHandler`: `Enter() (string, error)` and `Exit() error`,
acting on the world `W`. -/
structure StateHandler (W : Type) where
  Enter : W → (String × Option Error) × W
  Exit : W → Option Error × W

/-- Struct `RepJobParm`. -/
structure RepJobParm where
  LocalRegURL : String
  TargetURL : String
  TargetUsername : String
  TargetPassword : String
  Repository : String
  Tags : List String
  Enabled : Int
  Operation : String
  deriving DecidableEq, Repr

/-- Struct `JobSM` (without `Logger` and `lock`, which carry no state of the
machine).  `Parms` is a pointer in the source, `none` is nil. -/
structure JobSM (W : Type) where
  JobID : Int
  CurrentState : String
  PreviousState : String
  ForcedStates : List String
  Transitions : List (String × List String)
  Handlers : List (String × StateHandler W)
  desiredState : String
  Parms : Option RepJobParm

/-- What one call of `EnterState` returns and leaves behind. -/
structure Ret (W : Type) where
  next : String
  err : Option Error
  sm : JobSM W
  w : W
  log : List Event

/-- What a run of `Start` (or of its loop) leaves behind.  `err` is the loop
variable `err` when the loop was left; `finished` is false when the bound on
the iterations was reached first. -/
structure Run (W : Type) where
  err : Option Error
  sm : JobSM W
  w : W
  log : List Event
  finished : Bool

namespace JobSM

variable {W : Type}

/-- Expression `sm.Transitions[c]`: the successors of `c`, the nil map when `c` is no key. -/
def successors (sm : JobSM W) (c : String) : List String :=
  (mapGet sm.Transitions c).getD []

/-- Lines 59-72 of `EnterState`: `Enter()` of the handler bound to `s`, then the state change. -/
def enterTarget (sm : JobSM W) (s : String) (w : W) (log : List Event) : Ret W :=
  match mapGet sm.Handlers s with
  | some enterHandler =>
    match enterHandler.Enter w with
    | ((_, some err), w1) =>
      { next := "", err := some err, sm := sm, w := w1,
        log := log ++ [Event.enter s, Event.failed err] }
    | ((next, none), w1) =>
      { next := next, err := none,
        sm := { sm with PreviousState := sm.CurrentState, CurrentState := s }, w := w1,
        log := log ++ [Event.enter s, Event.entered s] }
  | none =>
    { next := models.JobContinue, err := none,
      sm := { sm with PreviousState := sm.CurrentState, CurrentState := s }, w := w,
      log := log ++ [Event.entered s] }

/-- Method `EnterState` (lines 43-73). -/
def EnterState (sm : JobSM W) (s : String) (w : W) : Ret W :=
  let targets := sm.successors sm.CurrentState
  let exist := decide (s ∈ targets)
  let isForced := decide (s ∈ sm.ForcedStates)
  if !exist && !isForced then
    { next := "", err := some (Error.noTransition sm.JobID sm.CurrentState s), sm := sm, w := w,
      log := [Event.call s, Event.failed (Error.noTransition sm.JobID sm.CurrentState s)] }
  else
    match mapGet sm.Handlers sm.CurrentState with
    | some exitHandler =>
      match exitHandler.Exit w with
      | (some err, w1) =>
        { next := "", err := some err, sm := sm, w := w1,
          log := [Event.call s, Event.exit sm.CurrentState, Event.failed err] }
      | (none, w1) => sm.enterTarget s w1 [Event.call s, Event.exit sm.CurrentState]
    | none => sm.enterTarget s w [Event.call s]

/-- Method `Stop` (lines 126-137). -/
def Stop (sm : JobSM W) (id : Int) : JobSM W :=
  if id = sm.JobID then { sm with desiredState := models.JobStopped } else sm

/-- Method `getDesiredState` (lines 139-143). -/
def getDesiredState (sm : JobSM W) : String := sm.desiredState

/-- Method `setDesiredState` (lines 145-149). -/
def setDesiredState (sm : JobSM W) (s : String) : JobSM W :=
  { sm with desiredState := s }

/-- The calls `Stop(id)`, for the ids of the list in order, made by other goroutines. -/
def stopAll (sm : JobSM W) (ids : List Int) : JobSM W :=
  ids.foldl Stop sm

end JobSM

/-- The run `r`, preceded by what the log `pre` records. -/
def Run.after {W : Type} (pre : List Event) (r : Run W) : Run W :=
  { r with log := pre ++ r.log }

/-- The states entered, in order: the targets of the successful `EnterState` calls. -/
def enteredStates : List Event → List String
  | [] => []
  | Event.entered s :: l => s :: enteredStates l
  | _ :: l => enteredStates l

/-- The targets of the `EnterState` calls, in order. -/
def calledStates : List Event → List String
  | [] => []
  | Event.call s :: l => s :: calledStates l
  | _ :: l => calledStates l

/-- An event that ends the loop of `Start` with an error: an `EnterState` call
returns an error, or a continuation is undecidable. -/
def Event.isFailure : Event → Bool
  | Event.failed _ => true
  | Event.undecidable => true
  | _ => false

namespace JobSM

variable {W : Type}

/-- The `for` loop of `Start` (lines 81-102), from its head with loop variables
`n` and `err`, after `k` calls of `EnterState`, for at most `fuel` iterations.
`len(n) > 0` holds exactly when `n` is not the empty string.  The `for ... range`
of lines 89-91 over a map of length 1 assigns its only key.  `stops k` are the
ids of the `Stop` calls which other goroutines make during the k-th
`EnterState` call. -/
def loop (stops : Nat → List Int) :
    Nat → Nat → String → Option Error → JobSM W → W → Run W
  | 0, _, n, err, sm, w =>
    { err := err, sm := sm, w := w, log := [],
      finished := !(decide (n ≠ "") && decide (err = none)) }
  | fuel + 1, k, n, err, sm, w =>
    if n ≠ "" ∧ err = none then
      let d := sm.getDesiredState
      if d ≠ "" then
        Run.after [Event.override d] (loop stops fuel k d err (sm.setDesiredState "") w)
      else if n = models.JobContinue ∧ (sm.successors sm.CurrentState).length = 1 then
        let t := (sm.successors sm.CurrentState).headD n
        Run.after [Event.cont t] (loop stops fuel k t err sm w)
      else if n = models.JobContinue ∧ (sm.successors sm.CurrentState).length ≠ 1 then
        { err := some Error.unableToContinue, sm := sm, w := w, log := [Event.undecidable],
          finished := true }
      else
        let r := sm.EnterState n w
        Run.after r.log (loop stops fuel (k + 1) r.next r.err (r.sm.stopAll (stops k)) r.w)
    else
      { err := err, sm := sm, w := w, log := [], finished := true }

/-- Lines 103-106 of `Start`: when the loop was left with an error, one call
`EnterState(models.JobError)` whose results are dropped.  A `Stop` call made during this last
call is read by nobody before the next `Reset` and is left out. -/
def finish (r : Run W) : Run W :=
  match r.err with
  | some _ =>
    let e := r.sm.EnterState models.JobError r.w
    { r with sm := e.sm, w := e.w, log := r.log ++ Event.fallback :: e.log }
  | none => r

/-- Method `Start` (lines 78-107), with the loop bounded by `fuel` iterations. -/
def Start (sm : JobSM W) (s : String) (w : W) (stops : Nat → List Int) (fuel : Nat) : Run W :=
  let r := sm.EnterState s w
  finish (Run.after r.log (loop stops fuel 1 r.next r.err (r.sm.stopAll (stops 0)) r.w))

/-- The rest of a run of `Start` from the head of its loop (lines 81-106). -/
def resume (stops : Nat → List Int) (fuel k : Nat) (n : String) (err : Option Error)
    (sm : JobSM W) (w : W) : Run W :=
  finish (loop stops fuel k n err sm w)

/-- Method `AddTransition` (lines 109-116). -/
def AddTransition (sm : JobSM W) (src dst : String) (h : StateHandler W) : JobSM W :=
  let tr := match mapGet sm.Transitions src with
    | some _ => sm.Transitions
    | none => mapSet sm.Transitions src []
  { sm with
    Transitions := mapSet tr src (setAdd ((mapGet tr src).getD []) dst)
    Handlers := mapSet sm.Handlers dst h }

/-- Method `RemoveTransition` (lines 118-124). -/
def RemoveTransition (sm : JobSM W) (src dst : String) : JobSM W :=
  match mapGet sm.Transitions src with
  | none => sm
  | some targets => { sm with Transitions := mapSet sm.Transitions src (setDel targets dst) }

/-- Method `Init` (lines 151-160). -/
def Init (sm : JobSM W) : JobSM W :=
  { sm with
    Handlers := []
    Transitions := []
    ForcedStates := [models.JobError, models.JobStopped, models.JobCanceled] }

end JobSM

/-- No `Stop` call is made during the run. -/
def noStops : Nat → List Int := fun _ => []

/-- One call `Stop(id)` by another goroutine, during the k-th `EnterState` call of the run
(the call that starts the run is the 0-th). -/
def stopDuring (k : Nat) (id : Int) : Nat → List Int :=
  fun i => if i = k then [id] else []

/-! ## Collaborators of `Reset` -/

/-- The fields of `models.RepJob` which `Reset` reads. -/
structure RepJob where
  PolicyID : Int
  Repository : String
  Operation : String
  TagList : List String
  deriving DecidableEq, Repr

/-- The fields of `models.RepPolicy` which `Reset` reads. -/
structure RepPolicy where
  TargetID : Int
  Enabled : Int
  deriving DecidableEq, Repr

/-- The fields of `models.RepTarget` which `Reset` reads. -/
structure RepTarget where
  URL : String
  Username : String
  Password : String
  deriving DecidableEq, Repr

/-- The functions and handler types of other packages which `Reset` and the two
graph builders use, taken as parameters.  `B` is `*replication.BaseHandler`.  A
data-layer lookup answers with an error, with a nil record (`none`) or with a
record. -/
structure Collab (W B : Type) where
  GetRepJob : Int → Except Error (Option RepJob)
  GetRepPolicy : Int → Except Error (Option RepPolicy)
  GetRepTarget : Int → Except Error (Option RepTarget)
  LocalHarborURL : String
  UISecret : String
  ReversibleDecrypt : String → Except Error String
  InitBaseHandler : String → String → String → String → String → String → List String →
    Except Error B
  Checker : B → StateHandler W
  ManifestPuller : B → StateHandler W
  BlobTransfer : B → StateHandler W
  ManifestPusher : B → StateHandler W
  NewDeleter : String → List String → String → String → String → StateHandler W
  StatusUpdater : Int → String → StateHandler W

section graph

variable {W B : Type}

/-- Function `addImgTransferTransition` (lines 237-251); `p` is the struct `sm.Parms` points to. -/
def addImgTransferTransition (c : Collab W B) (sm : JobSM W) (p : RepJobParm) :
    Option Error × JobSM W :=
  match c.InitBaseHandler p.Repository p.LocalRegURL c.UISecret p.TargetURL p.TargetUsername
      p.TargetPassword p.Tags with
  | Except.error err => (some err, sm)
  | Except.ok base =>
    let sm := sm.AddTransition models.JobRunning replication.StateCheck (c.Checker base)
    let sm := sm.AddTransition replication.StateCheck replication.StatePullManifest
      (c.ManifestPuller base)
    let sm := sm.AddTransition replication.StatePullManifest replication.StateTransferBlob
      (c.BlobTransfer base)
    let sm := sm.AddTransition replication.StatePullManifest models.JobFinished
      (c.StatusUpdater sm.JobID models.JobFinished)
    let sm := sm.AddTransition replication.StateTransferBlob replication.StatePushManifest
      (c.ManifestPusher base)
    let sm := sm.AddTransition replication.StatePushManifest replication.StatePullManifest
      (c.ManifestPuller base)
    (none, sm)

/-- Function `addImgDeleteTransition` (lines 253-261); `p` is the struct `sm.Parms` points to. -/
def addImgDeleteTransition (c : Collab W B) (sm : JobSM W) (p : RepJobParm) :
    Option Error × JobSM W :=
  let deleter := c.NewDeleter p.Repository p.Tags p.TargetURL p.TargetUsername p.TargetPassword
  let sm := sm.AddTransition models.JobRunning replication.StateDelete deleter
  let sm := sm.AddTransition replication.StateDelete models.JobFinished
    (c.StatusUpdater sm.JobID models.JobFinished)
  (none, sm)

/-- Lines 215-234 of `Reset`: the fresh handlers and table for the job; `p` is the
struct `sm.Parms` points to. -/
def JobSM.buildGraph (c : Collab W B) (sm : JobSM W) (p : RepJobParm) : Option Error × JobSM W :=
  let sm := { sm with Handlers := [], Transitions := [], CurrentState := models.JobPending }
  let sm := sm.AddTransition models.JobPending models.JobRunning
    (c.StatusUpdater sm.JobID models.JobRunning)
  let sm := { sm with
    Handlers := mapSet sm.Handlers models.JobError (c.StatusUpdater sm.JobID models.JobError) }
  let sm := { sm with
    Handlers := mapSet sm.Handlers models.JobStopped (c.StatusUpdater sm.JobID models.JobStopped) }
  if p.Operation = models.RepOpTransfer then addImgTransferTransition c sm p
  else if p.Operation = models.RepOpDelete then addImgDeleteTransition c sm p
  else (some (Error.unsupportedOperation p.Operation), sm)

/-- Method `Reset` (lines 162-235): the error returned and the engine left behind. -/
def JobSM.Reset (c : Collab W B) (sm : JobSM W) (jid : Int) : Option Error × JobSM W :=
  let sm := { sm with JobID := jid, desiredState := "" }
  match c.GetRepJob sm.JobID with
  | Except.error err => (some (Error.failedToGetJob err), sm)
  | Except.ok none => (some (Error.jobNotExist sm.JobID), sm)
  | Except.ok (some job) =>
    match c.GetRepPolicy job.PolicyID with
    | Except.error err => (some (Error.failedToGetPolicy err), sm)
    | Except.ok none => (some (Error.policyNotExist job.PolicyID), sm)
    | Except.ok (some policy) =>
      let p : RepJobParm :=
        { LocalRegURL := c.LocalHarborURL, TargetURL := "", TargetUsername := "",
          TargetPassword := "", Repository := job.Repository, Tags := job.TagList,
          Enabled := policy.Enabled, Operation := job.Operation }
      let sm := { sm with Parms := some p }
      if policy.Enabled = 0 then (none, sm)
      else
        match c.GetRepTarget policy.TargetID with
        | Except.error err => (some (Error.failedToGetTarget err), sm)
        | Except.ok none => (some (Error.targetNotExist policy.TargetID), sm)
        | Except.ok (some target) =>
          let p := { p with TargetURL := target.URL, TargetUsername := target.Username }
          let sm := { sm with Parms := some p }
          match (if target.Password ≠ "" then c.ReversibleDecrypt target.Password
                 else Except.ok target.Password) with
          | Except.error err => (some (Error.failedToDecrypt err), sm)
          | Except.ok pwd =>
            let p := { p with TargetPassword := pwd }
            let sm := { sm with Parms := some p }
            JobSM.buildGraph c sm p

end graph

/-! ## The handlers by their contract

The handler types live in packages outside the source files.  The contract the
spec gives for them is stated for any world and any collaborators
(`TransferContract`), and one concrete model of it is built (`Model`) for the
scenarios. -/

/-- Modelled from the spec: the contract of the handlers of a transfer job, which are
declared outside the source files (spec 4.3 and 4.4).  `tagsOf w` are the tags the
shared base handler has not processed yet in world `w`.  Every `Exit()` succeeds; the
status handler of `Running` returns the continuation sentinel, those of `Finished`,
`Stopped` and `Error` the empty next-state; Checker, BlobTransfer and ManifestPusher
succeed and return the continuation sentinel or their single successor; ManifestPuller
takes the next tag and returns `TransferBlob` while tags remain and returns `Finished`
once they are exhausted.  Only ManifestPuller changes the remaining tags. -/
structure TransferContract {W B : Type} (c : Collab W B) (tagsOf : W → List String) : Prop where
  statusExit : ∀ jid s w, (c.StatusUpdater jid s).Exit w = (none, w)
  runningEnter : ∀ jid w, ∃ w1,
    (c.StatusUpdater jid models.JobRunning).Enter w = ((models.JobContinue, none), w1) ∧
      tagsOf w1 = tagsOf w
  terminalEnter : ∀ jid s w,
    s = models.JobFinished ∨ s = models.JobStopped ∨ s = models.JobError →
      ∃ w1, (c.StatusUpdater jid s).Enter w = (("", none), w1) ∧ tagsOf w1 = tagsOf w
  checkerEnter : ∀ b w, ∃ n w1, (c.Checker b).Enter w = ((n, none), w1) ∧
    (n = models.JobContinue ∨ n = replication.StatePullManifest) ∧ tagsOf w1 = tagsOf w
  checkerExit : ∀ b w, ∃ w1, (c.Checker b).Exit w = (none, w1) ∧ tagsOf w1 = tagsOf w
  pullerMore : ∀ b w t ts, tagsOf w = t :: ts → ∃ w1,
    (c.ManifestPuller b).Enter w = ((replication.StateTransferBlob, none), w1) ∧ tagsOf w1 = ts
  pullerDone : ∀ b w, tagsOf w = [] → ∃ w1,
    (c.ManifestPuller b).Enter w = ((models.JobFinished, none), w1) ∧ tagsOf w1 = []
  pullerExit : ∀ b w, ∃ w1, (c.ManifestPuller b).Exit w = (none, w1) ∧ tagsOf w1 = tagsOf w
  blobEnter : ∀ b w, ∃ n w1, (c.BlobTransfer b).Enter w = ((n, none), w1) ∧
    (n = models.JobContinue ∨ n = replication.StatePushManifest) ∧ tagsOf w1 = tagsOf w
  blobExit : ∀ b w, ∃ w1, (c.BlobTransfer b).Exit w = (none, w1) ∧ tagsOf w1 = tagsOf w
  pusherEnter : ∀ b w, ∃ n w1, (c.ManifestPusher b).Enter w = ((n, none), w1) ∧
    (n = models.JobContinue ∨ n = replication.StatePullManifest) ∧ tagsOf w1 = tagsOf w
  pusherExit : ∀ b w, ∃ w1, (c.ManifestPusher b).Exit w = (none, w1) ∧ tagsOf w1 = tagsOf w

/-- Modelled from the spec: the contract of the handlers of a delete job, which are declared
outside the source files (spec 4.3 and 4.4).  `Exit()` of a status handler is a no-op; the
status handler of `Running` returns the continuation sentinel, those of `Finished`, `Stopped`
and `Error` the empty next-state; the Deleter succeeds and proceeds to `Finished`, by name
or by the continuation sentinel. -/
structure DeleteContract {W B : Type} (c : Collab W B) : Prop where
  statusExit : ∀ jid s w, (c.StatusUpdater jid s).Exit w = (none, w)
  runningEnter : ∀ jid w, ∃ w1,
    (c.StatusUpdater jid models.JobRunning).Enter w = ((models.JobContinue, none), w1)
  terminalEnter : ∀ jid s w,
    s = models.JobFinished ∨ s = models.JobStopped ∨ s = models.JobError →
      ∃ w1, (c.StatusUpdater jid s).Enter w = (("", none), w1)
  deleterEnter : ∀ repo tags url user pwd w, ∃ n w1,
    (c.NewDeleter repo tags url user pwd).Enter w = ((n, none), w1) ∧
      (n = models.JobContinue ∨ n = models.JobFinished)
  deleterExit : ∀ repo tags url user pwd w, ∃ w1,
    (c.NewDeleter repo tags url user pwd).Exit w = (none, w1)

namespace Model

/-- The world of the scenarios: the tags the shared base handler has still to process,
and the statuses persisted for jobs so far, oldest first. -/
structure World where
  tags : List String
  persisted : List (Int × String)
  deriving DecidableEq, Repr

/-- Modelled from the spec: the type `StatusUpdater`, declared outside the source files
(spec 4.3).  `Enter()` persists the status and returns the empty next-state, except for
`Running`, where it returns the continuation sentinel; `Exit()` is a no-op. -/
def StatusUpdater (jid : Int) (state : String) : StateHandler World where
  Enter := fun w =>
    ((if state = models.JobRunning then models.JobContinue else "", none),
      { w with persisted := w.persisted ++ [(jid, state)] })
  Exit := fun w => (none, w)

/-- Modelled from the spec: a replication handler that succeeds and returns `next`
(Checker, BlobTransfer, ManifestPusher, Deleter of spec 4.4, declared outside the source
files), `next` being the continuation sentinel or the single successor. -/
def stepHandler (next : String) : StateHandler World where
  Enter := fun w => ((next, none), w)
  Exit := fun w => (none, w)

/-- Modelled from the spec: the type `ManifestPuller`, declared outside the source files
(spec 4.4): `TransferBlob` for the next unprocessed tag, `Finished` when no tag remains. -/
def ManifestPuller : StateHandler World where
  Enter := fun w =>
    match w.tags with
    | [] => ((models.JobFinished, none), w)
    | _ :: ts => ((replication.StateTransferBlob, none), { w with tags := ts })
  Exit := fun w => (none, w)

/-- A handler whose `Enter()` fails. -/
def failingEnter (msg : String) : StateHandler World where
  Enter := fun w => (("", some (Error.ext msg)), w)
  Exit := fun w => (none, w)

/-- A handler whose `Exit()` fails; its `Enter()` returns `next`. -/
def failingExit (next : String) (msg : String) : StateHandler World where
  Enter := fun w => ((next, none), w)
  Exit := fun w => (some (Error.ext msg), w)

/-- The data layer holding job 1 (policy 1, repository library/app, the given operation and
tags), policy 1 (target 1, the given enabled flag) and target 1 with an empty password; the
replication handlers return the continuation sentinel when `explicit` is false and their
single successor when it is true. -/
def collab (operation : String) (tags : List String) (enabled : Int) (explicit : Bool) :
    Collab World Unit where
  GetRepJob := fun id =>
    if id = 1 then
      Except.ok (some { PolicyID := 1, Repository := "library/app", Operation := operation,
                        TagList := tags })
    else Except.ok none
  GetRepPolicy := fun id =>
    if id = 1 then Except.ok (some { TargetID := 1, Enabled := enabled }) else Except.ok none
  GetRepTarget := fun id =>
    if id = 1 then
      Except.ok (some { URL := "registry.example", Username := "admin", Password := "" })
    else Except.ok none
  LocalHarborURL := "local.example"
  UISecret := "secret"
  ReversibleDecrypt := fun s => Except.ok s
  InitBaseHandler := fun _ _ _ _ _ _ _ => Except.ok ()
  Checker := fun _ =>
    stepHandler (if explicit then replication.StatePullManifest else models.JobContinue)
  ManifestPuller := fun _ => ManifestPuller
  BlobTransfer := fun _ =>
    stepHandler (if explicit then replication.StatePushManifest else models.JobContinue)
  ManifestPusher := fun _ =>
    stepHandler (if explicit then replication.StatePullManifest else models.JobContinue)
  NewDeleter := fun _ _ _ _ _ =>
    stepHandler (if explicit then models.JobFinished else models.JobContinue)
  StatusUpdater := StatusUpdater

/-- A zero-valued engine after `Init`. -/
def fresh : JobSM World :=
  JobSM.Init
    { JobID := 0, CurrentState := "", PreviousState := "", ForcedStates := [],
      Transitions := [], Handlers := [], desiredState := "", Parms := none }

/-- The engine after `Init` and `Reset(1)` for the transfer job with tags t1, t2. -/
def transferSM (explicit : Bool) : JobSM World :=
  (JobSM.Reset (collab models.RepOpTransfer ["t1", "t2"] 1 explicit) fresh 1).2

/-- The world in which the transfer job with tags t1, t2 starts. -/
def w0 : World := { tags := ["t1", "t2"], persisted := [] }

end Model

/-! ## Notions used to state the properties -/

section notions

variable {W : Type}

/-- The world `Exit()` of the handler bound to the current state leaves behind; the world
itself when no handler is bound to the current state. -/
def JobSM.exitWorld (sm : JobSM W) (w : W) : W :=
  match mapGet sm.Handlers sm.CurrentState with
  | some h => (h.Exit w).2
  | none => w

/-- The handler methods a successful `EnterState(s)` invokes, in order. -/
def JobSM.handlerCalls (sm : JobSM W) (s : String) : List Event :=
  (match mapGet sm.Handlers sm.CurrentState with
    | some _ => [Event.exit sm.CurrentState]
    | none => []) ++
  (match mapGet sm.Handlers s with
    | some _ => [Event.enter s]
    | none => [])

/-- An event that is neither a failure nor the fallback of `Start`. -/
def Event.quiet : Event → Bool
  | Event.failed _ => false
  | Event.undecidable => false
  | Event.fallback => false
  | _ => true

/-- A log in which nothing fails when `err` is nil, and in which the failure is the last
event, and the only one, when `err` is an error; with no fallback in either case. -/
def failsLast (err : Option Error) (log : List Event) : Prop :=
  (err = none ∧ ∀ x ∈ log, x.quiet = true) ∨
  (err ≠ none ∧ ∃ p f, log = p ++ [f] ∧ f.isFailure = true ∧ ∀ x ∈ p, x.quiet = true)

/-- The table after `AddTransition(src, dst, h)` on an engine with table `t` (lines 110-114). -/
def addEdge (t : List (String × List String)) (src dst : String) : List (String × List String) :=
  let tr := match mapGet t src with
    | some _ => t
    | none => mapSet t src []
  mapSet tr src (setAdd ((mapGet tr src).getD []) dst)

/-- The table `Reset` builds for a transfer job. -/
def transferTable : List (String × List String) :=
  [(models.JobPending, [models.JobRunning]),
   (models.JobRunning, [replication.StateCheck]),
   (replication.StateCheck, [replication.StatePullManifest]),
   (replication.StatePullManifest, [replication.StateTransferBlob, models.JobFinished]),
   (replication.StateTransferBlob, [replication.StatePushManifest]),
   (replication.StatePushManifest, [replication.StatePullManifest])]

/-- The handler bindings `Reset` builds for the transfer job `jid` with base handler `b`. -/
def transferHandlers {W B : Type} (c : Collab W B) (b : B) (jid : Int) :
    List (String × StateHandler W) :=
  [(models.JobRunning, c.StatusUpdater jid models.JobRunning),
   (models.JobError, c.StatusUpdater jid models.JobError),
   (models.JobStopped, c.StatusUpdater jid models.JobStopped),
   (replication.StateCheck, c.Checker b),
   (replication.StatePullManifest, c.ManifestPuller b),
   (replication.StateTransferBlob, c.BlobTransfer b),
   (models.JobFinished, c.StatusUpdater jid models.JobFinished),
   (replication.StatePushManifest, c.ManifestPusher b)]

/-- The engine `Reset` leaves for the transfer job `jid`, seen in current state `cur` with
previous state `prev` and an empty desired-state slot. -/
def transferEngine {W B : Type} (c : Collab W B) (b : B) (jid : Int) (p : RepJobParm)
    (forced : List String) (prev cur : String) : JobSM W :=
  { JobID := jid, CurrentState := cur, PreviousState := prev, ForcedStates := forced,
    Transitions := transferTable, Handlers := transferHandlers c b jid, desiredState := "",
    Parms := some p }

/-- The states of `n` rounds PullManifest, TransferBlob, PushManifest. -/
def transferCycles : Nat → List String
  | 0 => []
  | n + 1 =>
    replication.StatePullManifest :: replication.StateTransferBlob ::
      replication.StatePushManifest :: transferCycles n

/-- From the head of the loop with next-state `n`, engine `g` and world `w`, after `k` calls of
`EnterState`, every bound of at least `bound` iterations lets the loop end without error,
having entered exactly the states `entered`, with `CurrentState` = `final`. -/
def RunsTo {W : Type} (stops : Nat → List Int) (bound k : Nat) (n : String) (g : JobSM W)
    (w : W) (entered : List String) (final : String) : Prop :=
  ∀ fuel, bound ≤ fuel →
    (JobSM.loop stops fuel k n none g w).finished = true ∧
    (JobSM.loop stops fuel k n none g w).err = none ∧
    enteredStates (JobSM.loop stops fuel k n none g w).log = entered ∧
    (JobSM.loop stops fuel k n none g w).sm.CurrentState = final

/-- The targets of the `Exit()` invocations, in order: the states whose handler was asked to
exit. -/
def exitedStates : List Event → List String
  | [] => []
  | Event.exit s :: l => s :: exitedStates l
  | _ :: l => exitedStates l

/-- The states whose handler had `Enter()` invoked, in order. -/
def enterCalls : List Event → List String
  | [] => []
  | Event.enter s :: l => s :: enterCalls l
  | _ :: l => enterCalls l

/-- The table `Reset` builds for a delete job. -/
def deleteTable : List (String × List String) :=
  [(models.JobPending, [models.JobRunning]),
   (models.JobRunning, [replication.StateDelete]),
   (replication.StateDelete, [models.JobFinished])]

/-- The handler bindings `Reset` builds for the delete job `jid` with parameters `p`. -/
def deleteHandlers {W B : Type} (c : Collab W B) (p : RepJobParm) (jid : Int) :
    List (String × StateHandler W) :=
  [(models.JobRunning, c.StatusUpdater jid models.JobRunning),
   (models.JobError, c.StatusUpdater jid models.JobError),
   (models.JobStopped, c.StatusUpdater jid models.JobStopped),
   (replication.StateDelete,
     c.NewDeleter p.Repository p.Tags p.TargetURL p.TargetUsername p.TargetPassword),
   (models.JobFinished, c.StatusUpdater jid models.JobFinished)]

/-- The engine `Reset` leaves for the delete job `jid`, seen in current state `cur` with
previous state `prev` and an empty desired-state slot. -/
def deleteEngine {W B : Type} (c : Collab W B) (jid : Int) (p : RepJobParm)
    (forced : List String) (prev cur : String) : JobSM W :=
  { JobID := jid, CurrentState := cur, PreviousState := prev, ForcedStates := forced,
    Transitions := deleteTable, Handlers := deleteHandlers c p jid, desiredState := "",
    Parms := some p }

end notions

/-! ## Further scenarios -/

namespace Model

/-- A small engine after `Init`: its table is a → b, the handler bound to b returns the
continuation sentinel, the current state is a. -/
def tinySM : JobSM World :=
  JobSM.AddTransition { fresh with CurrentState := "a", JobID := 7 } "a" "b"
    (stepHandler models.JobContinue)

/-- An engine after `Init` with the table pending → a, a → "": the only successor of a is the
empty string.  The handler bound to a returns the continuation sentinel. -/
def emptySuccessorSM : JobSM World :=
  JobSM.AddTransition
    (JobSM.AddTransition { fresh with CurrentState := "pending" } "pending" "a"
      (stepHandler models.JobContinue))
    "a" "" (stepHandler "")

/-- An engine after `Init` with the table pending → a, where a has no successor.  The handler
bound to a returns the continuation sentinel; the status handler bound to Error fails to
persist the status. -/
def deadEndSM : JobSM World :=
  let sm := JobSM.AddTransition { fresh with CurrentState := "pending" } "pending" "a"
    (stepHandler models.JobContinue)
  { sm with Handlers := mapSet sm.Handlers models.JobError (failingEnter "cannot persist") }

/-- The collaborators of `collab` for the transfer job with tags t1, t2 and an enabled policy,
except that `Enter()` of the ManifestPuller succeeds and returns `next`. -/
def collabPull (next : String) : Collab World Unit :=
  { collab models.RepOpTransfer ["t1", "t2"] 1 false with
    ManifestPuller := fun _ => stepHandler next }

/-- The engine after `Init` and `Reset(1)` with the collaborators `collabPull next`. -/
def pullSM (next : String) : JobSM World :=
  (JobSM.Reset (collabPull next) fresh 1).2

/-- The parameters `Reset(1)` records for the transfer job with tags t1, t2. -/
def parms : RepJobParm :=
  { LocalRegURL := "local.example", TargetURL := "registry.example", TargetUsername := "admin",
    TargetPassword := "", Repository := "library/app", Tags := ["t1", "t2"], Enabled := 1,
    Operation := models.RepOpTransfer }

/-- An engine after `Init` with the table pending → a, a → _continue: the only successor of a
is the continuation sentinel.  The handler bound to a returns the continuation sentinel. -/
def sentinelSuccessorSM : JobSM World :=
  JobSM.AddTransition
    (JobSM.AddTransition { fresh with CurrentState := "pending" } "pending" "a"
      (stepHandler models.JobContinue))
    "a" models.JobContinue (stepHandler "")

/-- An engine after `Init`, bound to job 1, in state a, where the handler bound to a proposed
b (table a → b) and its `Exit()` fails. -/
def failingExitSM : JobSM World :=
  let sm := JobSM.AddTransition { fresh with CurrentState := "a", JobID := 1 } "a" "b"
    (stepHandler "")
  { sm with Handlers := mapSet sm.Handlers "a" (failingExit "b" "cannot leave") }

/-- The engine after `Init` and `Reset(1)` for the delete job with tags t1, t2. -/
def deleteSM (explicit : Bool) : JobSM World :=
  (JobSM.Reset (collab models.RepOpDelete ["t1", "t2"] 1 explicit) fresh 1).2

/-- The parameters `Reset(1)` records for the delete job with tags t1, t2. -/
def parmsDelete : RepJobParm :=
  { parms with Operation := models.RepOpDelete }

/-- The collaborators of `collab` for the transfer job with tags t1, t2 and an enabled policy,
except that the Checker proposes Canceled and its `Exit()` fails. -/
def collabCancel : Collab World Unit :=
  { collab models.RepOpTransfer ["t1", "t2"] 1 false with
    Checker := fun _ => failingExit models.JobCanceled "cannot leave" }

/-- The engine after `Init` and `Reset(1)` with the collaborators `collabCancel`. -/
def cancelSM : JobSM World :=
  (JobSM.Reset collabCancel fresh 1).2

/-- The collaborators of `collab` for the transfer job with tags t1, t2 and an enabled policy,
except that target 1 has the stored password `pwd` and decryption fails. -/
def collabSealed (pwd : String) : Collab World Unit :=
  { collab models.RepOpTransfer ["t1", "t2"] 1 false with
    GetRepTarget := fun id =>
      if id = 1 then
        Except.ok (some { URL := "registry.example", Username := "admin", Password := pwd })
      else Except.ok none
    ReversibleDecrypt := fun _ => Except.error (Error.ext "bad key") }

/-- The collaborators of `collab` with a data layer that holds no target. -/
def collabNoTarget (operation : String) (enabled : Int) : Collab World Unit :=
  { collab operation ["t1", "t2"] enabled false with
    GetRepTarget := fun _ => Except.ok none }

/-- The handler bound to b in the scenario of adding and removing the edge a → b. -/
def handlerB : StateHandler World := stepHandler ""

/-- A handler whose `Exit()` succeeds once, while tags remain to release, and fails
afterwards; its `Enter()` returns `next`. -/
def exitOnce (next : String) : StateHandler World where
  Enter := fun w => ((next, none), w)
  Exit := fun w =>
    match w.tags with
    | [] => (some (Error.ext "already left"), w)
    | _ :: _ => (none, { w with tags := [] })

/-- An engine after `Init`, bound to job 1, in state a with the table a → b, where `Enter()`
of the handler bound to b fails and `Exit()` of the handler bound to a succeeds once. -/
def enterFailsSM : JobSM World :=
  let sm := JobSM.AddTransition { fresh with CurrentState := "a", JobID := 1 } "a" "b"
    (failingEnter "cannot enter")
  { sm with Handlers := mapSet sm.Handlers "a" (exitOnce "b") }

end Model

/-! ## Lemmas on `EnterState` -/

section enterState

variable {W : Type}

theorem enterState_refused (sm : JobSM W) (s : String) (w : W)
    (hsucc : s ∉ sm.successors sm.CurrentState) (hforced : s ∉ sm.ForcedStates) :
    sm.EnterState s w =
      { next := "", err := some (Error.noTransition sm.JobID sm.CurrentState s), sm := sm, w := w,
        log := [Event.call s, Event.failed (Error.noTransition sm.JobID sm.CurrentState s)] } := by
  simp [JobSM.EnterState, hsucc, hforced]

theorem enterState_allowed (sm : JobSM W) (s : String) (w : W)
    (hs : s ∈ sm.successors sm.CurrentState ∨ s ∈ sm.ForcedStates)
    (hexit : ∀ h, mapGet sm.Handlers sm.CurrentState = some h → (h.Exit w).1 = none)
    (henter : ∀ h, mapGet sm.Handlers s = some h → (h.Enter (sm.exitWorld w)).1.2 = none) :
    sm.EnterState s w =
      { next := match mapGet sm.Handlers s with
          | some h => (h.Enter (sm.exitWorld w)).1.1
          | none => models.JobContinue
        err := none
        sm := { sm with PreviousState := sm.CurrentState, CurrentState := s }
        w := match mapGet sm.Handlers s with
          | some h => (h.Enter (sm.exitWorld w)).2
          | none => sm.exitWorld w
        log := Event.call s :: (sm.handlerCalls s ++ [Event.entered s]) } := by
  have hguard : (!decide (s ∈ sm.successors sm.CurrentState) && !decide (s ∈ sm.ForcedStates))
      = false := by
    rcases hs with h | h <;> simp [h]
  unfold JobSM.EnterState
  simp only [hguard]
  unfold JobSM.exitWorld JobSM.handlerCalls at *
  cases hx : mapGet sm.Handlers sm.CurrentState with
  | none =>
    simp only [hx] at henter
    cases he : mapGet sm.Handlers s with
    | none => simp [JobSM.enterTarget, he]
    | some eh =>
      have h2 := henter eh he
      rcases hE : eh.Enter w with ⟨⟨n, e⟩, w1⟩
      rw [hE] at h2
      simp only at h2
      subst h2
      simp [JobSM.enterTarget, he, hE]
  | some xh =>
    simp only [hx] at henter
    have h1 := hexit xh hx
    rcases hX : xh.Exit w with ⟨e0, w0⟩
    rw [hX] at h1
    simp only at h1
    subst h1
    simp only [hX] at henter
    cases he : mapGet sm.Handlers s with
    | none => simp [JobSM.enterTarget, he, hX]
    | some eh =>
      have h2 := henter eh he
      rcases hE : eh.Enter w0 with ⟨⟨n, e⟩, w1⟩
      rw [hE] at h2
      simp only at h2
      subst h2
      simp [JobSM.enterTarget, he, hE, hX]

end enterState

/-! ## Lemmas on the loop of `Start` -/

section loopLemmas

variable {W : Type}

theorem enteredStates_append (a b : List Event) :
    enteredStates (a ++ b) = enteredStates a ++ enteredStates b := by
  induction a with
  | nil => rfl
  | cons e a ih =>
    cases e <;> simp [enteredStates, ih]

theorem calledStates_append (a b : List Event) :
    calledStates (a ++ b) = calledStates a ++ calledStates b := by
  induction a with
  | nil => rfl
  | cons e a ih =>
    cases e <;> simp [calledStates, ih]

theorem enterTarget_log (sm : JobSM W) (s : String) (w : W) (pre : List Event) :
    ∃ rest, (sm.enterTarget s w pre).log = pre ++ rest ∧ calledStates rest = [] ∧
      Event.fallback ∉ rest := by
  cases hm : mapGet sm.Handlers s with
  | none => exact ⟨[Event.entered s], by simp [JobSM.enterTarget, hm], rfl, by simp⟩
  | some eh =>
    rcases hE : eh.Enter w with ⟨⟨n, e⟩, w1⟩
    cases e with
    | none =>
      exact ⟨[Event.enter s, Event.entered s], by simp [JobSM.enterTarget, hm, hE], rfl, by simp⟩
    | some e =>
      exact ⟨[Event.enter s, Event.failed e], by simp [JobSM.enterTarget, hm, hE], rfl, by simp⟩

theorem enterState_log_head (sm : JobSM W) (s : String) (w : W) :
    ∃ rest, (sm.EnterState s w).log = Event.call s :: rest ∧ calledStates rest = [] ∧
      Event.fallback ∉ rest := by
  by_cases hg : (!decide (s ∈ sm.successors sm.CurrentState) && !decide (s ∈ sm.ForcedStates))
      = true
  · exact ⟨[Event.failed (Error.noTransition sm.JobID sm.CurrentState s)],
      by simp only [JobSM.EnterState, hg, if_true], rfl, by simp⟩
  · cases hm : mapGet sm.Handlers sm.CurrentState with
    | none =>
      obtain ⟨rest, h1, h2, h3⟩ := enterTarget_log sm s w [Event.call s]
      refine ⟨rest, ?_, h2, h3⟩
      simp only [JobSM.EnterState, hg, hm]
      simpa using h1
    | some xh =>
      rcases hX : xh.Exit w with ⟨e, w1⟩
      cases e with
      | some e =>
        exact ⟨[Event.exit sm.CurrentState, Event.failed e],
          by simp [JobSM.EnterState, hg, hm, hX], rfl, by simp⟩
      | none =>
        obtain ⟨rest, h1, h2, h3⟩ :=
          enterTarget_log sm s w1 [Event.call s, Event.exit sm.CurrentState]
        refine ⟨Event.exit sm.CurrentState :: rest, ?_, ?_, ?_⟩
        · simp only [JobSM.EnterState, hg, hm, hX]
          simpa using h1
        · simpa [calledStates] using h2
        · simpa using h3

theorem loop_exit (stops : Nat → List Int) (fuel k : Nat) (n : String) (err : Option Error)
    (sm : JobSM W) (w : W) (h : ¬ (n ≠ "" ∧ err = none)) :
    JobSM.loop stops fuel k n err sm w =
      { err := err, sm := sm, w := w, log := [], finished := true } := by
  cases fuel with
  | zero =>
    have hb : (decide (n ≠ "") && decide (err = none)) = false := by
      by_cases h1 : n ≠ "" <;> by_cases h2 : err = none <;> simp_all
    simp only [JobSM.loop, hb]
    rfl
  | succ f => simp only [JobSM.loop, h, if_false]

theorem loop_override (stops : Nat → List Int) (fuel k : Nat) (n : String)
    (sm : JobSM W) (w : W) (hn : n ≠ "") (hd : sm.desiredState ≠ "") :
    JobSM.loop stops (fuel + 1) k n none sm w =
      Run.after [Event.override sm.desiredState]
        (JobSM.loop stops fuel k sm.desiredState none (sm.setDesiredState "") w) := by
  simp [JobSM.loop, hn, hd, JobSM.getDesiredState]

theorem loop_cont (stops : Nat → List Int) (fuel k : Nat) (sm : JobSM W) (w : W) (t : String)
    (hd : sm.desiredState = "") (hsucc : sm.successors sm.CurrentState = [t]) :
    JobSM.loop stops (fuel + 1) k models.JobContinue none sm w =
      Run.after [Event.cont t] (JobSM.loop stops fuel k t none sm w) := by
  have hc : models.JobContinue ≠ "" := by decide
  simp [JobSM.loop, hc, hd, JobSM.getDesiredState, hsucc]

theorem loop_undecidable (stops : Nat → List Int) (fuel k : Nat) (sm : JobSM W) (w : W)
    (hd : sm.desiredState = "") (hsucc : (sm.successors sm.CurrentState).length ≠ 1) :
    JobSM.loop stops (fuel + 1) k models.JobContinue none sm w =
      { err := some Error.unableToContinue, sm := sm, w := w, log := [Event.undecidable],
        finished := true } := by
  have hc : models.JobContinue ≠ "" := by decide
  simp [JobSM.loop, hc, hd, JobSM.getDesiredState, hsucc]

theorem loop_call (stops : Nat → List Int) (fuel k : Nat) (n : String) (sm : JobSM W) (w : W)
    (hn : n ≠ "") (hc : n ≠ models.JobContinue) (hd : sm.desiredState = "") :
    JobSM.loop stops (fuel + 1) k n none sm w =
      Run.after (sm.EnterState n w).log
        (JobSM.loop stops fuel (k + 1) (sm.EnterState n w).next (sm.EnterState n w).err
          ((sm.EnterState n w).sm.stopAll (stops k)) (sm.EnterState n w).w) := by
  simp [JobSM.loop, hn, hc, hd, JobSM.getDesiredState]

theorem finish_after (pre : List Event) (r : Run W) :
    JobSM.finish (Run.after pre r) = Run.after pre (JobSM.finish r) := by
  unfold JobSM.finish Run.after
  cases h : r.err <;> simp [h]

theorem finish_of_no_error (r : Run W) (h : r.err = none) : JobSM.finish r = r := by
  unfold JobSM.finish
  simp [h]

theorem Start_eq (sm : JobSM W) (s : String) (w : W) (stops : Nat → List Int) (fuel : Nat) :
    sm.Start s w stops fuel =
      Run.after (sm.EnterState s w).log
        (JobSM.finish (JobSM.loop stops fuel 1 (sm.EnterState s w).next (sm.EnterState s w).err
          ((sm.EnterState s w).sm.stopAll (stops 0)) (sm.EnterState s w).w)) := by
  unfold JobSM.Start
  simp only [finish_after]

end loopLemmas

/-! ## Outcome of one `EnterState` call -/

section outcome

variable {W : Type}

theorem enterTarget_outcome (sm : JobSM W) (s : String) (w : W) (pre : List Event)
    (hpre : enteredStates pre = []) :
    ((sm.enterTarget s w pre).err = none ∧
        (sm.enterTarget s w pre).sm =
          { sm with PreviousState := sm.CurrentState, CurrentState := s } ∧
        enteredStates (sm.enterTarget s w pre).log = [s]) ∨
    ((sm.enterTarget s w pre).err ≠ none ∧ (sm.enterTarget s w pre).next = "" ∧
        (sm.enterTarget s w pre).sm = sm ∧ enteredStates (sm.enterTarget s w pre).log = []) := by
  have happ : ∀ l, enteredStates (pre ++ l) = enteredStates l := by
    intro l
    induction pre with
    | nil => rfl
    | cons e pre ih =>
      cases e <;> simp_all [enteredStates]
  cases hm : mapGet sm.Handlers s with
  | none => left; simp [JobSM.enterTarget, hm, happ, enteredStates]
  | some eh =>
    rcases hE : eh.Enter w with ⟨⟨n, e⟩, w1⟩
    cases e with
    | none => left; simp [JobSM.enterTarget, hm, hE, happ, enteredStates]
    | some e => right; simp [JobSM.enterTarget, hm, hE, happ, enteredStates]

theorem enterState_outcome (sm : JobSM W) (s : String) (w : W) :
    ((sm.EnterState s w).err = none ∧
        (sm.EnterState s w).sm = { sm with PreviousState := sm.CurrentState, CurrentState := s } ∧
        enteredStates (sm.EnterState s w).log = [s]) ∨
    ((sm.EnterState s w).err ≠ none ∧ (sm.EnterState s w).next = "" ∧
        (sm.EnterState s w).sm = sm ∧ enteredStates (sm.EnterState s w).log = []) := by
  by_cases hg : (!decide (s ∈ sm.successors sm.CurrentState) && !decide (s ∈ sm.ForcedStates))
      = true
  · right
    simp [JobSM.EnterState, hg, enteredStates]
  · cases hm : mapGet sm.Handlers sm.CurrentState with
    | none =>
      have h := enterTarget_outcome sm s w [Event.call s] rfl
      simpa only [JobSM.EnterState, hg, hm] using h
    | some xh =>
      rcases hX : xh.Exit w with ⟨e, w1⟩
      cases e with
      | some e =>
        right
        simp [JobSM.EnterState, hg, hm, hX, enteredStates]
      | none =>
        have h := enterTarget_outcome sm s w1 [Event.call s, Event.exit sm.CurrentState] rfl
        simpa only [JobSM.EnterState, hg, hm, hX] using h

theorem forced_of_init (sm : JobSM W) (s : String)
    (hF : sm.ForcedStates = (JobSM.Init sm).ForcedStates)
    (hs : s = models.JobError ∨ s = models.JobStopped ∨ s = models.JobCanceled) :
    s ∈ sm.ForcedStates := by
  rw [hF]
  simp only [JobSM.Init, List.mem_cons]
  tauto

end outcome

/-! ## Failures during a run -/

section failures

variable {W : Type}

theorem first_failure_unique :
    ∀ (pre pre2 : List Event) (e e2 : Event) (post post2 : List Event),
      pre ++ e :: post = pre2 ++ e2 :: post2 → e.isFailure = true → e2.isFailure = true →
      (∀ x ∈ pre, x.isFailure = false) → (∀ x ∈ pre2, x.isFailure = false) →
      pre = pre2 ∧ e = e2 ∧ post = post2 := by
  intro pre
  induction pre with
  | nil =>
    intro pre2 e e2 post post2 h he he2 _ hp2
    cases pre2 with
    | nil =>
      simp only [List.nil_append, List.cons.injEq] at h
      exact ⟨rfl, h.1, h.2⟩
    | cons y ys =>
      simp only [List.nil_append, List.cons_append, List.cons.injEq] at h
      have := hp2 y (by simp)
      rw [← h.1, he] at this
      cases this
  | cons a as ih =>
    intro pre2 e e2 post post2 h he he2 hp hp2
    cases pre2 with
    | nil =>
      simp only [List.nil_append, List.cons_append, List.cons.injEq] at h
      have := hp a (by simp)
      rw [h.1, he2] at this
      cases this
    | cons y ys =>
      simp only [List.cons_append, List.cons.injEq] at h
      obtain ⟨h1, h2, h3⟩ := ih ys e e2 post post2 h.2 he he2
        (fun x hx => hp x (by simp [hx])) (fun x hx => hp2 x (by simp [hx]))
      exact ⟨by rw [h.1, h1], h2, h3⟩

theorem quiet_not_failure (x : Event) (h : x.quiet = true) : x.isFailure = false := by
  cases x <;> first | rfl | cases h

theorem quiet_not_fallback (x : Event) (h : x.quiet = true) : x ≠ Event.fallback := by
  intro hx
  subst hx
  cases h

theorem failsLast_append (pre log : List Event) (err : Option Error)
    (hpre : ∀ x ∈ pre, x.quiet = true) (h : failsLast err log) : failsLast err (pre ++ log) := by
  rcases h with ⟨h1, h2⟩ | ⟨h1, p, f, h2, h3, h4⟩
  · left
    refine ⟨h1, ?_⟩
    intro x hx
    rcases List.mem_append.1 hx with h | h
    · exact hpre x h
    · exact h2 x h
  · right
    refine ⟨h1, pre ++ p, f, by rw [h2, List.append_assoc], h3, ?_⟩
    intro x hx
    rcases List.mem_append.1 hx with h | h
    · exact hpre x h
    · exact h4 x h

theorem enterTarget_failsLast (sm : JobSM W) (s : String) (w : W) (pre : List Event)
    (hpre : ∀ x ∈ pre, x.quiet = true) :
    failsLast (sm.enterTarget s w pre).err (sm.enterTarget s w pre).log := by
  cases hm : mapGet sm.Handlers s with
  | none =>
    left
    simp only [JobSM.enterTarget, hm, true_and]
    intro x hx
    rcases List.mem_append.1 hx with h | h
    · exact hpre x h
    · simp only [List.mem_singleton] at h
      subst h
      rfl
  | some eh =>
    rcases hE : eh.Enter w with ⟨⟨n, e⟩, w1⟩
    cases e with
    | none =>
      left
      simp only [JobSM.enterTarget, hm, hE, true_and]
      intro x hx
      rcases List.mem_append.1 hx with h | h
      · exact hpre x h
      · simp only [List.mem_cons, List.mem_singleton, List.not_mem_nil, or_false] at h
        rcases h with h | h <;> subst h <;> rfl
    | some e =>
      right
      simp only [JobSM.enterTarget, hm, hE]
      refine ⟨by simp, pre ++ [Event.enter s], Event.failed e, by simp, rfl, ?_⟩
      intro x hx
      rcases List.mem_append.1 hx with h | h
      · exact hpre x h
      · simp only [List.mem_singleton] at h
        subst h
        rfl

theorem enterState_failsLast (sm : JobSM W) (s : String) (w : W) :
    failsLast (sm.EnterState s w).err (sm.EnterState s w).log := by
  by_cases hg : (!decide (s ∈ sm.successors sm.CurrentState) && !decide (s ∈ sm.ForcedStates))
      = true
  · right
    simp only [JobSM.EnterState, hg, if_true]
    refine ⟨by simp, [Event.call s], _, rfl, rfl, ?_⟩
    intro x hx
    simp only [List.mem_singleton] at hx
    subst hx
    rfl
  · cases hm : mapGet sm.Handlers sm.CurrentState with
    | none =>
      have h := enterTarget_failsLast sm s w [Event.call s]
        (by intro x hx; simp only [List.mem_singleton] at hx; subst hx; rfl)
      simpa only [JobSM.EnterState, hg, hm] using h
    | some xh =>
      rcases hX : xh.Exit w with ⟨e, w1⟩
      cases e with
      | some e =>
        right
        simp only [JobSM.EnterState, hg, hm, hX]
        refine ⟨by simp, [Event.call s, Event.exit sm.CurrentState], _, rfl, rfl, ?_⟩
        intro x hx
        simp only [List.mem_cons, List.mem_singleton, List.not_mem_nil, or_false] at hx
        rcases hx with h | h <;> subst h <;> rfl
      | none =>
        have h := enterTarget_failsLast sm s w1 [Event.call s, Event.exit sm.CurrentState]
          (by
            intro x hx
            simp only [List.mem_cons, List.mem_singleton, List.not_mem_nil, or_false] at hx
            rcases hx with h | h <;> subst h <;> rfl)
        simpa only [JobSM.EnterState, hg, hm, hX] using h

theorem loop_failsLast (stops : Nat → List Int) :
    ∀ (fuel k : Nat) (n : String) (sm : JobSM W) (w : W),
      failsLast (JobSM.loop stops fuel k n none sm w).err
          (JobSM.loop stops fuel k n none sm w).log ∧
        ((JobSM.loop stops fuel k n none sm w).err ≠ none →
          (JobSM.loop stops fuel k n none sm w).finished = true) := by
  intro fuel
  induction fuel with
  | zero =>
    intro k n sm w
    exact ⟨Or.inl ⟨rfl, by simp [JobSM.loop]⟩, fun h => absurd rfl h⟩
  | succ f ih =>
    intro k n sm w
    by_cases hn : n = ""
    · rw [loop_exit stops (f + 1) k n none sm w (by simp [hn])]
      exact ⟨Or.inl ⟨rfl, by simp⟩, fun _ => rfl⟩
    · by_cases hd : sm.desiredState = ""
      · by_cases hc : n = models.JobContinue
        · subst hc
          by_cases hl : (sm.successors sm.CurrentState).length = 1
          · obtain ⟨t, ht⟩ := List.length_eq_one.1 hl
            rw [loop_cont stops f k sm w t hd ht]
            have := ih k t sm w
            refine ⟨failsLast_append [Event.cont t] _ _ ?_ this.1, this.2⟩
            intro x hx
            simp only [List.mem_singleton] at hx
            subst hx
            rfl
          · rw [loop_undecidable stops f k sm w hd hl]
            exact ⟨Or.inr ⟨by simp, [], Event.undecidable, rfl, rfl, by simp⟩, fun _ => rfl⟩
        · rw [loop_call stops f k n sm w hn hc hd]
          rcases hE : (sm.EnterState n w).err with _ | e
          · have := ih (k + 1) (sm.EnterState n w).next
              ((sm.EnterState n w).sm.stopAll (stops k)) (sm.EnterState n w).w
            refine ⟨failsLast_append _ _ _ ?_ this.1, this.2⟩
            rcases enterState_failsLast sm n w with ⟨_, h2⟩ | ⟨h1, _⟩
            · exact h2
            · exact absurd hE h1
          · rw [loop_exit stops f (k + 1) _ (some e) _ _ (by simp)]
            refine ⟨?_, fun _ => rfl⟩
            have := enterState_failsLast sm n w
            rw [hE] at this
            simpa [Run.after] using this
      · rw [loop_override stops f k n sm w hn hd]
        have := ih k sm.desiredState (sm.setDesiredState "") w
        refine ⟨failsLast_append [Event.override sm.desiredState] _ _ ?_ this.1, this.2⟩
        intro x hx
        simp only [List.mem_singleton] at hx
        subst hx
        rfl

end failures

/-! ## The graph `Reset` builds for a transfer job -/

section resetLemmas

variable {W B : Type}

theorem JobSM.eq_of_fields (a b : JobSM W) (h1 : a.JobID = b.JobID)
    (h2 : a.CurrentState = b.CurrentState) (h3 : a.PreviousState = b.PreviousState)
    (h4 : a.ForcedStates = b.ForcedStates) (h5 : a.Transitions = b.Transitions)
    (h6 : a.Handlers = b.Handlers) (h7 : a.desiredState = b.desiredState)
    (h8 : a.Parms = b.Parms) : a = b := by
  cases a
  cases b
  simp only [JobSM.mk.injEq]
  exact ⟨h1, h2, h3, h4, h5, h6, h7, h8⟩

theorem AddTransition_eq (sm : JobSM W) (src dst : String) (h : StateHandler W) :
    sm.AddTransition src dst h =
      { sm with
        Transitions := addEdge sm.Transitions src dst
        Handlers := mapSet sm.Handlers dst h } := rfl

theorem transferTable_eq :
    addEdge (addEdge (addEdge (addEdge (addEdge (addEdge (addEdge []
      models.JobPending models.JobRunning)
      models.JobRunning replication.StateCheck)
      replication.StateCheck replication.StatePullManifest)
      replication.StatePullManifest replication.StateTransferBlob)
      replication.StatePullManifest models.JobFinished)
      replication.StateTransferBlob replication.StatePushManifest)
      replication.StatePushManifest replication.StatePullManifest = transferTable := by
  decide

theorem addImgTransferTransition_Parms (c : Collab W B) (sm : JobSM W) (p : RepJobParm) :
    (addImgTransferTransition c sm p).2.Parms = sm.Parms := by
  unfold addImgTransferTransition
  split <;> rfl

theorem buildGraph_Parms (c : Collab W B) (sm1 sm : JobSM W) (p : RepJobParm)
    (e : Option Error) (hres : JobSM.buildGraph c sm1 p = (e, sm)) : sm.Parms = sm1.Parms := by
  have h : (JobSM.buildGraph c sm1 p).2.Parms = sm1.Parms := by
    unfold JobSM.buildGraph
    by_cases h1 : p.Operation = models.RepOpTransfer
    · simp only [h1, if_true]
      rw [addImgTransferTransition_Parms]
      rfl
    · by_cases h2 : p.Operation = models.RepOpDelete
      · simp only [h1, h2, if_true, if_false]
        rfl
      · simp only [h1, h2, if_false]
        rfl
  rw [hres] at h
  exact h

theorem buildGraph_transfer (c : Collab W B) (sm1 sm : JobSM W) (p : RepJobParm)
    (hop : p.Operation = models.RepOpTransfer)
    (hres : JobSM.buildGraph c sm1 p = (none, sm)) :
    ∃ b, sm = { sm1 with
      CurrentState := models.JobPending
      Transitions := transferTable
      Handlers := transferHandlers c b sm1.JobID } := by
  unfold JobSM.buildGraph at hres
  simp only [hop, if_true] at hres
  unfold addImgTransferTransition at hres
  cases hb : c.InitBaseHandler p.Repository p.LocalRegURL c.UISecret p.TargetURL p.TargetUsername
      p.TargetPassword p.Tags with
  | error e =>
    rw [hb] at hres
    simp only [Prod.mk.injEq, reduceCtorEq, false_and] at hres
  | ok b =>
    rw [hb] at hres
    simp only [Prod.mk.injEq, true_and] at hres
    simp only [AddTransition_eq] at hres
    rw [transferTable_eq] at hres
    refine ⟨b, ?_⟩
    rw [← hres]
    simp only [JobSM.mk.injEq, true_and, and_true]
    simp [mapSet, transferHandlers,
      models.JobPending, models.JobRunning, models.JobError, models.JobStopped,
      models.JobFinished, replication.StateCheck, replication.StatePullManifest,
      replication.StateTransferBlob, replication.StatePushManifest]

theorem Reset_transfer (c : Collab W B) (sm0 sm : JobSM W) (jid : Int) (p : RepJobParm)
    (hres : JobSM.Reset c sm0 jid = (none, sm)) (hp : sm.Parms = some p)
    (hop : p.Operation = models.RepOpTransfer) (hen : p.Enabled ≠ 0) :
    ∃ b, sm =
      { JobID := jid, CurrentState := models.JobPending, PreviousState := sm0.PreviousState,
        ForcedStates := sm0.ForcedStates, Transitions := transferTable,
        Handlers := transferHandlers c b jid, desiredState := "", Parms := some p } := by
  unfold JobSM.Reset at hres
  simp only at hres
  cases hj : c.GetRepJob jid with
  | error e => rw [hj] at hres; simp at hres
  | ok oj =>
    cases oj with
    | none => rw [hj] at hres; simp at hres
    | some job =>
      rw [hj] at hres
      simp only at hres
      cases hpol : c.GetRepPolicy job.PolicyID with
      | error e => rw [hpol] at hres; simp at hres
      | ok opol =>
        cases opol with
        | none => rw [hpol] at hres; simp at hres
        | some policy =>
          rw [hpol] at hres
          simp only at hres
          by_cases h0 : policy.Enabled = 0
          · simp only [h0, if_true, Prod.mk.injEq, true_and] at hres
            subst hres
            simp only [Option.some.injEq] at hp
            subst hp
            exact absurd rfl hen
          · simp only [h0, if_false] at hres
            cases ht : c.GetRepTarget policy.TargetID with
            | error e => rw [ht] at hres; simp at hres
            | ok ot =>
              cases ot with
              | none => rw [ht] at hres; simp at hres
              | some target =>
                rw [ht] at hres
                simp only at hres
                cases hd : (if target.Password ≠ "" then c.ReversibleDecrypt target.Password
                    else Except.ok target.Password) with
                | error e => rw [hd] at hres; simp at hres
                | ok pwd =>
                  rw [hd] at hres
                  simp only at hres
                  have hparms : sm.Parms = some
                      { LocalRegURL := c.LocalHarborURL, TargetURL := target.URL,
                        TargetUsername := target.Username, TargetPassword := pwd,
                        Repository := job.Repository, Tags := job.TagList,
                        Enabled := policy.Enabled, Operation := job.Operation } := by
                    have := buildGraph_Parms c _ _ _ _ hres
                    rw [this]
                  rw [hparms] at hp
                  simp only [Option.some.injEq] at hp
                  subst hp
                  obtain ⟨b, hb⟩ := buildGraph_transfer c _ sm _ hop hres
                  exact ⟨b, hb⟩

end resetLemmas

/-! ## The end of a run -/

section runEnd

variable {W B : Type}

theorem finish_shape (r : Run W) (h : failsLast r.err r.log)
    (hf : r.err ≠ none → r.finished = true) :
    ((JobSM.finish r).err = none ∧ ∀ x ∈ (JobSM.finish r).log, x.quiet = true) ∨
    ((JobSM.finish r).finished = true ∧ ∃ p f,
      (JobSM.finish r).log =
        p ++ f :: Event.fallback :: (r.sm.EnterState models.JobError r.w).log ∧
      f.isFailure = true ∧ (∀ x ∈ p, x.quiet = true) ∧
      (JobSM.finish r).sm = (r.sm.EnterState models.JobError r.w).sm ∧
      (JobSM.finish r).w = (r.sm.EnterState models.JobError r.w).w) := by
  rcases h with ⟨h1, h2⟩ | ⟨h1, p, f, h2, h3, h4⟩
  · left
    rw [finish_of_no_error r h1]
    exact ⟨h1, h2⟩
  · right
    have hfin := hf h1
    cases he : r.err with
    | none => exact absurd he h1
    | some e =>
      refine ⟨?_, p, f, ?_, h3, h4, ?_, ?_⟩
      · simp [JobSM.finish, he, hfin]
      · simp [JobSM.finish, he, h2]
      · simp [JobSM.finish, he]
      · simp [JobSM.finish, he]

theorem Start_body_failsLast (sm : JobSM W) (s : String) (w : W) (stops : Nat → List Int)
    (fuel : Nat) :
    failsLast
        (Run.after (sm.EnterState s w).log
          (JobSM.loop stops fuel 1 (sm.EnterState s w).next (sm.EnterState s w).err
            ((sm.EnterState s w).sm.stopAll (stops 0)) (sm.EnterState s w).w)).err
        (Run.after (sm.EnterState s w).log
          (JobSM.loop stops fuel 1 (sm.EnterState s w).next (sm.EnterState s w).err
            ((sm.EnterState s w).sm.stopAll (stops 0)) (sm.EnterState s w).w)).log ∧
      ((Run.after (sm.EnterState s w).log
          (JobSM.loop stops fuel 1 (sm.EnterState s w).next (sm.EnterState s w).err
            ((sm.EnterState s w).sm.stopAll (stops 0)) (sm.EnterState s w).w)).err ≠ none →
        (Run.after (sm.EnterState s w).log
          (JobSM.loop stops fuel 1 (sm.EnterState s w).next (sm.EnterState s w).err
            ((sm.EnterState s w).sm.stopAll (stops 0)) (sm.EnterState s w).w)).finished
          = true) := by
  have hE := enterState_failsLast sm s w
  rcases hErr : (sm.EnterState s w).err with _ | e
  · have hL := loop_failsLast stops fuel 1 (sm.EnterState s w).next
      ((sm.EnterState s w).sm.stopAll (stops 0)) (sm.EnterState s w).w
    refine ⟨failsLast_append _ _ _ ?_ hL.1, hL.2⟩
    rcases hE with ⟨_, h2⟩ | ⟨h1, _⟩
    · exact h2
    · exact absurd hErr h1
  · rw [loop_exit stops fuel 1 _ (some e) _ _ (by simp)]
    rw [hErr] at hE
    exact ⟨by simpa [Run.after] using hE, fun _ => rfl⟩

theorem Start_shape (sm : JobSM W) (s : String) (w : W) (stops : Nat → List Int)
    (fuel : Nat) :
    ((sm.Start s w stops fuel).err = none ∧
      ∀ x ∈ (sm.Start s w stops fuel).log, x.quiet = true) ∨
    ((sm.Start s w stops fuel).finished = true ∧ ∃ p f sm1 w1,
      (sm.Start s w stops fuel).log =
        p ++ f :: Event.fallback :: (JobSM.EnterState sm1 models.JobError w1).log ∧
      f.isFailure = true ∧ (∀ x ∈ p, x.quiet = true) ∧
      (sm.Start s w stops fuel).sm = (JobSM.EnterState sm1 models.JobError w1).sm ∧
      (sm.Start s w stops fuel).w = (JobSM.EnterState sm1 models.JobError w1).w) := by
  have hb := Start_body_failsLast sm s w stops fuel
  rcases finish_shape _ hb.1 hb.2 with h | ⟨h1, p, f, h2, h3, h4, h5, h6⟩
  · exact Or.inl h
  · exact Or.inr ⟨h1, p, f, _, _, h2, h3, h4, h5, h6⟩

theorem stopAll_frame (ids : List Int) :
    ∀ sm : JobSM W, ∃ d, sm.stopAll ids = { sm with desiredState := d } := by
  induction ids with
  | nil => intro sm; exact ⟨sm.desiredState, rfl⟩
  | cons id ids ih =>
    intro sm
    obtain ⟨d, hd⟩ := ih (sm.Stop id)
    refine ⟨d, ?_⟩
    show (sm.Stop id).stopAll ids = _
    rw [hd]
    unfold JobSM.Stop
    split <;> rfl

theorem transferTable_successors (sm : JobSM W) (h : sm.Transitions = transferTable) :
    sm.successors models.JobPending = [models.JobRunning] ∧
    sm.successors models.JobRunning = [replication.StateCheck] ∧
    sm.successors replication.StateCheck = [replication.StatePullManifest] ∧
    sm.successors replication.StatePullManifest
      = [replication.StateTransferBlob, models.JobFinished] ∧
    sm.successors replication.StateTransferBlob = [replication.StatePushManifest] ∧
    sm.successors replication.StatePushManifest = [replication.StatePullManifest] := by
  unfold JobSM.successors
  rw [h]
  decide

theorem transferHandlers_get (c : Collab W B) (b : B) (jid : Int) :
    mapGet (transferHandlers c b jid) models.JobPending = none ∧
    mapGet (transferHandlers c b jid) models.JobRunning
      = some (c.StatusUpdater jid models.JobRunning) ∧
    mapGet (transferHandlers c b jid) models.JobError
      = some (c.StatusUpdater jid models.JobError) ∧
    mapGet (transferHandlers c b jid) models.JobStopped
      = some (c.StatusUpdater jid models.JobStopped) ∧
    mapGet (transferHandlers c b jid) models.JobFinished
      = some (c.StatusUpdater jid models.JobFinished) ∧
    mapGet (transferHandlers c b jid) replication.StateCheck = some (c.Checker b) ∧
    mapGet (transferHandlers c b jid) replication.StatePullManifest
      = some (c.ManifestPuller b) ∧
    mapGet (transferHandlers c b jid) replication.StateTransferBlob
      = some (c.BlobTransfer b) ∧
    mapGet (transferHandlers c b jid) replication.StatePushManifest
      = some (c.ManifestPusher b) := by
  simp [mapGet, transferHandlers,
      models.JobPending, models.JobRunning, models.JobError, models.JobStopped,
      models.JobFinished, replication.StateCheck, replication.StatePullManifest,
      replication.StateTransferBlob, replication.StatePushManifest]

theorem resume_unrecognized (g : JobSM W) (x : String) (w : W) (stops : Nat → List Int)
    (fuel k : Nat) (hx0 : x ≠ "") (hd : g.desiredState = "")
    (hx1 : x ∉ g.successors g.CurrentState) (hx2 : x ∉ g.ForcedStates)
    (hlen : (g.successors g.CurrentState).length ≠ 1) :
    ∃ d e pre, enteredStates pre = [] ∧
      JobSM.resume stops (fuel + 1) k x none g w =
        { err := some e
          sm := (JobSM.EnterState { g with desiredState := d } models.JobError w).sm
          w := (JobSM.EnterState { g with desiredState := d } models.JobError w).w
          log := pre ++ Event.fallback ::
            (JobSM.EnterState { g with desiredState := d } models.JobError w).log
          finished := true } := by
  by_cases hc : x = models.JobContinue
  · subst hc
    refine ⟨"", Error.unableToContinue, [Event.undecidable], rfl, ?_⟩
    unfold JobSM.resume
    rw [loop_undecidable stops fuel k g w hd hlen]
    have hg : ({ g with desiredState := "" } : JobSM W) = g := by rw [← hd]
    rw [hg]
    simp [JobSM.finish]
  · obtain ⟨d, hdd⟩ := stopAll_frame (stops k) g
    refine ⟨d, Error.noTransition g.JobID g.CurrentState x,
      [Event.call x, Event.failed (Error.noTransition g.JobID g.CurrentState x)], rfl, ?_⟩
    unfold JobSM.resume
    rw [loop_call stops fuel k x g w hx0 hc hd, enterState_refused g x w hx1 hx2]
    simp only
    rw [loop_exit stops fuel (k + 1) _ _ _ _ (by simp), hdd]
    simp [JobSM.finish, Run.after]

end runEnd

/-! ## `Stop` and `Reset` -/

section stopReset

variable {W B : Type}

theorem Stop_stale (sm : JobSM W) (id : Int) (h : id ≠ sm.JobID) : sm.Stop id = sm := by
  unfold JobSM.Stop
  simp [h]

theorem Stop_bound (sm : JobSM W) :
    sm.Stop sm.JobID = { sm with desiredState := models.JobStopped } := by
  unfold JobSM.Stop
  simp

theorem stopAll_stale (ids : List Int) :
    ∀ sm : JobSM W, (∀ id ∈ ids, id ≠ sm.JobID) → sm.stopAll ids = sm := by
  induction ids with
  | nil => intro sm _; rfl
  | cons id ids ih =>
    intro sm h
    show (sm.Stop id).stopAll ids = sm
    rw [Stop_stale sm id (h id (by simp))]
    exact ih sm (fun x hx => h x (by simp [hx]))

theorem enterState_JobID (sm : JobSM W) (s : String) (w : W) :
    (sm.EnterState s w).sm.JobID = sm.JobID ∧
      (sm.EnterState s w).sm.desiredState = sm.desiredState := by
  rcases enterState_outcome sm s w with ⟨_, h, _⟩ | ⟨_, _, h, _⟩ <;> rw [h] <;> exact ⟨rfl, rfl⟩

theorem loop_stale_stops (stops : Nat → List Int) :
    ∀ (fuel k : Nat) (n : String) (err : Option Error) (sm : JobSM W) (w : W),
      (∀ i id, id ∈ stops i → id ≠ sm.JobID) →
      JobSM.loop stops fuel k n err sm w = JobSM.loop (fun _ => []) fuel k n err sm w := by
  intro fuel
  induction fuel with
  | zero => intro k n err sm w _; rfl
  | succ f ih =>
    intro k n err sm w hst
    by_cases hcond : n ≠ "" ∧ err = none
    · obtain ⟨hn, herr⟩ := hcond
      subst herr
      by_cases hd : sm.desiredState = ""
      · by_cases hc : n = models.JobContinue
        · subst hc
          by_cases hl : (sm.successors sm.CurrentState).length = 1
          · obtain ⟨t, ht⟩ := List.length_eq_one.1 hl
            rw [loop_cont stops f k sm w t hd ht, loop_cont _ f k sm w t hd ht,
              ih k t none sm w hst]
          · rw [loop_undecidable stops f k sm w hd hl, loop_undecidable _ f k sm w hd hl]
        · rw [loop_call stops f k n sm w hn hc hd, loop_call _ f k n sm w hn hc hd]
          have hid := (enterState_JobID sm n w).1
          rw [stopAll_stale (stops k) _ (fun id h => by rw [hid]; exact hst k id h)]
          rw [ih (k + 1) _ _ _ _ (fun i id h => by rw [hid]; exact hst i id h)]
          rfl
      · rw [loop_override stops f k n sm w hn hd, loop_override _ f k n sm w hn hd,
          ih k _ none (sm.setDesiredState "") w hst]
    · rw [loop_exit stops (f + 1) k n err sm w hcond, loop_exit _ (f + 1) k n err sm w hcond]

theorem Start_stale_stops (sm : JobSM W) (s : String) (w : W) (stops : Nat → List Int)
    (fuel : Nat) (hst : ∀ i id, id ∈ stops i → id ≠ sm.JobID) :
    sm.Start s w stops fuel = sm.Start s w (fun _ => []) fuel := by
  unfold JobSM.Start
  have hid := (enterState_JobID sm s w).1
  simp only
  rw [stopAll_stale (stops 0) _ (fun id h => by rw [hid]; exact hst 0 id h)]
  rw [loop_stale_stops stops fuel 1 _ _ _ _ (fun i id h => by rw [hid]; exact hst i id h)]
  rfl

theorem buildGraph_binding (c : Collab W B) (sm1 : JobSM W) (p : RepJobParm) :
    (JobSM.buildGraph c sm1 p).2.JobID = sm1.JobID ∧
      (JobSM.buildGraph c sm1 p).2.desiredState = sm1.desiredState := by
  unfold JobSM.buildGraph
  by_cases h1 : p.Operation = models.RepOpTransfer
  · simp only [h1, if_true]
    unfold addImgTransferTransition
    split <;> exact ⟨rfl, rfl⟩
  · by_cases h2 : p.Operation = models.RepOpDelete
    · simp only [h1, h2, if_true, if_false]
      exact ⟨rfl, rfl⟩
    · simp only [h1, h2, if_false]
      exact ⟨rfl, rfl⟩

theorem Reset_binding (c : Collab W B) (sm : JobSM W) (jid : Int) :
    (JobSM.Reset c sm jid).2.JobID = jid ∧ (JobSM.Reset c sm jid).2.desiredState = "" := by
  unfold JobSM.Reset
  simp only
  split
  · exact ⟨rfl, rfl⟩
  · exact ⟨rfl, rfl⟩
  · split
    · exact ⟨rfl, rfl⟩
    · exact ⟨rfl, rfl⟩
    · split
      · exact ⟨rfl, rfl⟩
      · split
        · exact ⟨rfl, rfl⟩
        · exact ⟨rfl, rfl⟩
        · split
          · exact ⟨rfl, rfl⟩
          · exact buildGraph_binding c _ _

theorem Reset_after_Stop (c : Collab W B) (sm : JobSM W) (old new : Int) :
    JobSM.Reset c (sm.Stop old) new = JobSM.Reset c sm new := by
  unfold JobSM.Stop
  split <;> rfl

end stopReset

/-! ## Runs through the transfer graph -/

section transferRuns

variable {W B : Type}

theorem RunsTo_done (stops : Nat → List Int) (k : Nat) (g : JobSM W) (w : W) :
    RunsTo stops 0 k "" g w [] g.CurrentState := by
  intro fuel _
  rw [loop_exit stops fuel k "" none g w (by simp)]
  exact ⟨rfl, rfl, rfl, rfl⟩

theorem RunsTo_mono (stops : Nat → List Int) (b1 b2 k : Nat) (n : String) (g : JobSM W)
    (w : W) (l : List String) (final : String) (hb : b1 ≤ b2)
    (h : RunsTo stops b1 k n g w l final) : RunsTo stops b2 k n g w l final :=
  fun fuel hf => h fuel (Nat.le_trans hb hf)

theorem RunsTo_step (stops : Nat → List Int) (bound k : Nat) (n t n1 : String)
    (g g1 : JobSM W) (w w1 : W) (elog : List Event) (l : List String) (final : String)
    (hd : g.desiredState = "")
    (hn : n = t ∨ (n = models.JobContinue ∧ g.successors g.CurrentState = [t]))
    (ht0 : t ≠ "") (htc : t ≠ models.JobContinue) (hstop : stops k = [])
    (hE : g.EnterState t w = { next := n1, err := none, sm := g1, w := w1, log := elog })
    (hlog : enteredStates elog = [t])
    (hrest : RunsTo stops bound (k + 1) n1 g1 w1 l final) :
    RunsTo stops (bound + 2) k n g w (t :: l) final := by
  intro fuel hf
  obtain ⟨f, rfl⟩ : ∃ f, fuel = f + 2 := ⟨fuel - 2, by omega⟩
  have hcall : ∀ f1, JobSM.loop stops (f1 + 1) k t none g w =
      Run.after elog (JobSM.loop stops f1 (k + 1) n1 none g1 w1) := by
    intro f1
    rw [loop_call stops f1 k t g w ht0 htc hd, hE]
    simp only [hstop]
    rfl
  rcases hn with hn | ⟨hn, hs⟩
  · subst hn
    rw [hcall (f + 1)]
    obtain ⟨h1, h2, h3, h4⟩ := hrest (f + 1) (by omega)
    refine ⟨h1, h2, ?_, h4⟩
    simp only [Run.after, enteredStates_append, hlog, h3]
    rfl
  · subst hn
    rw [loop_cont stops (f + 1) k g w t hd hs, hcall f]
    obtain ⟨h1, h2, h3, h4⟩ := hrest f (by omega)
    refine ⟨h1, h2, ?_, h4⟩
    simp only [Run.after, enteredStates_append, hlog, h3]
    rfl

theorem enterState_both (g : JobSM W) (t : String) (w w1 w2 : W) (n1 : String)
    (xh eh : StateHandler W) (ht : t ∈ g.successors g.CurrentState ∨ t ∈ g.ForcedStates)
    (hx : mapGet g.Handlers g.CurrentState = some xh) (hX : xh.Exit w = (none, w1))
    (he : mapGet g.Handlers t = some eh) (hE : eh.Enter w1 = ((n1, none), w2)) :
    g.EnterState t w =
      { next := n1, err := none,
        sm := { g with PreviousState := g.CurrentState, CurrentState := t }, w := w2,
        log := [Event.call t, Event.exit g.CurrentState, Event.enter t, Event.entered t] } := by
  have hw : g.exitWorld w = w1 := by
    unfold JobSM.exitWorld
    rw [hx]
    simp [hX]
  rw [enterState_allowed g t w ht
    (by intro h hh; rw [hx] at hh; cases hh; rw [hX])
    (by intro h hh; rw [he] at hh; cases hh; rw [hw, hE])]
  simp [hw, he, hE, JobSM.handlerCalls, hx]

theorem enterState_noexit (g : JobSM W) (t : String) (w w2 : W) (n1 : String)
    (eh : StateHandler W) (ht : t ∈ g.successors g.CurrentState ∨ t ∈ g.ForcedStates)
    (hx : mapGet g.Handlers g.CurrentState = none)
    (he : mapGet g.Handlers t = some eh) (hE : eh.Enter w = ((n1, none), w2)) :
    g.EnterState t w =
      { next := n1, err := none,
        sm := { g with PreviousState := g.CurrentState, CurrentState := t }, w := w2,
        log := [Event.call t, Event.enter t, Event.entered t] } := by
  have hw : g.exitWorld w = w := by
    unfold JobSM.exitWorld
    rw [hx]
  rw [enterState_allowed g t w ht
    (by intro h hh; rw [hx] at hh; cases hh)
    (by intro h hh; rw [he] at hh; cases hh; rw [hw, hE])]
  simp [hw, he, hE, JobSM.handlerCalls, hx]

theorem tr_succ (c : Collab W B) (b : B) (jid : Int) (p : RepJobParm) (F : List String)
    (prev cur x : String) :
    (transferEngine c b jid p F prev cur : JobSM W).successors x
      = (mapGet transferTable x).getD [] := rfl

theorem tr_enter (c : Collab W B) (b : B) (jid : Int) (p : RepJobParm) (F : List String)
    (prev cur t : String) (w w1 w2 : W) (n1 : String) (xh eh : StateHandler W)
    (hsucc : t ∈ (mapGet transferTable cur).getD [] ∨ t ∈ F)
    (hx : mapGet (transferHandlers c b jid) cur = some xh) (hX : xh.Exit w = (none, w1))
    (he : mapGet (transferHandlers c b jid) t = some eh) (hE : eh.Enter w1 = ((n1, none), w2)) :
    (transferEngine c b jid p F prev cur).EnterState t w =
      { next := n1, err := none, sm := transferEngine c b jid p F cur t, w := w2,
        log := [Event.call t, Event.exit cur, Event.enter t, Event.entered t] } :=
  enterState_both (transferEngine c b jid p F prev cur) t w w1 w2 n1 xh eh hsucc hx hX he hE

theorem pull_pred (c : Collab W B) (tagsOf : W → List String) (hc : TransferContract c tagsOf)
    (b : B) (jid : Int) (cur : String)
    (hcur : cur = replication.StateCheck ∨ cur = replication.StatePushManifest) :
    (mapGet transferTable cur).getD [] = [replication.StatePullManifest] ∧
    ∃ xh, mapGet (transferHandlers c b jid) cur = some xh ∧
      ∀ w, ∃ w1, xh.Exit w = (none, w1) ∧ tagsOf w1 = tagsOf w := by
  rcases hcur with rfl | rfl
  · exact ⟨by decide, _, (transferHandlers_get c b jid).2.2.2.2.2.1, hc.checkerExit b⟩
  · exact ⟨by decide, _, (transferHandlers_get c b jid).2.2.2.2.2.2.2.2, hc.pusherExit b⟩

theorem transfer_pull_phase (c : Collab W B) (tagsOf : W → List String)
    (hc : TransferContract c tagsOf) (b : B) (jid : Int) (p : RepJobParm) (F : List String)
    (stops : Nat → List Int) :
    ∀ (ts : List String) (k : Nat) (n prev cur : String) (w : W),
      (∀ i, k ≤ i → stops i = []) →
      (cur = replication.StateCheck ∨ cur = replication.StatePushManifest) →
      (n = replication.StatePullManifest ∨ n = models.JobContinue) → tagsOf w = ts →
      RunsTo stops (6 * ts.length + 4) k n (transferEngine c b jid p F prev cur) w
        (transferCycles ts.length ++ [replication.StatePullManifest, models.JobFinished])
        models.JobFinished := by
  have hget := transferHandlers_get c b jid
  intro ts
  induction ts with
  | nil =>
    intro k n prev cur w hst hcur hn htags
    obtain ⟨hsucc, xh, hx, hexit⟩ := pull_pred c tagsOf hc b jid cur hcur
    obtain ⟨w1, hX, ht1⟩ := hexit w
    obtain ⟨w2, hE, _⟩ := hc.pullerDone b w1 (by rw [ht1, htags])
    obtain ⟨w3, hX2, _⟩ := hc.pullerExit b w2
    obtain ⟨w4, hE2, _⟩ := hc.terminalEnter jid models.JobFinished w3 (Or.inl rfl)
    have hlast : RunsTo stops 2 (k + 1) models.JobFinished
        (transferEngine c b jid p F cur replication.StatePullManifest) w2
        [models.JobFinished] models.JobFinished :=
      RunsTo_step stops 0 (k + 1) models.JobFinished models.JobFinished ""
        (transferEngine c b jid p F cur replication.StatePullManifest)
        (transferEngine c b jid p F replication.StatePullManifest models.JobFinished)
        w2 w4 _ [] models.JobFinished rfl (Or.inl rfl) (by decide) (by decide)
        (hst (k + 1) (by omega))
        (tr_enter c b jid p F cur replication.StatePullManifest models.JobFinished w2 w3 w4 ""
          _ _ (Or.inl (by decide)) hget.2.2.2.2.2.2.1 hX2 hget.2.2.2.2.1 hE2)
        rfl (RunsTo_done stops (k + 1 + 1) _ w4)
    exact RunsTo_step stops 2 k n replication.StatePullManifest models.JobFinished
      (transferEngine c b jid p F prev cur)
      (transferEngine c b jid p F cur replication.StatePullManifest)
      w w2 _ [models.JobFinished] models.JobFinished rfl
      (hn.imp id (fun h => ⟨h, hsucc⟩)) (by decide) (by decide) (hst k (Nat.le_refl k))
      (tr_enter c b jid p F prev cur replication.StatePullManifest w w1 w2 models.JobFinished
        _ _ (Or.inl (by rw [hsucc]; simp)) hx hX hget.2.2.2.2.2.2.1 hE)
      rfl hlast
  | cons t0 ts ih =>
    intro k n prev cur w hst hcur hn htags
    obtain ⟨hsucc, xh, hx, hexit⟩ := pull_pred c tagsOf hc b jid cur hcur
    obtain ⟨w1, hX, ht1⟩ := hexit w
    obtain ⟨w2, hE, ht2⟩ := hc.pullerMore b w1 t0 ts (by rw [ht1, htags])
    obtain ⟨w3, hX2, ht3⟩ := hc.pullerExit b w2
    obtain ⟨n4, w4, hE2, hn4, ht4⟩ := hc.blobEnter b w3
    obtain ⟨w5, hX3, ht5⟩ := hc.blobExit b w4
    obtain ⟨n6, w6, hE3, hn6, ht6⟩ := hc.pusherEnter b w5
    have hsTB : (mapGet transferTable replication.StateTransferBlob).getD []
        = [replication.StatePushManifest] := by decide
    have hrest := ih (k + 1 + 1 + 1) n6 replication.StateTransferBlob
      replication.StatePushManifest w6 (fun i hi => hst i (by omega)) (Or.inr rfl)
      (hn6.symm) (by rw [ht6, ht5, ht4, ht3, ht2])
    have hpush : RunsTo stops (6 * ts.length + 4 + 2) (k + 1 + 1) n4
        (transferEngine c b jid p F replication.StatePullManifest replication.StateTransferBlob)
        w4 (replication.StatePushManifest ::
          (transferCycles ts.length ++ [replication.StatePullManifest, models.JobFinished]))
        models.JobFinished :=
      RunsTo_step stops (6 * ts.length + 4) (k + 1 + 1) n4 replication.StatePushManifest n6
        (transferEngine c b jid p F replication.StatePullManifest replication.StateTransferBlob)
        (transferEngine c b jid p F replication.StateTransferBlob replication.StatePushManifest)
        w4 w6 _ _ models.JobFinished rfl
        (hn4.symm.imp id (fun h => ⟨h, hsTB⟩)) (by decide) (by decide)
        (hst (k + 1 + 1) (by omega))
        (tr_enter c b jid p F replication.StatePullManifest replication.StateTransferBlob
          replication.StatePushManifest w4 w5 w6 n6 _ _ (Or.inl (by decide))
          hget.2.2.2.2.2.2.2.1 hX3 hget.2.2.2.2.2.2.2.2 hE3)
        rfl hrest
    have hblob : RunsTo stops (6 * ts.length + 4 + 2 + 2) (k + 1)
        replication.StateTransferBlob
        (transferEngine c b jid p F cur replication.StatePullManifest) w2
        (replication.StateTransferBlob :: replication.StatePushManifest ::
          (transferCycles ts.length ++ [replication.StatePullManifest, models.JobFinished]))
        models.JobFinished :=
      RunsTo_step stops (6 * ts.length + 4 + 2) (k + 1) replication.StateTransferBlob
        replication.StateTransferBlob n4
        (transferEngine c b jid p F cur replication.StatePullManifest)
        (transferEngine c b jid p F replication.StatePullManifest replication.StateTransferBlob)
        w2 w4 _ _ models.JobFinished rfl (Or.inl rfl) (by decide) (by decide)
        (hst (k + 1) (by omega))
        (tr_enter c b jid p F cur replication.StatePullManifest replication.StateTransferBlob
          w2 w3 w4 n4 _ _ (Or.inl (by decide)) hget.2.2.2.2.2.2.1 hX2 hget.2.2.2.2.2.2.2.1 hE2)
        rfl hpush
    have hpull := RunsTo_step stops (6 * ts.length + 4 + 2 + 2) k n
      replication.StatePullManifest replication.StateTransferBlob
      (transferEngine c b jid p F prev cur)
      (transferEngine c b jid p F cur replication.StatePullManifest)
      w w2 _ _ models.JobFinished rfl
      (hn.imp id (fun h => ⟨h, hsucc⟩)) (by decide) (by decide) (hst k (Nat.le_refl k))
      (tr_enter c b jid p F prev cur replication.StatePullManifest w w1 w2
        replication.StateTransferBlob _ _ (Or.inl (by rw [hsucc]; simp)) hx hX
        hget.2.2.2.2.2.2.1 hE)
      rfl hblob
    exact RunsTo_mono stops _ _ k n _ w _ _ (by simp only [List.length_cons]; omega) hpull

theorem transferCycles_mem (n : Nat) (x : String) (h : x ∈ transferCycles n) :
    x = replication.StatePullManifest ∨ x = replication.StateTransferBlob ∨
      x = replication.StatePushManifest := by
  induction n with
  | zero => cases h
  | succ n ih =>
    simp only [transferCycles, List.mem_cons] at h
    rcases h with h | h | h | h
    · exact Or.inl h
    · exact Or.inr (Or.inl h)
    · exact Or.inr (Or.inr h)
    · exact ih h

theorem transfer_run (c : Collab W B) (tagsOf : W → List String)
    (hc : TransferContract c tagsOf) (b : B) (jid : Int) (p : RepJobParm) (F : List String)
    (prev : String) (w : W) (fuel : Nat) (hfuel : 6 * (tagsOf w).length + 6 ≤ fuel) :
    ((transferEngine c b jid p F prev models.JobPending).Start models.JobRunning w noStops
      fuel).finished = true ∧
    ((transferEngine c b jid p F prev models.JobPending).Start models.JobRunning w noStops
      fuel).err = none ∧
    enteredStates ((transferEngine c b jid p F prev models.JobPending).Start models.JobRunning
      w noStops fuel).log =
      models.JobRunning :: replication.StateCheck ::
        (transferCycles (tagsOf w).length ++
          [replication.StatePullManifest, models.JobFinished]) ∧
    ((transferEngine c b jid p F prev models.JobPending).Start models.JobRunning w noStops
      fuel).sm.CurrentState = models.JobFinished := by
  have hget := transferHandlers_get c b jid
  obtain ⟨w1, hE, ht1⟩ := hc.runningEnter jid w
  obtain ⟨n3, w3, hE3, hn3, ht3⟩ := hc.checkerEnter b w1
  have hsP : models.JobRunning ∈ (mapGet transferTable models.JobPending).getD [] := by
    decide
  have hE0 : (transferEngine c b jid p F prev models.JobPending).EnterState models.JobRunning w =
      { next := models.JobContinue, err := none,
        sm := transferEngine c b jid p F models.JobPending models.JobRunning, w := w1,
        log := [Event.call models.JobRunning, Event.enter models.JobRunning,
          Event.entered models.JobRunning] } :=
    enterState_noexit (transferEngine c b jid p F prev models.JobPending) models.JobRunning
      w w1 models.JobContinue _ (Or.inl hsP) hget.1 hget.2.1 hE
  have hsR : (mapGet transferTable models.JobRunning).getD [] = [replication.StateCheck] := by
    decide
  have hloop : RunsTo noStops (6 * (tagsOf w).length + 4 + 2) 1 models.JobContinue
      (transferEngine c b jid p F models.JobPending models.JobRunning) w1
      (replication.StateCheck :: (transferCycles (tagsOf w).length ++
        [replication.StatePullManifest, models.JobFinished])) models.JobFinished :=
    RunsTo_step noStops (6 * (tagsOf w).length + 4) 1 models.JobContinue replication.StateCheck
      n3 (transferEngine c b jid p F models.JobPending models.JobRunning)
      (transferEngine c b jid p F models.JobRunning replication.StateCheck) w1 w3 _ _
      models.JobFinished rfl (Or.inr ⟨rfl, hsR⟩) (by decide) (by decide) rfl
      (tr_enter c b jid p F models.JobPending models.JobRunning replication.StateCheck w1 w1 w3
        n3 _ _ (Or.inl (by decide)) hget.2.1 (hc.statusExit jid models.JobRunning w1)
        hget.2.2.2.2.2.1 hE3)
      rfl
      (transfer_pull_phase c tagsOf hc b jid p F noStops (tagsOf w) (1 + 1) n3
        models.JobRunning replication.StateCheck w3 (fun _ _ => rfl) (Or.inl rfl) hn3.symm
        (by rw [ht3, ht1]))
  obtain ⟨h1, h2, h3, h4⟩ := hloop fuel (by omega)
  have hS : (transferEngine c b jid p F prev models.JobPending).Start models.JobRunning w
      noStops fuel =
      Run.after [Event.call models.JobRunning, Event.enter models.JobRunning,
          Event.entered models.JobRunning]
        (JobSM.loop noStops fuel 1 models.JobContinue none
          (transferEngine c b jid p F models.JobPending models.JobRunning) w1) := by
    have hst0 : ∀ g : JobSM W, g.stopAll (noStops 0) = g := fun _ => rfl
    rw [Start_eq, hE0]
    simp only
    rw [hst0, finish_of_no_error _ h2]
  rw [hS]
  refine ⟨h1, h2, ?_, h4⟩
  simp only [Run.after, enteredStates_append, h3]
  rfl

theorem Model.contract (operation : String) (tags : List String) (enabled : Int)
    (explicit : Bool) :
    TransferContract (Model.collab operation tags enabled explicit) Model.World.tags where
  statusExit := fun _ _ _ => rfl
  runningEnter := fun _ _ => ⟨_, rfl, rfl⟩
  terminalEnter := by
    intro jid s w hs
    rcases hs with rfl | rfl | rfl <;> exact ⟨_, rfl, rfl⟩
  checkerEnter := by
    intro b w
    cases explicit
    · exact ⟨_, _, rfl, Or.inl rfl, rfl⟩
    · exact ⟨_, _, rfl, Or.inr rfl, rfl⟩
  checkerExit := fun _ _ => ⟨_, rfl, rfl⟩
  pullerMore := by
    intro b w t ts h
    refine ⟨{ w with tags := ts }, ?_, rfl⟩
    show Model.ManifestPuller.Enter w = _
    unfold Model.ManifestPuller
    simp only
    rw [h]
  pullerDone := by
    intro b w h
    refine ⟨w, ?_, h⟩
    show Model.ManifestPuller.Enter w = _
    unfold Model.ManifestPuller
    simp only
    rw [h]
  pullerExit := fun _ _ => ⟨_, rfl, rfl⟩
  blobEnter := by
    intro b w
    cases explicit
    · exact ⟨_, _, rfl, Or.inl rfl, rfl⟩
    · exact ⟨_, _, rfl, Or.inr rfl, rfl⟩
  blobExit := fun _ _ => ⟨_, rfl, rfl⟩
  pusherEnter := by
    intro b w
    cases explicit
    · exact ⟨_, _, rfl, Or.inl rfl, rfl⟩
    · exact ⟨_, _, rfl, Or.inr rfl, rfl⟩
  pusherExit := fun _ _ => ⟨_, rfl, rfl⟩

theorem error_not_in_traversal (n : Nat) :
    models.JobError ∉ models.JobRunning :: replication.StateCheck ::
      (transferCycles n ++ [replication.StatePullManifest, models.JobFinished]) := by
  intro h
  simp only [List.mem_cons, List.mem_append, List.not_mem_nil, or_false] at h
  rcases h with h | h | h | h | h
  · exact absurd h (by decide)
  · exact absurd h (by decide)
  · rcases transferCycles_mem n _ h with h | h | h <;> exact absurd h (by decide)
  · exact absurd h (by decide)
  · exact absurd h (by decide)

theorem RunsTo_stop_step (stops : Nat → List Int) (bound k : Nat) (n t n1 : String)
    (g g1 : JobSM W) (w w1 : W) (elog : List Event) (l : List String) (final : String)
    (hd : g.desiredState = "")
    (hn : n = t ∨ (n = models.JobContinue ∧ g.successors g.CurrentState = [t]))
    (ht0 : t ≠ "") (htc : t ≠ models.JobContinue) (hstop : stops k = [g1.JobID])
    (hE : g.EnterState t w = { next := n1, err := none, sm := g1, w := w1, log := elog })
    (hlog : enteredStates elog = [t]) (hn1 : n1 ≠ "") (hd1 : g1.desiredState = "")
    (hrest : RunsTo stops bound (k + 1) models.JobStopped g1 w1 l final) :
    RunsTo stops (bound + 3) k n g w (t :: l) final := by
  intro fuel hf
  obtain ⟨f, rfl⟩ : ∃ f, fuel = f + 3 := ⟨fuel - 3, by omega⟩
  have hs : models.JobStopped ≠ "" := by decide
  have hg1 : JobSM.setDesiredState ({ g1 with desiredState := models.JobStopped } : JobSM W) ""
      = g1 := by
    cases g1
    simp only at hd1
    subst hd1
    rfl
  have hcall : ∀ f1, JobSM.loop stops (f1 + 1 + 1) k t none g w =
      Run.after elog (Run.after [Event.override models.JobStopped]
        (JobSM.loop stops f1 (k + 1) models.JobStopped none g1 w1)) := by
    intro f1
    rw [loop_call stops (f1 + 1) k t g w ht0 htc hd, hE]
    simp only [hstop]
    have hst : g1.stopAll [g1.JobID] = { g1 with desiredState := models.JobStopped } :=
      Stop_bound g1
    rw [hst, loop_override stops f1 (k + 1) n1 _ w1 hn1 hs, hg1]
  rcases hn with hn | ⟨hn, hsucc⟩
  · subst hn
    rw [hcall (f + 1)]
    obtain ⟨h1, h2, h3, h4⟩ := hrest (f + 1) (by omega)
    refine ⟨h1, h2, ?_, h4⟩
    simp only [Run.after, enteredStates_append, hlog, h3]
    rfl
  · subst hn
    rw [loop_cont stops (f + 2) k g w t hd hsucc, hcall f]
    obtain ⟨h1, h2, h3, h4⟩ := hrest f (by omega)
    refine ⟨h1, h2, ?_, h4⟩
    simp only [Run.after, enteredStates_append, hlog, h3]
    rfl

theorem transfer_stop_run (c : Collab W B) (tagsOf : W → List String)
    (hc : TransferContract c tagsOf) (b : B) (jid : Int) (p : RepJobParm) (F : List String)
    (prev : String) (w : W) (fuel : Nat) (t0 : String) (ts : List String)
    (hF : models.JobStopped ∈ F) (htags : tagsOf w = t0 :: ts) (hfuel : 9 ≤ fuel) :
    ((transferEngine c b jid p F prev models.JobPending).Start models.JobRunning w
      (stopDuring 3 jid) fuel).finished = true ∧
    ((transferEngine c b jid p F prev models.JobPending).Start models.JobRunning w
      (stopDuring 3 jid) fuel).err = none ∧
    enteredStates ((transferEngine c b jid p F prev models.JobPending).Start models.JobRunning
      w (stopDuring 3 jid) fuel).log =
      [models.JobRunning, replication.StateCheck, replication.StatePullManifest,
        replication.StateTransferBlob, models.JobStopped] ∧
    ((transferEngine c b jid p F prev models.JobPending).Start models.JobRunning w
      (stopDuring 3 jid) fuel).sm.CurrentState = models.JobStopped := by
  have hget := transferHandlers_get c b jid
  obtain ⟨w1, hE, ht1⟩ := hc.runningEnter jid w
  obtain ⟨n3, w3, hE3, hn3, ht3⟩ := hc.checkerEnter b w1
  obtain ⟨w4, hX4, ht4⟩ := hc.checkerExit b w3
  obtain ⟨w5, hE5, _⟩ := hc.pullerMore b w4 t0 ts (by rw [ht4, ht3, ht1, htags])
  obtain ⟨w6, hX6, _⟩ := hc.pullerExit b w5
  obtain ⟨n7, w7, hE7, hn7, _⟩ := hc.blobEnter b w6
  obtain ⟨w8, hX8, _⟩ := hc.blobExit b w7
  obtain ⟨w9, hE9, _⟩ := hc.terminalEnter jid models.JobStopped w8 (Or.inr (Or.inl rfl))
  have hsP : models.JobRunning ∈ (mapGet transferTable models.JobPending).getD [] := by
    decide
  have hsR : (mapGet transferTable models.JobRunning).getD [] = [replication.StateCheck] := by
    decide
  have hsC : (mapGet transferTable replication.StateCheck).getD []
      = [replication.StatePullManifest] := by decide
  have hE0 : (transferEngine c b jid p F prev models.JobPending).EnterState models.JobRunning w =
      { next := models.JobContinue, err := none,
        sm := transferEngine c b jid p F models.JobPending models.JobRunning, w := w1,
        log := [Event.call models.JobRunning, Event.enter models.JobRunning,
          Event.entered models.JobRunning] } :=
    enterState_noexit (transferEngine c b jid p F prev models.JobPending) models.JobRunning
      w w1 models.JobContinue _ (Or.inl hsP) hget.1 hget.2.1 hE
  have hstopped : RunsTo (stopDuring 3 jid) 2 4 models.JobStopped
      (transferEngine c b jid p F replication.StatePullManifest replication.StateTransferBlob)
      w7 [models.JobStopped] models.JobStopped :=
    RunsTo_step (stopDuring 3 jid) 0 4 models.JobStopped models.JobStopped ""
      (transferEngine c b jid p F replication.StatePullManifest replication.StateTransferBlob)
      (transferEngine c b jid p F replication.StateTransferBlob models.JobStopped)
      w7 w9 _ [] models.JobStopped rfl (Or.inl rfl) (by decide) (by decide) rfl
      (tr_enter c b jid p F replication.StatePullManifest replication.StateTransferBlob
        models.JobStopped w7 w8 w9 "" _ _ (Or.inr hF) hget.2.2.2.2.2.2.2.1 hX8
        hget.2.2.2.1 hE9)
      rfl (RunsTo_done (stopDuring 3 jid) 5 _ w9)
  have hn7ne : n7 ≠ "" := by
    rcases hn7 with h | h <;> rw [h] <;> decide
  have hblob : RunsTo (stopDuring 3 jid) (2 + 3) 3 replication.StateTransferBlob
      (transferEngine c b jid p F replication.StateCheck replication.StatePullManifest) w5
      [replication.StateTransferBlob, models.JobStopped] models.JobStopped :=
    RunsTo_stop_step (stopDuring 3 jid) 2 3 replication.StateTransferBlob
      replication.StateTransferBlob n7
      (transferEngine c b jid p F replication.StateCheck replication.StatePullManifest)
      (transferEngine c b jid p F replication.StatePullManifest replication.StateTransferBlob)
      w5 w7 _ _ models.JobStopped rfl (Or.inl rfl) (by decide) (by decide) rfl
      (tr_enter c b jid p F replication.StateCheck replication.StatePullManifest
        replication.StateTransferBlob w5 w6 w7 n7 _ _ (Or.inl (by decide))
        hget.2.2.2.2.2.2.1 hX6 hget.2.2.2.2.2.2.2.1 hE7)
      rfl hn7ne rfl hstopped
  have hpull : RunsTo (stopDuring 3 jid) (2 + 3 + 2) 2 n3
      (transferEngine c b jid p F models.JobRunning replication.StateCheck) w3
      [replication.StatePullManifest, replication.StateTransferBlob, models.JobStopped]
      models.JobStopped :=
    RunsTo_step (stopDuring 3 jid) (2 + 3) 2 n3 replication.StatePullManifest
      replication.StateTransferBlob
      (transferEngine c b jid p F models.JobRunning replication.StateCheck)
      (transferEngine c b jid p F replication.StateCheck replication.StatePullManifest)
      w3 w5 _ _ models.JobStopped rfl (hn3.symm.imp id (fun h => ⟨h, hsC⟩)) (by decide)
      (by decide) rfl
      (tr_enter c b jid p F models.JobRunning replication.StateCheck
        replication.StatePullManifest w3 w4 w5 replication.StateTransferBlob _ _
        (Or.inl (by decide)) hget.2.2.2.2.2.1 hX4 hget.2.2.2.2.2.2.1 hE5)
      rfl hblob
  have hloop : RunsTo (stopDuring 3 jid) (2 + 3 + 2 + 2) 1 models.JobContinue
      (transferEngine c b jid p F models.JobPending models.JobRunning) w1
      [replication.StateCheck, replication.StatePullManifest, replication.StateTransferBlob,
        models.JobStopped] models.JobStopped :=
    RunsTo_step (stopDuring 3 jid) (2 + 3 + 2) 1 models.JobContinue replication.StateCheck n3
      (transferEngine c b jid p F models.JobPending models.JobRunning)
      (transferEngine c b jid p F models.JobRunning replication.StateCheck) w1 w3 _ _
      models.JobStopped rfl (Or.inr ⟨rfl, hsR⟩) (by decide) (by decide) rfl
      (tr_enter c b jid p F models.JobPending models.JobRunning replication.StateCheck w1 w1 w3
        n3 _ _ (Or.inl (by decide)) hget.2.1 (hc.statusExit jid models.JobRunning w1)
        hget.2.2.2.2.2.1 hE3)
      rfl hpull
  obtain ⟨h1, h2, h3, h4⟩ := hloop fuel (by omega)
  have hS : (transferEngine c b jid p F prev models.JobPending).Start models.JobRunning w
      (stopDuring 3 jid) fuel =
      Run.after [Event.call models.JobRunning, Event.enter models.JobRunning,
          Event.entered models.JobRunning]
        (JobSM.loop (stopDuring 3 jid) fuel 1 models.JobContinue none
          (transferEngine c b jid p F models.JobPending models.JobRunning) w1) := by
    have hst0 : ∀ g : JobSM W, g.stopAll (stopDuring 3 jid 0) = g := fun _ => rfl
    rw [Start_eq, hE0]
    simp only
    rw [hst0, finish_of_no_error _ h2]
  rw [hS]
  refine ⟨h1, h2, ?_, h4⟩
  simp only [Run.after, enteredStates_append, h3]
  rfl

end transferRuns

/-! ## The outcomes of `Reset` -/

section resetOutcomes

variable {W B : Type}

theorem Reset_job_error (c : Collab W B) (sm : JobSM W) (jid : Int) (e : Error)
    (hj : c.GetRepJob jid = Except.error e) :
    JobSM.Reset c sm jid =
      (some (Error.failedToGetJob e), { sm with JobID := jid, desiredState := "" }) := by
  simp only [JobSM.Reset, hj]

theorem Reset_job_missing (c : Collab W B) (sm : JobSM W) (jid : Int)
    (hj : c.GetRepJob jid = Except.ok none) :
    JobSM.Reset c sm jid =
      (some (Error.jobNotExist jid), { sm with JobID := jid, desiredState := "" }) := by
  simp only [JobSM.Reset, hj]

theorem Reset_policy_error (c : Collab W B) (sm : JobSM W) (jid : Int) (job : RepJob)
    (e : Error) (hj : c.GetRepJob jid = Except.ok (some job))
    (hpol : c.GetRepPolicy job.PolicyID = Except.error e) :
    JobSM.Reset c sm jid =
      (some (Error.failedToGetPolicy e), { sm with JobID := jid, desiredState := "" }) := by
  simp only [JobSM.Reset, hj, hpol]

theorem Reset_policy_missing (c : Collab W B) (sm : JobSM W) (jid : Int) (job : RepJob)
    (hj : c.GetRepJob jid = Except.ok (some job))
    (hpol : c.GetRepPolicy job.PolicyID = Except.ok none) :
    JobSM.Reset c sm jid =
      (some (Error.policyNotExist job.PolicyID),
        { sm with JobID := jid, desiredState := "" }) := by
  simp only [JobSM.Reset, hj, hpol]

theorem Reset_disabled (c : Collab W B) (sm : JobSM W) (jid : Int) (job : RepJob)
    (policy : RepPolicy) (hj : c.GetRepJob jid = Except.ok (some job))
    (hpol : c.GetRepPolicy job.PolicyID = Except.ok (some policy))
    (h0 : policy.Enabled = 0) :
    JobSM.Reset c sm jid =
      (none, { sm with
        JobID := jid
        desiredState := ""
        Parms := some
          { LocalRegURL := c.LocalHarborURL, TargetURL := "", TargetUsername := "",
            TargetPassword := "", Repository := job.Repository, Tags := job.TagList,
            Enabled := 0, Operation := job.Operation } }) := by
  simp only [JobSM.Reset, hj, hpol, h0, if_true]

theorem Reset_target_error (c : Collab W B) (sm : JobSM W) (jid : Int) (job : RepJob)
    (policy : RepPolicy) (e : Error) (hj : c.GetRepJob jid = Except.ok (some job))
    (hpol : c.GetRepPolicy job.PolicyID = Except.ok (some policy))
    (hen : policy.Enabled ≠ 0) (ht : c.GetRepTarget policy.TargetID = Except.error e) :
    (JobSM.Reset c sm jid).1 = some (Error.failedToGetTarget e) := by
  simp only [JobSM.Reset, hj, hpol, hen, if_false, ht]

theorem Reset_target_missing (c : Collab W B) (sm : JobSM W) (jid : Int) (job : RepJob)
    (policy : RepPolicy) (hj : c.GetRepJob jid = Except.ok (some job))
    (hpol : c.GetRepPolicy job.PolicyID = Except.ok (some policy))
    (hen : policy.Enabled ≠ 0) (ht : c.GetRepTarget policy.TargetID = Except.ok none) :
    (JobSM.Reset c sm jid).1 = some (Error.targetNotExist policy.TargetID) := by
  simp only [JobSM.Reset, hj, hpol, hen, if_false, ht]

theorem Reset_decrypt_error (c : Collab W B) (sm : JobSM W) (jid : Int) (job : RepJob)
    (policy : RepPolicy) (target : RepTarget) (e : Error)
    (hj : c.GetRepJob jid = Except.ok (some job))
    (hpol : c.GetRepPolicy job.PolicyID = Except.ok (some policy))
    (hen : policy.Enabled ≠ 0)
    (ht : c.GetRepTarget policy.TargetID = Except.ok (some target))
    (hpwd : target.Password ≠ "")
    (hdec : c.ReversibleDecrypt target.Password = Except.error e) :
    (JobSM.Reset c sm jid).1 = some (Error.failedToDecrypt e) := by
  simp only [JobSM.Reset, hj, hpol, hen, if_false, ht, hpwd, ne_eq, not_false_eq_true, if_true,
    hdec]

theorem buildGraph_unsupported (c : Collab W B) (sm1 : JobSM W) (p : RepJobParm)
    (h1 : p.Operation ≠ models.RepOpTransfer) (h2 : p.Operation ≠ models.RepOpDelete) :
    (JobSM.buildGraph c sm1 p).1 = some (Error.unsupportedOperation p.Operation) := by
  unfold JobSM.buildGraph
  simp only [h1, h2, if_false]

theorem Reset_unsupported (c : Collab W B) (sm : JobSM W) (jid : Int) (job : RepJob)
    (policy : RepPolicy) (target : RepTarget) (pwd : String)
    (hj : c.GetRepJob jid = Except.ok (some job))
    (hpol : c.GetRepPolicy job.PolicyID = Except.ok (some policy))
    (hen : policy.Enabled ≠ 0)
    (ht : c.GetRepTarget policy.TargetID = Except.ok (some target))
    (hdec : (if target.Password ≠ "" then c.ReversibleDecrypt target.Password
      else Except.ok target.Password) = Except.ok pwd)
    (h1 : job.Operation ≠ models.RepOpTransfer) (h2 : job.Operation ≠ models.RepOpDelete) :
    (JobSM.Reset c sm jid).1 = some (Error.unsupportedOperation job.Operation) := by
  simp only [JobSM.Reset, hj, hpol, hen, if_false, ht, hdec]
  exact buildGraph_unsupported c _ _ h1 h2

end resetOutcomes

/-! ## The graphs `Reset` builds -/

section resetGraphs

variable {W B : Type}

theorem Reset_enabled_build (c : Collab W B) (sm0 sm : JobSM W) (jid : Int) (p : RepJobParm)
    (hres : JobSM.Reset c sm0 jid = (none, sm)) (hp : sm.Parms = some p)
    (hen : p.Enabled ≠ 0) :
    JobSM.buildGraph c { sm0 with JobID := jid, desiredState := "", Parms := some p } p
      = (none, sm) := by
  unfold JobSM.Reset at hres
  simp only at hres
  cases hj : c.GetRepJob jid with
  | error e => rw [hj] at hres; simp at hres
  | ok oj =>
    cases oj with
    | none => rw [hj] at hres; simp at hres
    | some job =>
      rw [hj] at hres
      simp only at hres
      cases hpol : c.GetRepPolicy job.PolicyID with
      | error e => rw [hpol] at hres; simp at hres
      | ok opol =>
        cases opol with
        | none => rw [hpol] at hres; simp at hres
        | some policy =>
          rw [hpol] at hres
          simp only at hres
          by_cases h0 : policy.Enabled = 0
          · simp only [h0, if_true, Prod.mk.injEq, true_and] at hres
            subst hres
            simp only [Option.some.injEq] at hp
            subst hp
            exact absurd rfl hen
          · simp only [h0, if_false] at hres
            cases ht : c.GetRepTarget policy.TargetID with
            | error e => rw [ht] at hres; simp at hres
            | ok ot =>
              cases ot with
              | none => rw [ht] at hres; simp at hres
              | some target =>
                rw [ht] at hres
                simp only at hres
                cases hd : (if target.Password ≠ "" then c.ReversibleDecrypt target.Password
                    else Except.ok target.Password) with
                | error e => rw [hd] at hres; simp at hres
                | ok pwd =>
                  rw [hd] at hres
                  simp only at hres
                  have hparms := buildGraph_Parms c _ _ _ _ hres
                  rw [hparms] at hp
                  simp only [Option.some.injEq] at hp
                  subst hp
                  exact hres

theorem deleteTable_eq :
    addEdge (addEdge (addEdge [] models.JobPending models.JobRunning)
      models.JobRunning replication.StateDelete)
      replication.StateDelete models.JobFinished = deleteTable := by
  decide

theorem buildGraph_delete (c : Collab W B) (sm1 : JobSM W) (p : RepJobParm)
    (hop : p.Operation = models.RepOpDelete) :
    JobSM.buildGraph c sm1 p =
      (none, { sm1 with
        CurrentState := models.JobPending
        Transitions := deleteTable
        Handlers := deleteHandlers c p sm1.JobID }) := by
  have hne : ¬ (models.RepOpDelete = models.RepOpTransfer) := by decide
  unfold JobSM.buildGraph
  simp only [hop, hne, if_true, if_false]
  unfold addImgDeleteTransition
  simp only [AddTransition_eq]
  rw [deleteTable_eq]
  simp only [Prod.mk.injEq, JobSM.mk.injEq, true_and, and_true]
  simp [mapSet, deleteHandlers,
    models.JobPending, models.JobRunning, models.JobError, models.JobStopped,
    models.JobFinished, replication.StateDelete]

theorem Reset_graph (c : Collab W B) (sm0 sm : JobSM W) (jid : Int) (p : RepJobParm)
    (hres : JobSM.Reset c sm0 jid = (none, sm)) (hp : sm.Parms = some p)
    (hen : p.Enabled ≠ 0) :
    (p.Operation = models.RepOpTransfer ∧
      ∃ b, sm = transferEngine c b jid p sm0.ForcedStates sm0.PreviousState models.JobPending) ∨
    (p.Operation = models.RepOpDelete ∧
      sm = deleteEngine c jid p sm0.ForcedStates sm0.PreviousState models.JobPending) := by
  have hb := Reset_enabled_build c sm0 sm jid p hres hp hen
  by_cases h1 : p.Operation = models.RepOpTransfer
  · left
    obtain ⟨b, hsm⟩ := buildGraph_transfer c _ sm p h1 hb
    exact ⟨h1, b, hsm⟩
  · by_cases h2 : p.Operation = models.RepOpDelete
    · right
      rw [buildGraph_delete c _ p h2] at hb
      simp only [Prod.mk.injEq, true_and] at hb
      exact ⟨h2, hb.symm⟩
    · have := buildGraph_unsupported c
        ({ sm0 with JobID := jid, desiredState := "", Parms := some p } : JobSM W) p h1 h2
      rw [hb] at this
      cases this

theorem deleteHandlers_get (c : Collab W B) (p : RepJobParm) (jid : Int) :
    mapGet (deleteHandlers c p jid) models.JobPending = none ∧
    mapGet (deleteHandlers c p jid) models.JobRunning
      = some (c.StatusUpdater jid models.JobRunning) ∧
    mapGet (deleteHandlers c p jid) models.JobError
      = some (c.StatusUpdater jid models.JobError) ∧
    mapGet (deleteHandlers c p jid) models.JobStopped
      = some (c.StatusUpdater jid models.JobStopped) ∧
    mapGet (deleteHandlers c p jid) models.JobFinished
      = some (c.StatusUpdater jid models.JobFinished) ∧
    mapGet (deleteHandlers c p jid) replication.StateDelete
      = some (c.NewDeleter p.Repository p.Tags p.TargetURL p.TargetUsername p.TargetPassword) ∧
    mapGet (deleteHandlers c p jid) models.JobCanceled = none := by
  simp [mapGet, deleteHandlers,
      models.JobPending, models.JobRunning, models.JobError, models.JobStopped,
      models.JobFinished, models.JobCanceled, replication.StateDelete]

theorem transferHandlers_canceled (c : Collab W B) (b : B) (jid : Int) :
    mapGet (transferHandlers c b jid) models.JobCanceled = none := by
  simp [mapGet, transferHandlers,
      models.JobRunning, models.JobError, models.JobStopped,
      models.JobFinished, models.JobCanceled, replication.StateCheck,
      replication.StatePullManifest, replication.StateTransferBlob,
      replication.StatePushManifest]

end resetGraphs

/-! ## Runs through the delete graph -/

section deleteRuns

variable {W B : Type}

theorem de_enter (c : Collab W B) (jid : Int) (p : RepJobParm) (F : List String)
    (prev cur t : String) (w w1 w2 : W) (n1 : String) (xh eh : StateHandler W)
    (hsucc : t ∈ (mapGet deleteTable cur).getD [] ∨ t ∈ F)
    (hx : mapGet (deleteHandlers c p jid) cur = some xh) (hX : xh.Exit w = (none, w1))
    (he : mapGet (deleteHandlers c p jid) t = some eh) (hE : eh.Enter w1 = ((n1, none), w2)) :
    (deleteEngine c jid p F prev cur).EnterState t w =
      { next := n1, err := none, sm := deleteEngine c jid p F cur t, w := w2,
        log := [Event.call t, Event.exit cur, Event.enter t, Event.entered t] } :=
  enterState_both (deleteEngine c jid p F prev cur) t w w1 w2 n1 xh eh hsucc hx hX he hE

theorem delete_run (c : Collab W B) (hc : DeleteContract c) (jid : Int) (p : RepJobParm)
    (F : List String) (prev : String) (w : W) (fuel : Nat) (hfuel : 4 ≤ fuel) :
    ((deleteEngine c jid p F prev models.JobPending).Start models.JobRunning w noStops
      fuel).finished = true ∧
    ((deleteEngine c jid p F prev models.JobPending).Start models.JobRunning w noStops
      fuel).err = none ∧
    enteredStates ((deleteEngine c jid p F prev models.JobPending).Start models.JobRunning
      w noStops fuel).log =
      [models.JobRunning, replication.StateDelete, models.JobFinished] ∧
    ((deleteEngine c jid p F prev models.JobPending).Start models.JobRunning w noStops
      fuel).sm.CurrentState = models.JobFinished := by
  have hget := deleteHandlers_get c p jid
  obtain ⟨w1, hE⟩ := hc.runningEnter jid w
  obtain ⟨n3, w3, hE3, hn3⟩ :=
    hc.deleterEnter p.Repository p.Tags p.TargetURL p.TargetUsername p.TargetPassword w1
  obtain ⟨w4, hX4⟩ :=
    hc.deleterExit p.Repository p.Tags p.TargetURL p.TargetUsername p.TargetPassword w3
  obtain ⟨w5, hE5⟩ := hc.terminalEnter jid models.JobFinished w4 (Or.inl rfl)
  have hsP : models.JobRunning ∈ (mapGet deleteTable models.JobPending).getD [] := by
    decide
  have hsR : (mapGet deleteTable models.JobRunning).getD [] = [replication.StateDelete] := by
    decide
  have hsD : (mapGet deleteTable replication.StateDelete).getD [] = [models.JobFinished] := by
    decide
  have hE0 : (deleteEngine c jid p F prev models.JobPending).EnterState models.JobRunning w =
      { next := models.JobContinue, err := none,
        sm := deleteEngine c jid p F models.JobPending models.JobRunning, w := w1,
        log := [Event.call models.JobRunning, Event.enter models.JobRunning,
          Event.entered models.JobRunning] } :=
    enterState_noexit (deleteEngine c jid p F prev models.JobPending) models.JobRunning
      w w1 models.JobContinue _ (Or.inl hsP) hget.1 hget.2.1 hE
  have hfin : RunsTo noStops 2 2 n3
      (deleteEngine c jid p F models.JobRunning replication.StateDelete) w3
      [models.JobFinished] models.JobFinished :=
    RunsTo_step noStops 0 2 n3 models.JobFinished ""
      (deleteEngine c jid p F models.JobRunning replication.StateDelete)
      (deleteEngine c jid p F replication.StateDelete models.JobFinished)
      w3 w5 _ [] models.JobFinished rfl
      (hn3.symm.imp id (fun h => ⟨h, hsD⟩)) (by decide) (by decide) rfl
      (de_enter c jid p F models.JobRunning replication.StateDelete models.JobFinished
        w3 w4 w5 "" _ _ (Or.inl (by decide)) hget.2.2.2.2.2.1 hX4 hget.2.2.2.2.1 hE5)
      rfl (RunsTo_done noStops 3 _ w5)
  have hloop : RunsTo noStops (2 + 2) 1 models.JobContinue
      (deleteEngine c jid p F models.JobPending models.JobRunning) w1
      [replication.StateDelete, models.JobFinished] models.JobFinished :=
    RunsTo_step noStops 2 1 models.JobContinue replication.StateDelete n3
      (deleteEngine c jid p F models.JobPending models.JobRunning)
      (deleteEngine c jid p F models.JobRunning replication.StateDelete) w1 w3 _ _
      models.JobFinished rfl (Or.inr ⟨rfl, hsR⟩) (by decide) (by decide) rfl
      (de_enter c jid p F models.JobPending models.JobRunning replication.StateDelete
        w1 w1 w3 n3 _ _ (Or.inl (by decide)) hget.2.1
        (hc.statusExit jid models.JobRunning w1) hget.2.2.2.2.2.1 hE3)
      rfl hfin
  obtain ⟨h1, h2, h3, h4⟩ := hloop fuel (by omega)
  have hS : (deleteEngine c jid p F prev models.JobPending).Start models.JobRunning w
      noStops fuel =
      Run.after [Event.call models.JobRunning, Event.enter models.JobRunning,
          Event.entered models.JobRunning]
        (JobSM.loop noStops fuel 1 models.JobContinue none
          (deleteEngine c jid p F models.JobPending models.JobRunning) w1) := by
    have hst0 : ∀ g : JobSM W, g.stopAll (noStops 0) = g := fun _ => rfl
    rw [Start_eq, hE0]
    simp only
    rw [hst0, finish_of_no_error _ h2]
  rw [hS]
  refine ⟨h1, h2, ?_, h4⟩
  simp only [Run.after, enteredStates_append, h3]
  rfl

theorem Model.deleteContract (operation : String) (tags : List String) (enabled : Int)
    (explicit : Bool) : DeleteContract (Model.collab operation tags enabled explicit) where
  statusExit := fun _ _ _ => rfl
  runningEnter := fun _ _ => ⟨_, rfl⟩
  terminalEnter := by
    intro jid s w hs
    rcases hs with rfl | rfl | rfl <;> exact ⟨_, rfl⟩
  deleterEnter := by
    intro repo tags url user pwd w
    cases explicit
    · exact ⟨_, _, rfl, Or.inl rfl⟩
    · exact ⟨_, _, rfl, Or.inr rfl⟩
  deleterExit := fun _ _ _ _ _ _ => ⟨_, rfl⟩

end deleteRuns

/-! ## `Start` on a target that is refused -/

section startRefused

variable {W B : Type}

theorem Start_refused (g : JobSM W) (s : String) (w : W) (stops : Nat → List Int) (fuel : Nat)
    (h1 : s ∉ g.successors g.CurrentState) (h2 : s ∉ g.ForcedStates) :
    g.Start s w stops fuel =
      { err := some (Error.noTransition g.JobID g.CurrentState s)
        sm := ((g.stopAll (stops 0)).EnterState models.JobError w).sm
        w := ((g.stopAll (stops 0)).EnterState models.JobError w).w
        log := Event.call s :: Event.failed (Error.noTransition g.JobID g.CurrentState s) ::
          Event.fallback :: ((g.stopAll (stops 0)).EnterState models.JobError w).log
        finished := true } := by
  unfold JobSM.Start
  rw [enterState_refused g s w h1 h2]
  simp only
  rw [loop_exit stops fuel 1 _ _ _ _ (by simp)]
  simp [JobSM.finish, Run.after]

theorem Start_first_call_ok (g : JobSM W) (s : String) (w : W) (stops : Nat → List Int)
    (fuel : Nat) (h : (g.Start s w stops fuel).err = none) : (g.EnterState s w).err = none := by
  cases hE : (g.EnterState s w).err with
  | none => rfl
  | some e =>
    rw [Start_eq, hE, loop_exit stops fuel 1 _ (some e) _ _ (by simp)] at h
    simp [JobSM.finish, Run.after] at h

theorem Reset_graph_facts (c : Collab W B) (sm0 sm : JobSM W) (jid : Int) (p : RepJobParm)
    (hres : JobSM.Reset c sm0 jid = (none, sm)) (hp : sm.Parms = some p)
    (hen : p.Enabled ≠ 0) :
    sm.CurrentState = models.JobPending ∧ sm.JobID = jid ∧ sm.desiredState = "" ∧
    sm.ForcedStates = sm0.ForcedStates ∧
    sm.successors models.JobPending = [models.JobRunning] ∧
    sm.successors models.JobCanceled = [] ∧
    mapGet sm.Handlers models.JobPending = none ∧
    mapGet sm.Handlers models.JobCanceled = none ∧
    mapGet sm.Handlers models.JobError = some (c.StatusUpdater jid models.JobError) := by
  have hT1 : (mapGet transferTable models.JobPending).getD [] = [models.JobRunning] := by
    decide
  have hT2 : (mapGet transferTable models.JobCanceled).getD [] = [] := by decide
  have hD1 : (mapGet deleteTable models.JobPending).getD [] = [models.JobRunning] := by
    decide
  have hD2 : (mapGet deleteTable models.JobCanceled).getD [] = [] := by decide
  rcases Reset_graph c sm0 sm jid p hres hp hen with ⟨_, b, hsm⟩ | ⟨_, hsm⟩
  · subst hsm
    exact ⟨rfl, rfl, rfl, rfl, hT1, hT2, (transferHandlers_get c b jid).1,
      transferHandlers_canceled c b jid, (transferHandlers_get c b jid).2.2.1⟩
  · subst hsm
    exact ⟨rfl, rfl, rfl, rfl, hD1, hD2, (deleteHandlers_get c p jid).1,
      (deleteHandlers_get c p jid).2.2.2.2.2.2, (deleteHandlers_get c p jid).2.2.1⟩

theorem pending_not_forced (sm0 : JobSM W)
    (hF : sm0.ForcedStates = (JobSM.Init sm0).ForcedStates) :
    models.JobPending ∉ sm0.ForcedStates := by
  rw [hF]
  have h : models.JobPending ∉
      [models.JobError, models.JobStopped, models.JobCanceled] := by decide
  exact h

end startRefused

/-! ## `AddTransition` and `RemoveTransition` -/

section edges

variable {W : Type}

theorem mapGet_mapSet_self {β : Type} (m : List (String × β)) (k : String) (v : β) :
    mapGet (mapSet m k v) k = some v := by
  induction m with
  | nil => simp [mapSet, mapGet]
  | cons e m ih =>
    obtain ⟨k1, x⟩ := e
    by_cases h : k1 = k
    · simp [mapSet, mapGet, h]
    · simp [mapSet, mapGet, h, ih]

theorem mapGet_mapSet_ne {β : Type} (m : List (String × β)) (k k2 : String) (v : β)
    (hne : k2 ≠ k) : mapGet (mapSet m k v) k2 = mapGet m k2 := by
  induction m with
  | nil =>
    have : ¬ k = k2 := fun h => hne h.symm
    simp [mapSet, mapGet, this]
  | cons e m ih =>
    obtain ⟨k1, x⟩ := e
    by_cases h : k1 = k
    · subst h
      have : ¬ k1 = k2 := fun h => hne h.symm
      simp [mapSet, mapGet, this]
    · by_cases h2 : k1 = k2
      · subst h2
        simp [mapSet, mapGet, h]
      · simp [mapSet, mapGet, h, h2, ih]

theorem mem_setAdd (m : List String) (s x : String) : x ∈ setAdd m s ↔ x ∈ m ∨ x = s := by
  unfold setAdd
  by_cases h : s ∈ m
  · simp only [h, if_true]
    constructor
    · exact Or.inl
    · rintro (h1 | h1)
      · exact h1
      · rw [h1]; exact h
  · simp [h]

theorem mem_setDel (m : List String) (s x : String) : x ∈ setDel m s ↔ x ∈ m ∧ x ≠ s := by
  simp [setDel]

theorem setDel_setAdd (m : List String) (s : String) (h : s ∉ m) :
    setDel (setAdd m s) s = m := by
  unfold setAdd setDel
  simp only [h, if_false, List.filter_append]
  have h1 : List.filter (fun x => decide (x ≠ s)) m = m := by
    rw [List.filter_eq_self]
    intro a ha
    have : a ≠ s := fun hh => h (hh ▸ ha)
    simp [this]
  rw [h1]
  simp

theorem addEdge_get_self (t : List (String × List String)) (src dst : String) :
    mapGet (addEdge t src dst) src = some (setAdd ((mapGet t src).getD []) dst) := by
  unfold addEdge
  cases h : mapGet t src with
  | none => simp [mapGet_mapSet_self]
  | some r => simp [mapGet_mapSet_self, h]

theorem addEdge_get_ne (t : List (String × List String)) (src dst x : String) (hne : x ≠ src) :
    mapGet (addEdge t src dst) x = mapGet t x := by
  unfold addEdge
  cases h : mapGet t src with
  | none => simp [mapGet_mapSet_ne _ _ _ _ hne]
  | some r => simp [mapGet_mapSet_ne _ _ _ _ hne]

theorem successors_Add_self (sm : JobSM W) (src dst : String) (h : StateHandler W) :
    (sm.AddTransition src dst h).successors src = setAdd (sm.successors src) dst := by
  rw [AddTransition_eq]
  unfold JobSM.successors
  simp only [addEdge_get_self, Option.getD_some]

theorem successors_Add_ne (sm : JobSM W) (src dst x : String) (h : StateHandler W)
    (hne : x ≠ src) : (sm.AddTransition src dst h).successors x = sm.successors x := by
  rw [AddTransition_eq]
  unfold JobSM.successors
  simp only [addEdge_get_ne _ _ _ _ hne]

theorem successors_Remove_self (sm : JobSM W) (src dst : String) :
    (sm.RemoveTransition src dst).successors src = setDel (sm.successors src) dst := by
  unfold JobSM.RemoveTransition JobSM.successors
  cases h : mapGet sm.Transitions src with
  | none => simp [h, setDel]
  | some r => simp [mapGet_mapSet_self]

theorem successors_Remove_ne (sm : JobSM W) (src dst x : String) (hne : x ≠ src) :
    (sm.RemoveTransition src dst).successors x = sm.successors x := by
  unfold JobSM.RemoveTransition JobSM.successors
  cases h : mapGet sm.Transitions src with
  | none => simp
  | some r => simp [mapGet_mapSet_ne _ _ _ _ hne]

theorem Remove_frame (sm : JobSM W) (src dst : String) :
    (sm.RemoveTransition src dst).Handlers = sm.Handlers ∧
    (sm.RemoveTransition src dst).CurrentState = sm.CurrentState ∧
    (sm.RemoveTransition src dst).PreviousState = sm.PreviousState ∧
    (sm.RemoveTransition src dst).desiredState = sm.desiredState ∧
    (sm.RemoveTransition src dst).JobID = sm.JobID ∧
    (sm.RemoveTransition src dst).ForcedStates = sm.ForcedStates ∧
    (sm.RemoveTransition src dst).Parms = sm.Parms := by
  unfold JobSM.RemoveTransition
  cases mapGet sm.Transitions src <;> exact ⟨rfl, rfl, rfl, rfl, rfl, rfl, rfl⟩

end edges

/-! ## `EnterState` when a handler fails -/

section handlerFailure

variable {W : Type}

theorem guard_of_allowed (sm : JobSM W) (s : String)
    (hs : s ∈ sm.successors sm.CurrentState ∨ s ∈ sm.ForcedStates) :
    (!decide (s ∈ sm.successors sm.CurrentState) && !decide (s ∈ sm.ForcedStates)) = false := by
  rcases hs with h | h <;> simp [h]

theorem enterState_exit_fails (sm : JobSM W) (s : String) (w w1 : W) (xh : StateHandler W)
    (e : Error) (hs : s ∈ sm.successors sm.CurrentState ∨ s ∈ sm.ForcedStates)
    (hx : mapGet sm.Handlers sm.CurrentState = some xh) (hX : xh.Exit w = (some e, w1)) :
    sm.EnterState s w =
      { next := "", err := some e, sm := sm, w := w1,
        log := [Event.call s, Event.exit sm.CurrentState, Event.failed e] } := by
  unfold JobSM.EnterState
  simp only [guard_of_allowed sm s hs, hx, hX]
  rfl

theorem enterState_enter_fails (sm : JobSM W) (s : String) (w w2 : W) (eh : StateHandler W)
    (n : String) (e : Error) (hs : s ∈ sm.successors sm.CurrentState ∨ s ∈ sm.ForcedStates)
    (hexit : ∀ h, mapGet sm.Handlers sm.CurrentState = some h → (h.Exit w).1 = none)
    (he : mapGet sm.Handlers s = some eh)
    (hE : eh.Enter (sm.exitWorld w) = ((n, some e), w2)) :
    sm.EnterState s w =
      { next := "", err := some e, sm := sm, w := w2,
        log := Event.call s :: (sm.handlerCalls s ++ [Event.failed e]) } := by
  unfold JobSM.EnterState
  simp only [guard_of_allowed sm s hs]
  unfold JobSM.exitWorld at hE
  unfold JobSM.handlerCalls
  cases hx : mapGet sm.Handlers sm.CurrentState with
  | none =>
    simp only [hx] at hE
    simp [JobSM.enterTarget, he, hE]
  | some xh =>
    have h1 := hexit xh hx
    rcases hX : xh.Exit w with ⟨e0, w0⟩
    rw [hX] at h1
    simp only at h1
    subst h1
    simp only [hx, hX] at hE
    simp [JobSM.enterTarget, he, hE, hX]

end handlerFailure

/-! ## Runs that end in the fallback -/

section fallbackRuns

variable {W B : Type}

theorem resume_canceled (g : JobSM W) (w : W) (fuel k : Nat) (hd : g.desiredState = "")
    (hF : g.ForcedStates = (JobSM.Init g).ForcedStates)
    (hno : mapGet g.Handlers models.JobCanceled = none)
    (hsucc : g.successors models.JobCanceled = [])
    (hexit : ∀ h, mapGet g.Handlers g.CurrentState = some h → (h.Exit w).1 = none)
    (herr : ∀ h, mapGet g.Handlers models.JobError = some h → ∀ w1, (h.Enter w1).1.2 = none) :
    (JobSM.resume noStops (fuel + 2) k models.JobCanceled none g w).finished = true ∧
    (JobSM.resume noStops (fuel + 2) k models.JobCanceled none g w).err
      = some Error.unableToContinue ∧
    enteredStates (JobSM.resume noStops (fuel + 2) k models.JobCanceled none g w).log
      = [models.JobCanceled, models.JobError] ∧
    (JobSM.resume noStops (fuel + 2) k models.JobCanceled none g w).sm.CurrentState
      = models.JobError ∧
    (JobSM.resume noStops (fuel + 2) k models.JobCanceled none g w).sm.PreviousState
      = models.JobCanceled ∧
    Event.undecidable ∈ (JobSM.resume noStops (fuel + 2) k models.JobCanceled none g w).log := by
  have hE1 : g.EnterState models.JobCanceled w =
      { next := models.JobContinue, err := none,
        sm := { g with PreviousState := g.CurrentState, CurrentState := models.JobCanceled },
        w := g.exitWorld w,
        log := Event.call models.JobCanceled ::
          (g.handlerCalls models.JobCanceled ++ [Event.entered models.JobCanceled]) } := by
    rw [enterState_allowed g models.JobCanceled w
      (Or.inr (forced_of_init g _ hF (Or.inr (Or.inr rfl)))) hexit
      (by intro h hh; rw [hno] at hh; cases hh)]
    simp only [hno]
  have hent1 : enteredStates (g.EnterState models.JobCanceled w).log = [models.JobCanceled] := by
    rcases enterState_outcome g models.JobCanceled w with ⟨_, _, h⟩ | ⟨h1, _⟩
    · exact h
    · rw [hE1] at h1
      exact absurd rfl h1
  have hE2 := enterState_allowed
    ({ g with PreviousState := g.CurrentState, CurrentState := models.JobCanceled } : JobSM W)
    models.JobError (g.exitWorld w)
    (Or.inr (forced_of_init g _ hF (Or.inl rfl)))
    (by intro h hh; exact absurd (hno.symm.trans hh) (by simp))
    (by intro h hh; exact herr h hh _)
  have hout2 : (JobSM.EnterState
        ({ g with PreviousState := g.CurrentState, CurrentState := models.JobCanceled } : JobSM W)
        models.JobError (g.exitWorld w)).sm =
        { g with PreviousState := models.JobCanceled, CurrentState := models.JobError } ∧
      enteredStates (JobSM.EnterState
        ({ g with PreviousState := g.CurrentState, CurrentState := models.JobCanceled } : JobSM W)
        models.JobError (g.exitWorld w)).log = [models.JobError] := by
    rcases enterState_outcome
      ({ g with PreviousState := g.CurrentState, CurrentState := models.JobCanceled } : JobSM W)
      models.JobError (g.exitWorld w) with ⟨_, h2, h3⟩ | ⟨h1, _⟩
    · exact ⟨h2, h3⟩
    · rw [hE2] at h1
      exact absurd rfl h1
  have hrun : JobSM.resume noStops (fuel + 2) k models.JobCanceled none g w =
      { err := some Error.unableToContinue
        sm := (JobSM.EnterState
          ({ g with PreviousState := g.CurrentState, CurrentState := models.JobCanceled } :
            JobSM W) models.JobError (g.exitWorld w)).sm
        w := (JobSM.EnterState
          ({ g with PreviousState := g.CurrentState, CurrentState := models.JobCanceled } :
            JobSM W) models.JobError (g.exitWorld w)).w
        log := (g.EnterState models.JobCanceled w).log ++ Event.undecidable ::
          Event.fallback :: (JobSM.EnterState
          ({ g with PreviousState := g.CurrentState, CurrentState := models.JobCanceled } :
            JobSM W) models.JobError (g.exitWorld w)).log
        finished := true } := by
    have hst0 : ∀ g1 : JobSM W, g1.stopAll (noStops k) = g1 := fun _ => rfl
    unfold JobSM.resume
    rw [loop_call noStops (fuel + 1) k models.JobCanceled g w (by decide) (by decide) hd]
    rw [hst0]
    rw [hE1]
    simp only
    rw [loop_undecidable noStops fuel (k + 1)
      ({ g with PreviousState := g.CurrentState, CurrentState := models.JobCanceled } : JobSM W)
      (g.exitWorld w) hd
      (by
        show (g.successors models.JobCanceled).length ≠ 1
        rw [hsucc]
        decide)]
    simp [JobSM.finish, Run.after]
  rw [hrun]
  refine ⟨rfl, rfl, ?_, ?_, ?_, ?_⟩
  · simp only [enteredStates_append, hent1]
    simp only [enteredStates, hout2.2]
    rfl
  · simp only [hout2.1]
  · simp only [hout2.1]
  · simp

theorem enterState_exited (g : JobSM W) (s : String) (w : W) (xh : StateHandler W)
    (hs : s ∈ g.successors g.CurrentState ∨ s ∈ g.ForcedStates)
    (hx : mapGet g.Handlers g.CurrentState = some xh) :
    exitedStates (g.EnterState s w).log = [g.CurrentState] := by
  unfold JobSM.EnterState
  simp only [guard_of_allowed g s hs, hx]
  rcases hX : xh.Exit w with ⟨e, w1⟩
  cases e with
  | some e => rfl
  | none =>
    simp only [Bool.false_eq_true, if_false]
    unfold JobSM.enterTarget
    cases mapGet g.Handlers s with
    | none => rfl
    | some eh =>
      simp only
      rcases eh.Enter w1 with ⟨⟨n, e2⟩, w2⟩
      cases e2 <;> rfl

theorem exitedStates_append (a b : List Event) :
    exitedStates (a ++ b) = exitedStates a ++ exitedStates b := by
  induction a with
  | nil => rfl
  | cons e a ih =>
    cases e <;> simp [exitedStates, ih]

theorem enterState_called (g : JobSM W) (s : String) (w : W) :
    calledStates (g.EnterState s w).log = [s] := by
  obtain ⟨rest, h1, h2, _⟩ := enterState_log_head g s w
  rw [h1]
  show s :: calledStates rest = [s]
  rw [h2]

theorem finish_failed (stops : Nat → List Int) (fuel k : Nat) (sm : JobSM W) (w2 : W)
    (e : Error) (ids : List Int) (xh : StateHandler W)
    (hFE : models.JobError ∈ sm.ForcedStates)
    (hx : mapGet sm.Handlers sm.CurrentState = some xh) :
    (JobSM.resume stops fuel k "" (some e) (sm.stopAll ids) w2).finished = true ∧
    (JobSM.resume stops fuel k "" (some e) (sm.stopAll ids) w2).err = some e ∧
    exitedStates (JobSM.resume stops fuel k "" (some e) (sm.stopAll ids) w2).log
      = [sm.CurrentState] ∧
    calledStates (JobSM.resume stops fuel k "" (some e) (sm.stopAll ids) w2).log
      = [models.JobError] ∧
    (∀ e2 w3, xh.Exit w2 = (some e2, w3) →
      (JobSM.resume stops fuel k "" (some e) (sm.stopAll ids) w2).log
        = [Event.fallback, Event.call models.JobError, Event.exit sm.CurrentState,
            Event.failed e2] ∧
      (JobSM.resume stops fuel k "" (some e) (sm.stopAll ids) w2).sm.CurrentState
        = sm.CurrentState) := by
  obtain ⟨d, hd⟩ := stopAll_frame ids sm
  rw [hd]
  have hfin : JobSM.resume stops fuel k "" (some e)
        ({ sm with desiredState := d } : JobSM W) w2 =
      { err := some e,
        sm := (JobSM.EnterState ({ sm with desiredState := d } : JobSM W) models.JobError w2).sm,
        w := (JobSM.EnterState ({ sm with desiredState := d } : JobSM W) models.JobError w2).w,
        log := Event.fallback ::
          (JobSM.EnterState ({ sm with desiredState := d } : JobSM W) models.JobError w2).log,
        finished := true } := by
    unfold JobSM.resume
    rw [loop_exit stops fuel k "" (some e) _ w2 (by simp)]
    simp [JobSM.finish]
  rw [hfin]
  refine ⟨rfl, rfl, ?_, ?_, ?_⟩
  · show exitedStates (JobSM.EnterState ({ sm with desiredState := d } : JobSM W)
      models.JobError w2).log = [sm.CurrentState]
    exact enterState_exited ({ sm with desiredState := d } : JobSM W) models.JobError w2 xh
      (Or.inr hFE) hx
  · show calledStates (JobSM.EnterState ({ sm with desiredState := d } : JobSM W)
      models.JobError w2).log = [models.JobError]
    exact enterState_called _ _ _
  · intro e2 w3 hX2
    rw [enterState_exit_fails ({ sm with desiredState := d } : JobSM W) models.JobError w2 w3
      xh e2 (Or.inr hFE) hx hX2]
    exact ⟨rfl, rfl⟩

theorem enterState_enter_fails_after_exit (sm : JobSM W) (t : String) (w w1 w2 : W)
    (xh eh : StateHandler W) (n : String) (e : Error)
    (ht : t ∈ sm.successors sm.CurrentState ∨ t ∈ sm.ForcedStates)
    (hx : mapGet sm.Handlers sm.CurrentState = some xh) (hX : xh.Exit w = (none, w1))
    (he : mapGet sm.Handlers t = some eh) (hE : eh.Enter w1 = ((n, some e), w2)) :
    sm.EnterState t w =
      { next := "", err := some e, sm := sm, w := w2,
        log := [Event.call t, Event.exit sm.CurrentState, Event.enter t, Event.failed e] } := by
  have hw1 : sm.exitWorld w = w1 := by
    simp [JobSM.exitWorld, hx, hX]
  have hexit : ∀ h, mapGet sm.Handlers sm.CurrentState = some h → (h.Exit w).1 = none := by
    intro h hh
    rw [hx] at hh
    cases hh
    rw [hX]
  rw [enterState_enter_fails sm t w w2 eh n e ht hexit he (by rw [hw1]; exact hE)]
  simp [JobSM.handlerCalls, hx, he]

theorem enter_failure_run (sm : JobSM W) (t : String) (w w1 w2 : W)
    (xh eh : StateHandler W) (n : String) (e : Error) (stops : Nat → List Int)
    (fuel k : Nat) (ids : List Int) (R : Run W)
    (hFE : models.JobError ∈ sm.ForcedStates)
    (ht : t ∈ sm.successors sm.CurrentState ∨ t ∈ sm.ForcedStates)
    (hx : mapGet sm.Handlers sm.CurrentState = some xh) (hX : xh.Exit w = (none, w1))
    (he : mapGet sm.Handlers t = some eh) (hE : eh.Enter w1 = ((n, some e), w2))
    (hR : R = Run.after (sm.EnterState t w).log
      (JobSM.resume stops fuel k "" (some e) (sm.stopAll ids) w2)) :
    R.finished = true ∧ R.err = some e ∧
    exitedStates R.log = [sm.CurrentState, sm.CurrentState] ∧
    calledStates R.log = [t, models.JobError] ∧
    (∀ e2 w3, xh.Exit w2 = (some e2, w3) →
      enterCalls R.log = [t] ∧ Event.entered models.JobError ∉ R.log ∧
      R.sm.CurrentState = sm.CurrentState ∧
      R.log = [Event.call t, Event.exit sm.CurrentState, Event.enter t, Event.failed e,
        Event.fallback, Event.call models.JobError, Event.exit sm.CurrentState,
        Event.failed e2]) := by
  obtain ⟨h1, h2, h3, h4, h5⟩ := finish_failed stops fuel k sm w2 e ids xh hFE hx
  have hlog : R.log = [Event.call t, Event.exit sm.CurrentState, Event.enter t, Event.failed e]
      ++ (JobSM.resume stops fuel k "" (some e) (sm.stopAll ids) w2).log := by
    rw [hR, enterState_enter_fails_after_exit sm t w w1 w2 xh eh n e ht hx hX he hE]
    rfl
  have hsm : R.sm = (JobSM.resume stops fuel k "" (some e) (sm.stopAll ids) w2).sm := by
    rw [hR]
    rfl
  refine ⟨?_, ?_, ?_, ?_, ?_⟩
  · rw [hR]
    exact h1
  · rw [hR]
    exact h2
  · rw [hlog, exitedStates_append, h3]
    rfl
  · rw [hlog, calledStates_append, h4]
    rfl
  · intro e2 w3 hX2
    obtain ⟨h6, h7⟩ := h5 e2 w3 hX2
    have hfull : R.log = [Event.call t, Event.exit sm.CurrentState, Event.enter t,
        Event.failed e, Event.fallback, Event.call models.JobError,
        Event.exit sm.CurrentState, Event.failed e2] := by
      rw [hlog, h6]
      rfl
    refine ⟨?_, ?_, ?_, hfull⟩
    · rw [hfull]
      rfl
    · rw [hfull]
      simp
    · rw [hsm]
      exact h7

end fallbackRuns

/-! ## The properties -/

section claims

variable {W : Type}

/-- C1: for every engine and every target `s` that is neither a successor of `CurrentState` in
`Transitions` nor in `ForcedStates`, `EnterState(s)` returns an error together with the empty
next-state, leaves the whole engine (so `CurrentState`, `PreviousState`, `Transitions` and
`Handlers`) and the world unchanged, and invokes no `Exit()` and no `Enter()` of any
handler. -/
theorem C1_EnterState_refuses_unknown_target (sm : JobSM W) (s : String) (w : W)
    (hsucc : s ∉ sm.successors sm.CurrentState) (hforced : s ∉ sm.ForcedStates) :
    (sm.EnterState s w).err = some (Error.noTransition sm.JobID sm.CurrentState s) ∧
    (sm.EnterState s w).next = "" ∧
    (sm.EnterState s w).sm = sm ∧
    (sm.EnterState s w).w = w ∧
    (∀ x, Event.exit x ∉ (sm.EnterState s w).log ∧ Event.enter x ∉ (sm.EnterState s w).log) := by
  rw [enterState_refused sm s w hsucc hforced]
  simp

/-- Witness of C1: in the transfer graph, `EnterState(Check)` from Pending is refused. -/
theorem C1_witness :
    replication.StateCheck ∉
        (Model.transferSM false).successors (Model.transferSM false).CurrentState ∧
    replication.StateCheck ∉ (Model.transferSM false).ForcedStates ∧
    ((Model.transferSM false).EnterState replication.StateCheck Model.w0).sm
      = Model.transferSM false :=
  ⟨by decide, by decide,
    (C1_EnterState_refuses_unknown_target (Model.transferSM false) replication.StateCheck
      Model.w0 (by decide) (by decide)).2.2.1⟩

/-- C2: for every engine and every target `s` that is a successor of `CurrentState` in
`Transitions`, or one of Error, Stopped, Canceled on an engine whose `ForcedStates` are those
`Init` sets (whatever the table contains): if `Exit()` of the handler bound to the current
state and `Enter()` of the handler bound to `s` do not fail, `EnterState(s)` returns no error;
it invokes `Exit()` of the handler bound to the old current state first, if one is bound, then
`Enter()` of the handler bound to `s`, if one is bound, on the world `Exit()` left; afterwards
`PreviousState` is the old `CurrentState`, `CurrentState` is `s` and nothing else changed; the
next-state returned is the one `Enter()` produced, or the continuation sentinel when no
handler is bound to `s`. -/
theorem C2_EnterState_succeeds (sm : JobSM W) (s : String) (w : W)
    (hs : s ∈ sm.successors sm.CurrentState ∨
      (sm.ForcedStates = (JobSM.Init sm).ForcedStates ∧
        (s = models.JobError ∨ s = models.JobStopped ∨ s = models.JobCanceled)))
    (hexit : ∀ h, mapGet sm.Handlers sm.CurrentState = some h → (h.Exit w).1 = none)
    (henter : ∀ h, mapGet sm.Handlers s = some h → (h.Enter (sm.exitWorld w)).1.2 = none) :
    (sm.EnterState s w).err = none ∧
    (sm.EnterState s w).log = Event.call s :: (sm.handlerCalls s ++ [Event.entered s]) ∧
    (sm.EnterState s w).sm = { sm with PreviousState := sm.CurrentState, CurrentState := s } ∧
    (sm.EnterState s w).next =
      (match mapGet sm.Handlers s with
        | some h => (h.Enter (sm.exitWorld w)).1.1
        | none => models.JobContinue) ∧
    (sm.EnterState s w).w =
      (match mapGet sm.Handlers s with
        | some h => (h.Enter (sm.exitWorld w)).2
        | none => sm.exitWorld w) := by
  have hs2 : s ∈ sm.successors sm.CurrentState ∨ s ∈ sm.ForcedStates := by
    rcases hs with h | ⟨hF, h⟩
    · exact Or.inl h
    · exact Or.inr (forced_of_init sm s hF h)
  rw [enterState_allowed sm s w hs2 hexit henter]
  exact ⟨rfl, rfl, rfl, rfl, rfl⟩

/-- Witness of C2: the small engine in state a enters its successor b, to which a handler is
bound that returns the continuation sentinel. -/
theorem C2_witness :
    ("b" ∈ Model.tinySM.successors Model.tinySM.CurrentState ∨
      (Model.tinySM.ForcedStates = (JobSM.Init Model.tinySM).ForcedStates ∧
        ("b" = models.JobError ∨ "b" = models.JobStopped ∨ "b" = models.JobCanceled))) ∧
    (Model.tinySM.EnterState "b" Model.w0).err = none ∧
    (Model.tinySM.EnterState "b" Model.w0).log
      = [Event.call "b", Event.enter "b", Event.entered "b"] ∧
    (Model.tinySM.EnterState "b" Model.w0).sm.CurrentState = "b" ∧
    (Model.tinySM.EnterState "b" Model.w0).sm.PreviousState = "a" ∧
    (Model.tinySM.EnterState "b" Model.w0).next = models.JobContinue := by
  have h := C2_EnterState_succeeds Model.tinySM "b" Model.w0 (Or.inl (by decide))
    (fun h hh => by cases hh) (fun h hh => by cases hh; rfl)
  refine ⟨Or.inl (by decide), h.1, ?_, ?_, ?_, ?_⟩
  · exact h.2.1
  · rw [h.2.2.1]
  · rw [h.2.2.1]; rfl
  · exact h.2.2.2.1

/-- C3, amended: at the head of the loop of `Start`, when the transition into the current
state `c` succeeded (the loop variable `err` is nil), the handler of `c` returned the
continuation sentinel, no desired state is pending and `c` has exactly one successor `t` in
`Transitions`, and `t` is neither the empty string nor the continuation sentinel, then `Start`
chooses `t` and its next `EnterState` call has target `t`: the rest of the run is that call on
the unchanged engine, followed by the rest of the run after it. -/
theorem C3_sole_successor_is_chosen (stops : Nat → List Int) (fuel k : Nat) (sm : JobSM W)
    (w : W) (t : String) (hd : sm.desiredState = "")
    (hsucc : sm.successors sm.CurrentState = [t]) (ht : t ≠ "") (htc : t ≠ models.JobContinue) :
    JobSM.resume stops (fuel + 2) k models.JobContinue none sm w =
      Run.after (Event.cont t :: (sm.EnterState t w).log)
        (JobSM.resume stops fuel (k + 1) (sm.EnterState t w).next (sm.EnterState t w).err
          ((sm.EnterState t w).sm.stopAll (stops k)) (sm.EnterState t w).w) ∧
    ∃ rest, (JobSM.resume stops (fuel + 2) k models.JobContinue none sm w).log =
      Event.cont t :: Event.call t :: rest := by
  have h : JobSM.resume stops (fuel + 2) k models.JobContinue none sm w =
      Run.after (Event.cont t :: (sm.EnterState t w).log)
        (JobSM.resume stops fuel (k + 1) (sm.EnterState t w).next (sm.EnterState t w).err
          ((sm.EnterState t w).sm.stopAll (stops k)) (sm.EnterState t w).w) := by
    unfold JobSM.resume
    rw [loop_cont stops (fuel + 1) k sm w t hd hsucc, loop_call stops fuel k t sm w ht htc hd,
      finish_after, finish_after]
    simp [Run.after]
  refine ⟨h, ?_⟩
  obtain ⟨rest, hlog, _, _⟩ := enterState_log_head sm t w
  rw [h]
  refine ⟨rest ++ (JobSM.resume stops fuel (k + 1) (sm.EnterState t w).next
    (sm.EnterState t w).err ((sm.EnterState t w).sm.stopAll (stops k))
    (sm.EnterState t w).w).log, ?_⟩
  simp [Run.after, hlog]

/-- Witness of C3: in the transfer graph the sole successor of Running is Check. -/
theorem C3_witness :
    ({ Model.transferSM false with CurrentState := models.JobRunning }).successors
        models.JobRunning = [replication.StateCheck] ∧
    ∃ rest, (JobSM.resume noStops 2 1 models.JobContinue none
        { Model.transferSM false with CurrentState := models.JobRunning } Model.w0).log =
      Event.cont replication.StateCheck :: Event.call replication.StateCheck :: rest :=
  ⟨by decide,
    (C3_sole_successor_is_chosen noStops 0 1
      { Model.transferSM false with CurrentState := models.JobRunning } Model.w0
      replication.StateCheck rfl (by decide) (by decide) (by decide)).2⟩

/-- Counterexample to C3 as stated: state a has exactly one successor, the empty string; the
transition into a succeeds, the handler of a returns the continuation sentinel and no desired
state is pending; the run of `Start` ends there without an error and without a second
`EnterState` call.  And when the only successor of a is the continuation sentinel, the loop has
not ended after 50 iterations and has made no second `EnterState` call. -/
theorem C3_counterexample :
    (Model.emptySuccessorSM.EnterState "a" Model.w0).err = none ∧
    (Model.emptySuccessorSM.EnterState "a" Model.w0).next = models.JobContinue ∧
    (Model.emptySuccessorSM.EnterState "a" Model.w0).sm.successors "a" = [""] ∧
    (Model.emptySuccessorSM.EnterState "a" Model.w0).sm.desiredState = "" ∧
    (Model.emptySuccessorSM.Start "a" Model.w0 noStops 5).finished = true ∧
    (Model.emptySuccessorSM.Start "a" Model.w0 noStops 5).err = none ∧
    calledStates (Model.emptySuccessorSM.Start "a" Model.w0 noStops 5).log = ["a"] ∧
    (Model.emptySuccessorSM.Start "a" Model.w0 noStops 5).sm.CurrentState = "a" ∧
    (Model.sentinelSuccessorSM.EnterState "a" Model.w0).sm.successors "a"
      = [models.JobContinue] ∧
    (Model.sentinelSuccessorSM.Start "a" Model.w0 noStops 50).finished = false ∧
    calledStates (Model.sentinelSuccessorSM.Start "a" Model.w0 noStops 50).log = ["a"] := by
  decide

/-- C4, amended: at the head of the loop of `Start`, when the transition into the current
state `c` succeeded, the handler of `c` returned the continuation sentinel, no desired state
is pending and `c` has zero or at least two successors in `Transitions`, the run ends with
the error "unable to continue" after exactly one more `EnterState` call, whose target is
Error.  On an engine whose `ForcedStates` are those `Init` sets: if `Exit()` of the handler
bound to `c` and `Enter()` of the handler bound to Error do not fail, then on return
`CurrentState` is Error, `PreviousState` is `c` and Error is the only state entered after
`c`; if that call returns an error, the engine is left as it was, with `CurrentState` still
`c`, and no state is entered after `c`. -/
theorem C4_undecidable_continuation (stops : Nat → List Int) (fuel k : Nat) (sm : JobSM W)
    (w : W) (hd : sm.desiredState = "") (hsucc : (sm.successors sm.CurrentState).length ≠ 1)
    (hF : sm.ForcedStates = (JobSM.Init sm).ForcedStates) :
    (JobSM.resume stops (fuel + 1) k models.JobContinue none sm w).finished = true ∧
    (JobSM.resume stops (fuel + 1) k models.JobContinue none sm w).err
      = some Error.unableToContinue ∧
    calledStates (JobSM.resume stops (fuel + 1) k models.JobContinue none sm w).log
      = [models.JobError] ∧
    ((∀ h, mapGet sm.Handlers sm.CurrentState = some h → (h.Exit w).1 = none) →
      (∀ h, mapGet sm.Handlers models.JobError = some h →
        (h.Enter (sm.exitWorld w)).1.2 = none) →
      (JobSM.resume stops (fuel + 1) k models.JobContinue none sm w).sm.CurrentState
        = models.JobError ∧
      (JobSM.resume stops (fuel + 1) k models.JobContinue none sm w).sm.PreviousState
        = sm.CurrentState ∧
      enteredStates (JobSM.resume stops (fuel + 1) k models.JobContinue none sm w).log
        = [models.JobError]) ∧
    ((sm.EnterState models.JobError w).err ≠ none →
      (JobSM.resume stops (fuel + 1) k models.JobContinue none sm w).sm = sm ∧
      enteredStates (JobSM.resume stops (fuel + 1) k models.JobContinue none sm w).log = []) := by
  have h : JobSM.resume stops (fuel + 1) k models.JobContinue none sm w =
      { err := some Error.unableToContinue, sm := (sm.EnterState models.JobError w).sm,
        w := (sm.EnterState models.JobError w).w,
        log := Event.undecidable :: Event.fallback :: (sm.EnterState models.JobError w).log,
        finished := true } := by
    unfold JobSM.resume
    rw [loop_undecidable stops fuel k sm w hd hsucc]
    simp [JobSM.finish]
  obtain ⟨rest, hlog, hcalled, _⟩ := enterState_log_head sm models.JobError w
  rw [h]
  refine ⟨rfl, rfl, ?_, ?_, ?_⟩
  · simp [hlog, calledStates, hcalled]
  · intro hexit henter
    have hE := enterState_allowed sm models.JobError w
      (Or.inr (forced_of_init sm _ hF (Or.inl rfl))) hexit henter
    rcases enterState_outcome sm models.JobError w with ⟨_, h2, h3⟩ | ⟨h1, _⟩
    · simp [h2, h3, enteredStates]
    · rw [hE] at h1
      exact absurd rfl h1
  · intro herr
    rcases enterState_outcome sm models.JobError w with ⟨h1, _⟩ | ⟨_, _, h2, h3⟩
    · exact absurd h1 herr
    · simp [h2, h3, enteredStates]

/-- Witness of C4: Finished has no successor in the transfer graph; were the continuation
sentinel proposed there, the run would end in Error. -/
theorem C4_witness :
    ({ Model.transferSM false with CurrentState := models.JobFinished }).desiredState = "" ∧
    (({ Model.transferSM false with CurrentState := models.JobFinished }).successors
        models.JobFinished).length ≠ 1 ∧
    (JobSM.resume noStops 1 1 models.JobContinue none
        { Model.transferSM false with CurrentState := models.JobFinished } Model.w0).finished
      = true ∧
    calledStates (JobSM.resume noStops 1 1 models.JobContinue none
        { Model.transferSM false with CurrentState := models.JobFinished } Model.w0).log
      = [models.JobError] ∧
    (JobSM.resume noStops 1 1 models.JobContinue none
        { Model.transferSM false with CurrentState := models.JobFinished }
        Model.w0).sm.CurrentState = models.JobError :=
  have h := C4_undecidable_continuation noStops 0 1
    { Model.transferSM false with CurrentState := models.JobFinished } Model.w0 rfl
    (by decide) rfl
  ⟨rfl, by decide, h.1, h.2.2.1,
    (h.2.2.2.1 (fun _ hh => by cases hh; rfl) (fun _ hh => by cases hh; rfl)).1⟩

/-- Counterexample to C4 as stated: state a has no successor and its handler returns the
continuation sentinel, with no desired state pending; the status handler bound to Error fails,
and when `Start` returns `CurrentState` is a, not Error. -/
theorem C4_counterexample :
    (Model.deadEndSM.EnterState "a" Model.w0).err = none ∧
    (Model.deadEndSM.EnterState "a" Model.w0).next = models.JobContinue ∧
    (Model.deadEndSM.EnterState "a" Model.w0).sm.successors "a" = [] ∧
    (Model.deadEndSM.EnterState "a" Model.w0).sm.desiredState = "" ∧
    (Model.deadEndSM.Start "a" Model.w0 noStops 5).finished = true ∧
    calledStates (Model.deadEndSM.Start "a" Model.w0 noStops 5).log
      = ["a", models.JobError] ∧
    enteredStates (Model.deadEndSM.Start "a" Model.w0 noStops 5).log = ["a"] ∧
    (Model.deadEndSM.Start "a" Model.w0 noStops 5).sm.CurrentState = "a" ∧
    (Model.deadEndSM.Start "a" Model.w0 noStops 5).sm.CurrentState ≠ models.JobError := by
  decide

/-- C5, amended: in every run of `Start`, at the first failure (an `EnterState` call that
returns an error, or an undecidable continuation) the loop is left, and what follows is the
fallback: exactly one further `EnterState` call, with target Error, on whose outcome nothing
depends, after which `Start` returns with the engine and world that call left; and a run
without a failure has a nil error and contains no fallback.  In the graph `Reset` builds for a
transfer job with an enabled policy, on an engine initialised by `Init`, when the current
state is PullManifest, no desired state is pending and the handler proposed a non-empty
next-state that is neither a successor of PullManifest nor forced, the run ends with
`CurrentState` = Error and Error the only state entered, given that `Exit()` of the
ManifestPuller and `Enter()` of the Error status handler succeed. -/
theorem C5_error_fallback :
    (∀ (W : Type) (sm : JobSM W) (s : String) (w : W) (stops : Nat → List Int) (fuel : Nat),
      (∀ pre e post, (sm.Start s w stops fuel).log = pre ++ e :: post →
        e.isFailure = true → (∀ x ∈ pre, x.isFailure = false) →
        (sm.Start s w stops fuel).finished = true ∧ calledStates post = [models.JobError] ∧
        ∃ sm1 w1, post = Event.fallback :: (JobSM.EnterState sm1 models.JobError w1).log ∧
          (sm.Start s w stops fuel).sm = (JobSM.EnterState sm1 models.JobError w1).sm ∧
          (sm.Start s w stops fuel).w = (JobSM.EnterState sm1 models.JobError w1).w) ∧
      ((∀ x ∈ (sm.Start s w stops fuel).log, x.isFailure = false) →
        (sm.Start s w stops fuel).err = none ∧
          Event.fallback ∉ (sm.Start s w stops fuel).log)) ∧
    (∀ (W B : Type) (c : Collab W B) (sm0 sm : JobSM W) (jid : Int) (p : RepJobParm)
      (prev x : String) (w : W) (stops : Nat → List Int) (fuel k : Nat),
      JobSM.Reset c sm0 jid = (none, sm) → sm.Parms = some p →
      p.Operation = models.RepOpTransfer → p.Enabled ≠ 0 →
      sm0.ForcedStates = (JobSM.Init sm0).ForcedStates →
      (∀ b w1, ((c.ManifestPuller b).Exit w1).1 = none) →
      (∀ w1, ((c.StatusUpdater jid models.JobError).Enter w1).1.2 = none) →
      x ≠ "" → x ∉ sm.successors replication.StatePullManifest → x ∉ sm.ForcedStates →
      (JobSM.resume stops (fuel + 1) k x none
        { sm with CurrentState := replication.StatePullManifest, PreviousState := prev }
        w).finished = true ∧
      (JobSM.resume stops (fuel + 1) k x none
        { sm with CurrentState := replication.StatePullManifest, PreviousState := prev }
        w).sm.CurrentState = models.JobError ∧
      enteredStates (JobSM.resume stops (fuel + 1) k x none
        { sm with CurrentState := replication.StatePullManifest, PreviousState := prev }
        w).log = [models.JobError]) := by
  constructor
  · intro W sm s w stops fuel
    constructor
    · intro pre e post hlog he hpre
      rcases Start_shape sm s w stops fuel with ⟨_, h2⟩ | ⟨h1, p, f, sm1, w1, h2, h3, h4, h5, h6⟩
      · have hmem : e ∈ (sm.Start s w stops fuel).log := by rw [hlog]; simp
        have := quiet_not_failure e (h2 e hmem)
        rw [he] at this
        cases this
      · rw [h2] at hlog
        obtain ⟨_, _, hpost⟩ := first_failure_unique p pre f e _ post hlog h3 he
          (fun x hx => quiet_not_failure x (h4 x hx)) hpre
        obtain ⟨rest, hl, hc, _⟩ := enterState_log_head sm1 models.JobError w1
        refine ⟨h1, ?_, sm1, w1, hpost.symm, h5, h6⟩
        rw [← hpost, hl]
        simp [calledStates, hc]
    · intro hall
      rcases Start_shape sm s w stops fuel with ⟨h1, h2⟩ | ⟨_, p, f, sm1, w1, h2, h3, _⟩
      · exact ⟨h1, fun hmem => quiet_not_fallback _ (h2 _ hmem) rfl⟩
      · have hmem : f ∈ (sm.Start s w stops fuel).log := by rw [h2]; simp
        have := hall f hmem
        rw [h3] at this
        cases this
  · intro W B c sm0 sm jid p prev x w stops fuel k hres hp hop hen hF hexit herr hx0 hx1 hx2
    obtain ⟨b, hsm⟩ := Reset_transfer c sm0 sm jid p hres hp hop hen
    subst hsm
    have hsucc := (transferTable_successors
      ({ JobID := jid, CurrentState := replication.StatePullManifest, PreviousState := prev,
         ForcedStates := sm0.ForcedStates, Transitions := transferTable,
         Handlers := transferHandlers c b jid, desiredState := "", Parms := some p } : JobSM W)
      rfl).2.2.2.1
    have hget := transferHandlers_get c b jid
    -- the fallback call succeeds on the engine whatever its desired state is
    have hfall : ∀ d : String,
        ((JobSM.EnterState
          ({ JobID := jid, CurrentState := replication.StatePullManifest, PreviousState := prev,
             ForcedStates := sm0.ForcedStates, Transitions := transferTable,
             Handlers := transferHandlers c b jid, desiredState := d, Parms := some p } : JobSM W)
          models.JobError w).sm.CurrentState = models.JobError) ∧
        enteredStates (JobSM.EnterState
          ({ JobID := jid, CurrentState := replication.StatePullManifest, PreviousState := prev,
             ForcedStates := sm0.ForcedStates, Transitions := transferTable,
             Handlers := transferHandlers c b jid, desiredState := d, Parms := some p } : JobSM W)
          models.JobError w).log = [models.JobError] := by
      intro d
      have hE := enterState_allowed
        ({ JobID := jid, CurrentState := replication.StatePullManifest, PreviousState := prev,
           ForcedStates := sm0.ForcedStates, Transitions := transferTable,
           Handlers := transferHandlers c b jid, desiredState := d, Parms := some p } : JobSM W)
        models.JobError w
        (Or.inr (by rw [hF]; simp [JobSM.Init]))
        (by
          intro h hh
          simp only [hget.2.2.2.2.2.2.1, Option.some.injEq] at hh
          subst hh
          exact hexit b w)
        (by
          intro h hh
          simp only [hget.2.2.1, Option.some.injEq] at hh
          subst hh
          exact herr _)
      rcases enterState_outcome
        ({ JobID := jid, CurrentState := replication.StatePullManifest, PreviousState := prev,
           ForcedStates := sm0.ForcedStates, Transitions := transferTable,
           Handlers := transferHandlers c b jid, desiredState := d, Parms := some p } : JobSM W)
        models.JobError w with ⟨_, h2, h3⟩ | ⟨h1, _⟩
      · exact ⟨by rw [h2], h3⟩
      · rw [hE] at h1
        exact absurd rfl h1
    obtain ⟨d, e, pre, hpre, hrun⟩ := resume_unrecognized
      ({ JobID := jid, CurrentState := replication.StatePullManifest, PreviousState := prev,
         ForcedStates := sm0.ForcedStates, Transitions := transferTable,
         Handlers := transferHandlers c b jid, desiredState := "", Parms := some p } : JobSM W)
      x w stops fuel k hx0 rfl hx1 hx2 (by rw [hsucc]; decide)
    rw [hrun]
    refine ⟨rfl, (hfall d).1, ?_⟩
    rw [enteredStates_append, hpre]
    exact (hfall d).2

/-- Witness of C5: in the transfer graph of the scenario, the next-state bogus proposed at
PullManifest ends the run in Error. -/
theorem C5_witness :
    JobSM.Reset (Model.collab models.RepOpTransfer ["t1", "t2"] 1 false) Model.fresh 1
      = (none, Model.transferSM false) ∧
    "bogus" ∉ (Model.transferSM false).successors replication.StatePullManifest ∧
    "bogus" ∉ (Model.transferSM false).ForcedStates ∧
    (JobSM.resume noStops 1 3 "bogus" none
      { Model.transferSM false with
        CurrentState := replication.StatePullManifest, PreviousState := replication.StateCheck }
      Model.w0).sm.CurrentState = models.JobError :=
  ⟨rfl, by decide, by decide,
    (C5_error_fallback.2 Model.World Unit (Model.collab models.RepOpTransfer ["t1", "t2"] 1 false)
      Model.fresh (Model.transferSM false) 1 Model.parms replication.StateCheck "bogus" Model.w0
      noStops 0 3 rfl rfl rfl (by decide) rfl (fun _ _ => rfl) (fun _ => rfl)
      (by decide) (by decide) (by decide)).2.1⟩

/-- Counterexample to C5 as stated: in the transfer graph the ManifestPuller returns the empty
next-state, which is neither a successor of PullManifest nor forced; every handler succeeds;
the run of `Start` ends without entering Error, with `CurrentState` = PullManifest.  And when
the ManifestPuller returns bogus, neither a successor nor forced, while `Stop(1)` is called
during the `EnterState` call that runs it, the run ends with `CurrentState` = Stopped,
without entering Error. -/
theorem C5_counterexample :
    JobSM.Reset (Model.collabPull "") Model.fresh 1 = (none, Model.pullSM "") ∧
    "" ∉ (Model.pullSM "").successors replication.StatePullManifest ∧
    "" ∉ (Model.pullSM "").ForcedStates ∧
    ((Model.pullSM "").Start models.JobRunning Model.w0 noStops 20).finished = true ∧
    enteredStates ((Model.pullSM "").Start models.JobRunning Model.w0 noStops 20).log
      = [models.JobRunning, replication.StateCheck, replication.StatePullManifest] ∧
    ((Model.pullSM "").Start models.JobRunning Model.w0 noStops 20).sm.CurrentState
      = replication.StatePullManifest ∧
    ((Model.pullSM "").Start models.JobRunning Model.w0 noStops 20).sm.CurrentState
      ≠ models.JobError ∧
    "bogus" ∉ (Model.pullSM "bogus").successors replication.StatePullManifest ∧
    "bogus" ∉ (Model.pullSM "bogus").ForcedStates ∧
    ((Model.pullSM "bogus").Start models.JobRunning Model.w0 (stopDuring 2 1) 20).finished
      = true ∧
    enteredStates
        ((Model.pullSM "bogus").Start models.JobRunning Model.w0 (stopDuring 2 1) 20).log
      = [models.JobRunning, replication.StateCheck, replication.StatePullManifest,
          models.JobStopped] ∧
    ((Model.pullSM "bogus").Start models.JobRunning Model.w0 (stopDuring 2 1)
      20).sm.CurrentState = models.JobStopped :=
  ⟨rfl, by decide, by decide, by decide, by decide, by decide, by decide, by decide, by decide,
    by decide, by decide, by decide⟩

/-- C6, amended: when `Stop(id)` is applied while the engine is bound to job `id`, at the
head of the loop of `Start` after the handler of the current state has run without error,
then for every non-empty next-state `n` that handler proposed, `Start` replaces `n` by
Stopped, empties the desired-state slot, and its next `EnterState` call has target Stopped and
is made on the engine with the empty slot; the run goes on from the outcome of that call.
On an engine whose `ForcedStates` are those `Init` sets, Stopped is the next state entered
provided `Exit()` of the handler bound to the current state and `Enter()` of the handler bound
to Stopped do not fail. -/
theorem C6_stop_overrides_next_state (stops : Nat → List Int) (fuel k : Nat) (n : String)
    (sm : JobSM W) (w : W) (id : Int) (hid : id = sm.JobID) (hn : n ≠ "") :
    (sm.Stop id).desiredState = models.JobStopped ∧
    JobSM.resume stops (fuel + 2) k n none (sm.Stop id) w =
      Run.after
        (Event.override models.JobStopped ::
          ((sm.setDesiredState "").EnterState models.JobStopped w).log)
        (JobSM.resume stops fuel (k + 1)
          ((sm.setDesiredState "").EnterState models.JobStopped w).next
          ((sm.setDesiredState "").EnterState models.JobStopped w).err
          (((sm.setDesiredState "").EnterState models.JobStopped w).sm.stopAll (stops k))
          ((sm.setDesiredState "").EnterState models.JobStopped w).w) ∧
    ((sm.setDesiredState "").EnterState models.JobStopped w).sm.desiredState = "" ∧
    (∃ rest, (JobSM.resume stops (fuel + 2) k n none (sm.Stop id) w).log =
      Event.override models.JobStopped :: Event.call models.JobStopped :: rest) ∧
    (sm.ForcedStates = (JobSM.Init sm).ForcedStates →
      (∀ h, mapGet sm.Handlers sm.CurrentState = some h → (h.Exit w).1 = none) →
      (∀ h, mapGet sm.Handlers models.JobStopped = some h →
        (h.Enter (sm.exitWorld w)).1.2 = none) →
      ∃ rest, enteredStates (JobSM.resume stops (fuel + 2) k n none (sm.Stop id) w).log =
        models.JobStopped :: rest) := by
  subst hid
  have hrun : JobSM.resume stops (fuel + 2) k n none (sm.Stop sm.JobID) w =
      Run.after
        (Event.override models.JobStopped ::
          ((sm.setDesiredState "").EnterState models.JobStopped w).log)
        (JobSM.resume stops fuel (k + 1)
          ((sm.setDesiredState "").EnterState models.JobStopped w).next
          ((sm.setDesiredState "").EnterState models.JobStopped w).err
          (((sm.setDesiredState "").EnterState models.JobStopped w).sm.stopAll (stops k))
          ((sm.setDesiredState "").EnterState models.JobStopped w).w) := by
    unfold JobSM.resume
    have hs : models.JobStopped ≠ "" := by decide
    rw [Stop_bound, loop_override stops (fuel + 1) k n _ w hn hs]
    have hset : JobSM.setDesiredState
        ({ sm with desiredState := models.JobStopped } : JobSM W) "" = sm.setDesiredState "" := rfl
    rw [hset, loop_call stops fuel k models.JobStopped (sm.setDesiredState "") w
      (by decide) (by decide) rfl, finish_after, finish_after]
    simp [Run.after]
  refine ⟨by rw [Stop_bound], hrun, (enterState_JobID _ _ _).2, ?_, ?_⟩
  · obtain ⟨rest, hlog, _, _⟩ :=
      enterState_log_head (sm.setDesiredState "") models.JobStopped w
    rw [hrun]
    refine ⟨rest ++ (JobSM.resume stops fuel (k + 1)
            ((sm.setDesiredState "").EnterState models.JobStopped w).next
            ((sm.setDesiredState "").EnterState models.JobStopped w).err
            (((sm.setDesiredState "").EnterState models.JobStopped w).sm.stopAll (stops k))
            ((sm.setDesiredState "").EnterState models.JobStopped w).w).log, ?_⟩
    simp [Run.after, hlog]
  · intro hF hexit henter
    have hE := enterState_allowed (sm.setDesiredState "") models.JobStopped w
      (Or.inr (forced_of_init sm _ hF (Or.inr (Or.inl rfl)))) hexit henter
    have hent : enteredStates ((sm.setDesiredState "").EnterState models.JobStopped w).log
        = [models.JobStopped] := by
      rcases enterState_outcome (sm.setDesiredState "") models.JobStopped w with
        ⟨_, _, h3⟩ | ⟨h1, _⟩
      · exact h3
      · rw [hE] at h1
        exact absurd rfl h1
    rw [hrun]
    refine ⟨enteredStates (JobSM.resume stops fuel (k + 1)
            ((sm.setDesiredState "").EnterState models.JobStopped w).next
            ((sm.setDesiredState "").EnterState models.JobStopped w).err
            (((sm.setDesiredState "").EnterState models.JobStopped w).sm.stopAll (stops k))
            ((sm.setDesiredState "").EnterState models.JobStopped w).w).log, ?_⟩
    have hcons : ∀ l1 l2 : List Event,
        enteredStates (Event.override models.JobStopped :: l1 ++ l2)
          = enteredStates l1 ++ enteredStates l2 := by
      intro l1 l2
      exact enteredStates_append l1 l2
    simp only [Run.after]
    rw [hcons, hent]
    rfl

/-- Witness of C6: in the transfer graph, `Stop(1)` after the BlobTransfer handler proposed
PushManifest makes Stopped the target of the next `EnterState` call and the next state
entered. -/
theorem C6_witness :
    (1 : Int) = ({ Model.transferSM false with
      CurrentState := replication.StateTransferBlob } : JobSM Model.World).JobID ∧
    replication.StatePushManifest ≠ "" ∧
    (∃ rest, (JobSM.resume noStops 2 4 replication.StatePushManifest none
      (JobSM.Stop { Model.transferSM false with CurrentState := replication.StateTransferBlob }
        1) Model.w0).log =
      Event.override models.JobStopped :: Event.call models.JobStopped :: rest) ∧
    ∃ rest, enteredStates (JobSM.resume noStops 2 4 replication.StatePushManifest none
      (JobSM.Stop { Model.transferSM false with CurrentState := replication.StateTransferBlob }
        1) Model.w0).log = models.JobStopped :: rest :=
  have h := C6_stop_overrides_next_state noStops 0 4 replication.StatePushManifest
    { Model.transferSM false with CurrentState := replication.StateTransferBlob } Model.w0 1
    rfl (by decide)
  ⟨rfl, by decide, h.2.2.2.1,
    h.2.2.2.2 rfl (fun _ hh => by cases hh; rfl) (fun _ hh => by cases hh; rfl)⟩

/-- Counterexample to C6 as stated: in the transfer job with tags t1, t2, `Stop(1)` is
applied while the engine is bound to job 1, during the last `EnterState` call of the run, that
is after the handler of Finished has run; that handler proposed the empty next-state, so the
loop ends: Stopped is never the target of an `EnterState` call and the desired-state slot
still holds Stopped when `Start` returns.  And on an engine bound to job 1 in state a, whose
handler proposed b and whose `Exit()` fails, after `Stop(1)` the next `EnterState` call has
target Stopped but fails, as does the fallback to Error: no state is entered and
`CurrentState` stays a. -/
theorem C6_counterexample :
    (Model.transferSM false).JobID = 1 ∧
    ((Model.transferSM false).Start models.JobRunning Model.w0
      (stopDuring 9 1) 30).finished = true ∧
    calledStates ((Model.transferSM false).Start models.JobRunning Model.w0
      (stopDuring 9 1) 30).log =
      [models.JobRunning, replication.StateCheck,
       replication.StatePullManifest, replication.StateTransferBlob,
       replication.StatePushManifest,
       replication.StatePullManifest, replication.StateTransferBlob,
       replication.StatePushManifest,
       replication.StatePullManifest, models.JobFinished] ∧
    ((Model.transferSM false).Start models.JobRunning Model.w0
      (stopDuring 9 1) 30).sm.CurrentState = models.JobFinished ∧
    ((Model.transferSM false).Start models.JobRunning Model.w0
      (stopDuring 9 1) 30).sm.desiredState = models.JobStopped ∧
    Model.failingExitSM.JobID = 1 ∧
    (JobSM.resume noStops 5 1 "b" none (Model.failingExitSM.Stop 1) Model.w0).finished
      = true ∧
    calledStates (JobSM.resume noStops 5 1 "b" none (Model.failingExitSM.Stop 1) Model.w0).log
      = [models.JobStopped, models.JobError] ∧
    enteredStates (JobSM.resume noStops 5 1 "b" none (Model.failingExitSM.Stop 1) Model.w0).log
      = [] ∧
    (JobSM.resume noStops 5 1 "b" none (Model.failingExitSM.Stop 1) Model.w0).sm.CurrentState
      = "a" := by
  decide

/-- C7: for every engine and every id different from the bound `JobID`, `Stop(id)` leaves the
engine unchanged in every field, so a run of `Start` after the call is the run without it, and
a run of `Start` during which such calls are made is the run without them; and `Stop(JobID)`
sets the desired state to Stopped and changes nothing else. -/
theorem C7_stop_frame (sm : JobSM W) :
    (∀ id, id ≠ sm.JobID → sm.Stop id = sm) ∧
    (∀ id s w stops fuel, id ≠ sm.JobID →
      (sm.Stop id).Start s w stops fuel = sm.Start s w stops fuel) ∧
    (∀ s w stops fuel, (∀ i id, id ∈ stops i → id ≠ sm.JobID) →
      sm.Start s w stops fuel = sm.Start s w (fun _ => []) fuel) ∧
    sm.Stop sm.JobID = { sm with desiredState := models.JobStopped } := by
  refine ⟨fun id h => Stop_stale sm id h, ?_, ?_, Stop_bound sm⟩
  · intro id s w stops fuel h
    rw [Stop_stale sm id h]
  · intro s w stops fuel h
    exact Start_stale_stops sm s w stops fuel h

/-- Witness of C7: the transfer engine is bound to job 1; `Stop(2)` leaves it unchanged, and a
`Stop(2)` made during the TransferBlob step does not change the run. -/
theorem C7_witness :
    (2 : Int) ≠ (Model.transferSM false).JobID ∧
    (Model.transferSM false).Stop 2 = Model.transferSM false ∧
    (Model.transferSM false).Start models.JobRunning Model.w0 (stopDuring 3 2) 30 =
      (Model.transferSM false).Start models.JobRunning Model.w0 (fun _ => []) 30 :=
  ⟨by decide, (C7_stop_frame (Model.transferSM false)).1 2 (by decide),
    (C7_stop_frame (Model.transferSM false)).2.2.1 models.JobRunning Model.w0
      (stopDuring 3 2) 30
      (by
        intro i id h
        unfold stopDuring at h
        split at h
        · simp only [List.mem_singleton] at h
          subst h
          decide
        · cases h)⟩

/-- C8: for every engine, all collaborators and all job ids `old` and `new`, `Reset(new)`
after `Stop(old)` leaves the engine bound to `new` with an empty desired-state slot, whether
`Reset` succeeds or fails; it is the very outcome of `Reset(new)` without the stop request, so
the run of `Start` that follows is the same as without the request; and a `Stop(old)` issued
after `Reset(new)`, with `old` different from `new`, leaves the slot empty. -/
theorem C8_stop_does_not_carry_over {B : Type} (c : Collab W B) (sm : JobSM W)
    (old new : Int) :
    (JobSM.Reset c (sm.Stop old) new).2.JobID = new ∧
    (JobSM.Reset c (sm.Stop old) new).2.desiredState = "" ∧
    JobSM.Reset c (sm.Stop old) new = JobSM.Reset c sm new ∧
    (∀ s w stops fuel,
      (JobSM.Reset c (sm.Stop old) new).2.Start s w stops fuel =
        (JobSM.Reset c sm new).2.Start s w stops fuel) ∧
    (old ≠ new → ((JobSM.Reset c sm new).2.Stop old).desiredState = "") := by
  have hb := Reset_binding c (sm.Stop old) new
  refine ⟨hb.1, hb.2, Reset_after_Stop c sm old new, ?_, ?_⟩
  · intro s w stops fuel
    rw [Reset_after_Stop]
  · intro h
    have hb2 := Reset_binding c sm new
    rw [Stop_stale _ old (by rw [hb2.1]; exact h)]
    exact hb2.2

/-- Witness of C8: a stop request for job 1 does not reach job 2, for which `Reset` fails
because the data layer holds no job 2. -/
theorem C8_witness :
    (1 : Int) ≠ 2 ∧
    (JobSM.Reset (Model.collab models.RepOpTransfer ["t1", "t2"] 1 false)
      ((Model.transferSM false).Stop 1) 2).1 = some (Error.jobNotExist 2) ∧
    (JobSM.Reset (Model.collab models.RepOpTransfer ["t1", "t2"] 1 false)
      ((Model.transferSM false).Stop 1) 2).2.desiredState = "" ∧
    ((JobSM.Reset (Model.collab models.RepOpTransfer ["t1", "t2"] 1 false)
      (Model.transferSM false) 2).2.Stop 1).desiredState = "" :=
  ⟨by decide, by decide,
    (C8_stop_does_not_carry_over (Model.collab models.RepOpTransfer ["t1", "t2"] 1 false)
      (Model.transferSM false) 1 2).2.1,
    (C8_stop_does_not_carry_over (Model.collab models.RepOpTransfer ["t1", "t2"] 1 false)
      (Model.transferSM false) 1 2).2.2.2.2 (by decide)⟩

/-- C9: take the engine `sm` a successful `Reset` leaves for a transfer job with an enabled
policy, and handlers that obey their contract (`TransferContract`), in a world `w` in which
the tags still to process are the tag list of the job, with no stop request.  Then
`CurrentState` is Pending, and for every tag list, of length n, the run `Start(Running)`
ends (with any bound of at least 6n + 6 loop iterations) without error and enters exactly
Running, Check, then n times (PullManifest, TransferBlob, PushManifest), then PullManifest,
Finished, in this order; `CurrentState` is then Finished and Error is never entered. -/
theorem C9_transfer_traversal {B : Type} (c : Collab W B) (tagsOf : W → List String)
    (hc : TransferContract c tagsOf) (sm0 sm : JobSM W) (jid : Int) (p : RepJobParm) (w : W)
    (fuel : Nat) (hres : JobSM.Reset c sm0 jid = (none, sm)) (hp : sm.Parms = some p)
    (hop : p.Operation = models.RepOpTransfer) (hen : p.Enabled ≠ 0)
    (htags : tagsOf w = p.Tags) (hfuel : 6 * p.Tags.length + 6 ≤ fuel) :
    sm.CurrentState = models.JobPending ∧
    (sm.Start models.JobRunning w noStops fuel).finished = true ∧
    (sm.Start models.JobRunning w noStops fuel).err = none ∧
    enteredStates (sm.Start models.JobRunning w noStops fuel).log =
      models.JobRunning :: replication.StateCheck ::
        (transferCycles p.Tags.length ++
          [replication.StatePullManifest, models.JobFinished]) ∧
    (sm.Start models.JobRunning w noStops fuel).sm.CurrentState = models.JobFinished ∧
    models.JobError ∉ enteredStates (sm.Start models.JobRunning w noStops fuel).log := by
  obtain ⟨b, hsm⟩ := Reset_transfer c sm0 sm jid p hres hp hop hen
  subst hsm
  have h := transfer_run c tagsOf hc b jid p sm0.ForcedStates sm0.PreviousState w fuel
    (by rw [htags]; exact hfuel)
  rw [htags] at h
  obtain ⟨h1, h2, h3, h4⟩ := h
  refine ⟨rfl, h1, h2, h3, h4, ?_⟩
  have h5 := error_not_in_traversal p.Tags.length
  rw [← h3] at h5
  exact h5

/-- Witness of C9: the transfer job with tags t1, t2 goes Pending, Running, Check,
PullManifest, TransferBlob, PushManifest, PullManifest, TransferBlob, PushManifest,
PullManifest, Finished. -/
theorem C9_witness :
    TransferContract (Model.collab models.RepOpTransfer ["t1", "t2"] 1 false)
      Model.World.tags ∧
    JobSM.Reset (Model.collab models.RepOpTransfer ["t1", "t2"] 1 false) Model.fresh 1
      = (none, Model.transferSM false) ∧
    (Model.transferSM false).Parms = some Model.parms ∧
    Model.w0.tags = ["t1", "t2"] ∧
    (Model.transferSM false).CurrentState = models.JobPending ∧
    enteredStates ((Model.transferSM false).Start models.JobRunning Model.w0 noStops 18).log =
      [models.JobRunning, replication.StateCheck,
       replication.StatePullManifest, replication.StateTransferBlob,
       replication.StatePushManifest,
       replication.StatePullManifest, replication.StateTransferBlob,
       replication.StatePushManifest,
       replication.StatePullManifest, models.JobFinished] ∧
    ((Model.transferSM false).Start models.JobRunning Model.w0 noStops 18).sm.CurrentState
      = models.JobFinished :=
  have h := C9_transfer_traversal (Model.collab models.RepOpTransfer ["t1", "t2"] 1 false)
    Model.World.tags (Model.contract models.RepOpTransfer ["t1", "t2"] 1 false) Model.fresh
    (Model.transferSM false) 1 Model.parms Model.w0 18 rfl rfl rfl (by decide) rfl (by decide)
  ⟨Model.contract models.RepOpTransfer ["t1", "t2"] 1 false, rfl, rfl, rfl, h.1, h.2.2.2.1,
    h.2.2.2.2.1⟩

/-- C10: in the transfer job with tags t1, t2, on an engine initialised by `Init` (`Reset`
locks the mutex only `Init` creates) and then left by a successful `Reset`, with handlers that
obey their contract (the Stopped status handler returns the empty next-state), when `Stop` is
called for the bound job while the `EnterState` call that runs the TransferBlob handler of
the first round executes (the call number 3 of the run, after those for Running, Check and
PullManifest), the run `Start(Running)` ends (with any bound of at least 9 loop iterations)
without error, having entered exactly Running, Check, PullManifest, TransferBlob, Stopped;
`CurrentState` is then Stopped; PushManifest and Error are never entered. -/
theorem C10_stop_during_transfer {B : Type} (c : Collab W B) (tagsOf : W → List String)
    (hc : TransferContract c tagsOf) (sm0 sm : JobSM W) (jid : Int) (p : RepJobParm) (w : W)
    (fuel : Nat) (hF : sm0.ForcedStates = (JobSM.Init sm0).ForcedStates)
    (hres : JobSM.Reset c sm0 jid = (none, sm)) (hp : sm.Parms = some p)
    (hop : p.Operation = models.RepOpTransfer) (hen : p.Enabled ≠ 0)
    (hjob : p.Tags = ["t1", "t2"]) (htags : tagsOf w = p.Tags) (hfuel : 9 ≤ fuel) :
    sm.JobID = jid ∧
    (sm.Start models.JobRunning w (stopDuring 3 jid) fuel).finished = true ∧
    (sm.Start models.JobRunning w (stopDuring 3 jid) fuel).err = none ∧
    enteredStates (sm.Start models.JobRunning w (stopDuring 3 jid) fuel).log =
      [models.JobRunning, replication.StateCheck, replication.StatePullManifest,
        replication.StateTransferBlob, models.JobStopped] ∧
    (sm.Start models.JobRunning w (stopDuring 3 jid) fuel).sm.CurrentState
      = models.JobStopped ∧
    replication.StatePushManifest ∉
      enteredStates (sm.Start models.JobRunning w (stopDuring 3 jid) fuel).log ∧
    models.JobError ∉
      enteredStates (sm.Start models.JobRunning w (stopDuring 3 jid) fuel).log := by
  obtain ⟨b, hsm⟩ := Reset_transfer c sm0 sm jid p hres hp hop hen
  subst hsm
  obtain ⟨h1, h2, h3, h4⟩ := transfer_stop_run c tagsOf hc b jid p sm0.ForcedStates
    sm0.PreviousState w fuel "t1" ["t2"] (forced_of_init sm0 _ hF (Or.inr (Or.inl rfl)))
    (by rw [htags, hjob]) hfuel
  refine ⟨rfl, h1, h2, h3, h4, ?_, ?_⟩
  · have h5 : replication.StatePushManifest ∉
        [models.JobRunning, replication.StateCheck, replication.StatePullManifest,
          replication.StateTransferBlob, models.JobStopped] := by decide
    rw [← h3] at h5
    exact h5
  · have h5 : models.JobError ∉
        [models.JobRunning, replication.StateCheck, replication.StatePullManifest,
          replication.StateTransferBlob, models.JobStopped] := by decide
    rw [← h3] at h5
    exact h5

/-- Witness of C10: the scenario with the handlers returning the continuation sentinel. -/
theorem C10_witness :
    TransferContract (Model.collab models.RepOpTransfer ["t1", "t2"] 1 false)
      Model.World.tags ∧
    Model.fresh.ForcedStates = (JobSM.Init Model.fresh).ForcedStates ∧
    JobSM.Reset (Model.collab models.RepOpTransfer ["t1", "t2"] 1 false) Model.fresh 1
      = (none, Model.transferSM false) ∧
    (Model.transferSM false).Parms = some Model.parms ∧
    Model.parms.Tags = ["t1", "t2"] ∧
    enteredStates
        ((Model.transferSM false).Start models.JobRunning Model.w0 (stopDuring 3 1) 9).log =
      [models.JobRunning, replication.StateCheck, replication.StatePullManifest,
        replication.StateTransferBlob, models.JobStopped] ∧
    ((Model.transferSM false).Start models.JobRunning Model.w0 (stopDuring 3 1)
      9).sm.CurrentState = models.JobStopped :=
  have h := C10_stop_during_transfer (Model.collab models.RepOpTransfer ["t1", "t2"] 1 false)
    Model.World.tags (Model.contract models.RepOpTransfer ["t1", "t2"] 1 false) Model.fresh
    (Model.transferSM false) 1 Model.parms Model.w0 9 rfl rfl rfl rfl (by decide) rfl rfl
    (by decide)
  ⟨Model.contract models.RepOpTransfer ["t1", "t2"] 1 false, rfl, rfl, rfl, rfl, h.2.2.2.1,
    h.2.2.2.2.1⟩

/-- C11: for every delete job with an enabled policy, the engine `sm` a successful `Reset`
leaves has Delete among the successors of Running and Finished among those of Delete, and is
in state Pending; with handlers that obey their contract (`DeleteContract`: the Deleter
succeeds and returns the continuation sentinel or Finished, the Running status handler
returns the continuation sentinel, the Finished status handler the empty next-state), and
whatever `Stop` calls for other jobs are made meanwhile, the run `Start(Running)` ends (with
any bound of at least 4 loop iterations) without error, having entered exactly Running,
Delete, Finished in this order, with `CurrentState` = Finished and Delete entered exactly
once. -/
theorem C11_delete_round_trip {B : Type} (c : Collab W B) (hc : DeleteContract c)
    (sm0 sm : JobSM W) (jid : Int) (p : RepJobParm) (w : W) (stops : Nat → List Int)
    (fuel : Nat) (hres : JobSM.Reset c sm0 jid = (none, sm)) (hp : sm.Parms = some p)
    (hop : p.Operation = models.RepOpDelete) (hen : p.Enabled ≠ 0)
    (hst : ∀ i id, id ∈ stops i → id ≠ jid) (hfuel : 4 ≤ fuel) :
    replication.StateDelete ∈ sm.successors models.JobRunning ∧
    models.JobFinished ∈ sm.successors replication.StateDelete ∧
    sm.CurrentState = models.JobPending ∧
    (sm.Start models.JobRunning w stops fuel).finished = true ∧
    (sm.Start models.JobRunning w stops fuel).err = none ∧
    enteredStates (sm.Start models.JobRunning w stops fuel).log =
      [models.JobRunning, replication.StateDelete, models.JobFinished] ∧
    (sm.Start models.JobRunning w stops fuel).sm.CurrentState = models.JobFinished ∧
    (enteredStates (sm.Start models.JobRunning w stops fuel).log).count
      replication.StateDelete = 1 := by
  rcases Reset_graph c sm0 sm jid p hres hp hen with ⟨h1, _⟩ | ⟨_, hsm⟩
  · rw [hop] at h1
    exact absurd h1 (by decide)
  · subst hsm
    have hrun : (deleteEngine c jid p sm0.ForcedStates sm0.PreviousState
        models.JobPending).Start models.JobRunning w stops fuel =
        (deleteEngine c jid p sm0.ForcedStates sm0.PreviousState
          models.JobPending).Start models.JobRunning w noStops fuel :=
      Start_stale_stops _ models.JobRunning w stops fuel hst
    obtain ⟨h1, h2, h3, h4⟩ :=
      delete_run c hc jid p sm0.ForcedStates sm0.PreviousState w fuel hfuel
    rw [hrun]
    have hD : replication.StateDelete ∈ (mapGet deleteTable models.JobRunning).getD [] := by
      decide
    have hF : models.JobFinished ∈ (mapGet deleteTable replication.StateDelete).getD [] := by
      decide
    refine ⟨hD, hF, rfl, h1, h2, h3, h4, ?_⟩
    rw [h3]
    decide

/-- Witness of C11: the delete job of the scenario goes Pending, Running, Delete, Finished. -/
theorem C11_witness :
    DeleteContract (Model.collab models.RepOpDelete ["t1", "t2"] 1 false) ∧
    JobSM.Reset (Model.collab models.RepOpDelete ["t1", "t2"] 1 false) Model.fresh 1
      = (none, Model.deleteSM false) ∧
    (Model.deleteSM false).Parms = some Model.parmsDelete ∧
    enteredStates ((Model.deleteSM false).Start models.JobRunning Model.w0 noStops 4).log =
      [models.JobRunning, replication.StateDelete, models.JobFinished] ∧
    ((Model.deleteSM false).Start models.JobRunning Model.w0 noStops 4).sm.CurrentState
      = models.JobFinished :=
  have h := C11_delete_round_trip (Model.collab models.RepOpDelete ["t1", "t2"] 1 false)
    (Model.deleteContract models.RepOpDelete ["t1", "t2"] 1 false) Model.fresh
    (Model.deleteSM false) 1 Model.parmsDelete Model.w0 noStops 4 rfl rfl rfl (by decide)
    (fun _ _ h => by cases h) (by decide)
  ⟨Model.deleteContract models.RepOpDelete ["t1", "t2"] 1 false, rfl, rfl, h.2.2.2.2.2.1,
    h.2.2.2.2.2.2.1⟩

/-- C12: after a successful `Reset` of a transfer job with an enabled policy the table is
exactly Pending → Running, Running → Check, Check → PullManifest, PullManifest →
TransferBlob and Finished, TransferBlob → PushManifest, PushManifest → PullManifest:
PullManifest is the only key with two successors, every other key has exactly one, Finished
has none, the continuation sentinel is neither a key nor a successor, and a handler is bound
to each of Running, Check, PullManifest, TransferBlob, PushManifest, Finished, Error and
Stopped. -/
theorem C12_transfer_table {B : Type} (c : Collab W B) (sm0 sm : JobSM W) (jid : Int)
    (p : RepJobParm) (hres : JobSM.Reset c sm0 jid = (none, sm)) (hp : sm.Parms = some p)
    (hop : p.Operation = models.RepOpTransfer) (hen : p.Enabled ≠ 0) :
    sm.Transitions =
      [(models.JobPending, [models.JobRunning]),
       (models.JobRunning, [replication.StateCheck]),
       (replication.StateCheck, [replication.StatePullManifest]),
       (replication.StatePullManifest, [replication.StateTransferBlob, models.JobFinished]),
       (replication.StateTransferBlob, [replication.StatePushManifest]),
       (replication.StatePushManifest, [replication.StatePullManifest])] ∧
    (∀ e ∈ sm.Transitions,
      (e.2.length = 2 ↔ e.1 = replication.StatePullManifest) ∧
      (e.1 ≠ replication.StatePullManifest → e.2.length = 1) ∧
      e.1 ≠ models.JobContinue ∧ models.JobContinue ∉ e.2) ∧
    sm.successors models.JobFinished = [] ∧
    sm.successors models.JobContinue = [] ∧
    (∀ s ∈ [models.JobRunning, replication.StateCheck, replication.StatePullManifest,
        replication.StateTransferBlob, replication.StatePushManifest, models.JobFinished,
        models.JobError, models.JobStopped],
      (mapGet sm.Handlers s).isSome = true) := by
  obtain ⟨b, hsm⟩ := Reset_transfer c sm0 sm jid p hres hp hop hen
  subst hsm
  have hget := transferHandlers_get c b jid
  have hT : ∀ e ∈ transferTable,
      (e.2.length = 2 ↔ e.1 = replication.StatePullManifest) ∧
      (e.1 ≠ replication.StatePullManifest → e.2.length = 1) ∧
      e.1 ≠ models.JobContinue ∧ models.JobContinue ∉ e.2 := by
    decide
  have hF : (mapGet transferTable models.JobFinished).getD [] = [] := by decide
  have hC : (mapGet transferTable models.JobContinue).getD [] = [] := by decide
  refine ⟨rfl, hT, hF, hC, ?_⟩
  intro s hs
  simp only [List.mem_cons, List.mem_singleton, List.not_mem_nil, or_false] at hs
  rcases hs with rfl | rfl | rfl | rfl | rfl | rfl | rfl | rfl
  · exact (congrArg Option.isSome hget.2.1).trans rfl
  · exact (congrArg Option.isSome hget.2.2.2.2.2.1).trans rfl
  · exact (congrArg Option.isSome hget.2.2.2.2.2.2.1).trans rfl
  · exact (congrArg Option.isSome hget.2.2.2.2.2.2.2.1).trans rfl
  · exact (congrArg Option.isSome hget.2.2.2.2.2.2.2.2).trans rfl
  · exact (congrArg Option.isSome hget.2.2.2.2.1).trans rfl
  · exact (congrArg Option.isSome hget.2.2.1).trans rfl
  · exact (congrArg Option.isSome hget.2.2.2.1).trans rfl

/-- Witness of C12: the table of the transfer job with tags t1, t2. -/
theorem C12_witness :
    JobSM.Reset (Model.collab models.RepOpTransfer ["t1", "t2"] 1 false) Model.fresh 1
      = (none, Model.transferSM false) ∧
    (Model.transferSM false).Parms = some Model.parms ∧
    (Model.transferSM false).successors replication.StatePullManifest
      = [replication.StateTransferBlob, models.JobFinished] ∧
    (Model.transferSM false).successors models.JobFinished = [] :=
  have h := C12_transfer_table (Model.collab models.RepOpTransfer ["t1", "t2"] 1 false)
    Model.fresh (Model.transferSM false) 1 Model.parms rfl rfl rfl (by decide)
  ⟨rfl, rfl, by decide, h.2.2.1⟩

/-- C13, amended: with the data layer and the decryption as functions that may answer with
a missing record or an error, `Reset(jid)` fails when the job cannot be found (error or
missing record), when the policy cannot be found, and, for an enabled policy, when the target
cannot be found, when the non-empty stored credential cannot be decrypted, or when the job's
operation is neither transfer nor delete; for a job whose policy is disabled `Reset` returns
no error, whatever the target, the credential and the operation are. -/
theorem C13_Reset_failures {B : Type} (c : Collab W B) (sm : JobSM W) (jid : Int) :
    (∀ e, c.GetRepJob jid = Except.error e →
      (JobSM.Reset c sm jid).1 = some (Error.failedToGetJob e)) ∧
    (c.GetRepJob jid = Except.ok none →
      (JobSM.Reset c sm jid).1 = some (Error.jobNotExist jid)) ∧
    (∀ job, c.GetRepJob jid = Except.ok (some job) →
      (∀ e, c.GetRepPolicy job.PolicyID = Except.error e →
        (JobSM.Reset c sm jid).1 = some (Error.failedToGetPolicy e)) ∧
      (c.GetRepPolicy job.PolicyID = Except.ok none →
        (JobSM.Reset c sm jid).1 = some (Error.policyNotExist job.PolicyID)) ∧
      (∀ policy, c.GetRepPolicy job.PolicyID = Except.ok (some policy) →
        (policy.Enabled = 0 → (JobSM.Reset c sm jid).1 = none) ∧
        (policy.Enabled ≠ 0 →
          (∀ e, c.GetRepTarget policy.TargetID = Except.error e →
            (JobSM.Reset c sm jid).1 = some (Error.failedToGetTarget e)) ∧
          (c.GetRepTarget policy.TargetID = Except.ok none →
            (JobSM.Reset c sm jid).1 = some (Error.targetNotExist policy.TargetID)) ∧
          (∀ target, c.GetRepTarget policy.TargetID = Except.ok (some target) →
            (∀ e, target.Password ≠ "" →
              c.ReversibleDecrypt target.Password = Except.error e →
              (JobSM.Reset c sm jid).1 = some (Error.failedToDecrypt e)) ∧
            (∀ pwd,
              (if target.Password ≠ "" then c.ReversibleDecrypt target.Password
                else Except.ok target.Password) = Except.ok pwd →
              job.Operation ≠ models.RepOpTransfer → job.Operation ≠ models.RepOpDelete →
              (JobSM.Reset c sm jid).1
                = some (Error.unsupportedOperation job.Operation)))))) := by
  refine ⟨fun e hj => by rw [Reset_job_error c sm jid e hj],
    fun hj => by rw [Reset_job_missing c sm jid hj], ?_⟩
  intro job hj
  refine ⟨fun e hpol => by rw [Reset_policy_error c sm jid job e hj hpol],
    fun hpol => by rw [Reset_policy_missing c sm jid job hj hpol], ?_⟩
  intro policy hpol
  refine ⟨fun h0 => by rw [Reset_disabled c sm jid job policy hj hpol h0], ?_⟩
  intro hen
  refine ⟨fun e ht => Reset_target_error c sm jid job policy e hj hpol hen ht,
    fun ht => Reset_target_missing c sm jid job policy hj hpol hen ht, ?_⟩
  intro target ht
  exact ⟨fun e hpwd hdec =>
      Reset_decrypt_error c sm jid job policy target e hj hpol hen ht hpwd hdec,
    fun pwd hdec h1 h2 =>
      Reset_unsupported c sm jid job policy target pwd hj hpol hen ht hdec h1 h2⟩

/-- Witness of C13: for job 1 with an enabled policy and the operation bogus, `Reset` fails
with the error for an unsupported operation; when the stored password x cannot be decrypted
it fails with the error for the decryption. -/
theorem C13_witness :
    (JobSM.Reset (Model.collab "bogus" ["t1", "t2"] 1 false) Model.fresh 1).1
      = some (Error.unsupportedOperation "bogus") ∧
    (JobSM.Reset (Model.collabSealed "x") Model.fresh 1).1
      = some (Error.failedToDecrypt (Error.ext "bad key")) ∧
    (JobSM.Reset (Model.collabNoTarget models.RepOpTransfer 1) Model.fresh 1).1
      = some (Error.targetNotExist 1) :=
  ⟨(((((C13_Reset_failures (Model.collab "bogus" ["t1", "t2"] 1 false) Model.fresh 1).2.2
      { PolicyID := 1, Repository := "library/app", Operation := "bogus",
        TagList := ["t1", "t2"] } rfl).2.2
      { TargetID := 1, Enabled := 1 } rfl).2 (by decide)).2.2
      { URL := "registry.example", Username := "admin", Password := "" } rfl).2 "" rfl
      (by decide) (by decide),
    (((((C13_Reset_failures (Model.collabSealed "x") Model.fresh 1).2.2
      { PolicyID := 1, Repository := "library/app", Operation := models.RepOpTransfer,
        TagList := ["t1", "t2"] } rfl).2.2
      { TargetID := 1, Enabled := 1 } rfl).2 (by decide)).2.2
      { URL := "registry.example", Username := "admin", Password := "x" } rfl).1
      (Error.ext "bad key") (by decide) rfl,
    ((((C13_Reset_failures (Model.collabNoTarget models.RepOpTransfer 1) Model.fresh 1).2.2
      { PolicyID := 1, Repository := "library/app", Operation := models.RepOpTransfer,
        TagList := ["t1", "t2"] } rfl).2.2
      { TargetID := 1, Enabled := 1 } rfl).2 (by decide)).2.1 rfl⟩

/-- Counterexample to C13 as stated: job 1 has the operation bogus, neither transfer nor
delete, and its policy is disabled; `Reset(1)` returns no error. -/
theorem C13_counterexample :
    (Model.collab "bogus" ["t1", "t2"] 0 false).GetRepJob 1 =
      Except.ok (some { PolicyID := 1, Repository := "library/app", Operation := "bogus",
                        TagList := ["t1", "t2"] }) ∧
    (Model.collab "bogus" ["t1", "t2"] 0 false).GetRepPolicy 1 =
      Except.ok (some { TargetID := 1, Enabled := 0 }) ∧
    "bogus" ≠ models.RepOpTransfer ∧ "bogus" ≠ models.RepOpDelete ∧
    (JobSM.Reset (Model.collab "bogus" ["t1", "t2"] 0 false) Model.fresh 1).1 = none :=
  ⟨rfl, rfl, by decide, by decide, by decide⟩

/-- C14: for every job whose policy exists with enabled = 0, `Reset` returns no error and
records Enabled = 0 in the job parameters, and its whole outcome is the same whatever the
target lookup and the credential decryption would answer: neither is consulted, so `Reset`
succeeds even when the target record is missing. -/
theorem C14_disabled_policy_skips_target {B : Type} (c : Collab W B) (sm : JobSM W)
    (jid : Int) (job : RepJob) (policy : RepPolicy)
    (hj : c.GetRepJob jid = Except.ok (some job))
    (hpol : c.GetRepPolicy job.PolicyID = Except.ok (some policy))
    (h0 : policy.Enabled = 0) :
    (JobSM.Reset c sm jid).1 = none ∧
    (∃ p, (JobSM.Reset c sm jid).2.Parms = some p ∧ p.Enabled = 0) ∧
    (∀ (lookup : Int → Except Error (Option RepTarget)) (decrypt : String → Except Error String),
      JobSM.Reset { c with GetRepTarget := lookup, ReversibleDecrypt := decrypt } sm jid
        = JobSM.Reset c sm jid) := by
  refine ⟨by rw [Reset_disabled c sm jid job policy hj hpol h0], ?_, ?_⟩
  · rw [Reset_disabled c sm jid job policy hj hpol h0]
    exact ⟨_, rfl, rfl⟩
  · intro lookup decrypt
    rw [Reset_disabled c sm jid job policy hj hpol h0,
      Reset_disabled { c with GetRepTarget := lookup, ReversibleDecrypt := decrypt } sm jid
        job policy hj hpol h0]

/-- Witness of C14: the policy of job 1 is disabled and the data layer holds no target;
`Reset(1)` returns no error. -/
theorem C14_witness :
    (Model.collabNoTarget models.RepOpTransfer 0).GetRepTarget 1 = Except.ok none ∧
    (JobSM.Reset (Model.collabNoTarget models.RepOpTransfer 0) Model.fresh 1).1 = none :=
  ⟨rfl,
    (C14_disabled_policy_skips_target (Model.collabNoTarget models.RepOpTransfer 0) Model.fresh 1
      { PolicyID := 1, Repository := "library/app", Operation := models.RepOpTransfer,
        TagList := ["t1", "t2"] }
      { TargetID := 1, Enabled := 0 } rfl rfl rfl).1⟩

/-- C15, amended: after a successful `Reset` of a job with an enabled policy, on an engine
initialised by `Init` (which leaves `CurrentState` = Pending), it is `Start(Running)` that
walks the graph: with handlers that obey their contract and no stop request its first
`EnterState` call succeeds, the run enters Running and ends at Finished without entering
Error, for a transfer job and for a delete job.  `Start(Pending)` does not: Pending is
neither a successor of Pending nor forced, so its first `EnterState` call returns a
transition error, and the run is that call followed by the fallback call to Error; it
enters neither Running nor Finished, and ends with `CurrentState` = Error when the Error
status handler succeeds. -/
theorem C15_start_from_pending {B : Type} (c : Collab W B) (sm0 sm : JobSM W) (jid : Int)
    (p : RepJobParm) (w : W) (hF : sm0.ForcedStates = (JobSM.Init sm0).ForcedStates)
    (hres : JobSM.Reset c sm0 jid = (none, sm)) (hp : sm.Parms = some p)
    (hen : p.Enabled ≠ 0) :
    sm.CurrentState = models.JobPending ∧
    (sm.EnterState models.JobPending w).err
      = some (Error.noTransition jid models.JobPending models.JobPending) ∧
    (∀ stops fuel,
      (sm.Start models.JobPending w stops fuel).finished = true ∧
      calledStates (sm.Start models.JobPending w stops fuel).log
        = [models.JobPending, models.JobError] ∧
      models.JobRunning ∉ enteredStates (sm.Start models.JobPending w stops fuel).log ∧
      models.JobFinished ∉ enteredStates (sm.Start models.JobPending w stops fuel).log ∧
      ((∀ w1, ((c.StatusUpdater jid models.JobError).Enter w1).1.2 = none) →
        (sm.Start models.JobPending w stops fuel).sm.CurrentState = models.JobError)) ∧
    (∀ (tagsOf : W → List String) (fuel : Nat), TransferContract c tagsOf →
      p.Operation = models.RepOpTransfer → tagsOf w = p.Tags → 6 * p.Tags.length + 6 ≤ fuel →
      (sm.EnterState models.JobRunning w).err = none ∧
      (sm.Start models.JobRunning w noStops fuel).finished = true ∧
      models.JobRunning ∈ enteredStates (sm.Start models.JobRunning w noStops fuel).log ∧
      (sm.Start models.JobRunning w noStops fuel).sm.CurrentState = models.JobFinished ∧
      models.JobError ∉ enteredStates (sm.Start models.JobRunning w noStops fuel).log) ∧
    (∀ fuel : Nat, DeleteContract c → p.Operation = models.RepOpDelete → 4 ≤ fuel →
      (sm.EnterState models.JobRunning w).err = none ∧
      (sm.Start models.JobRunning w noStops fuel).finished = true ∧
      models.JobRunning ∈ enteredStates (sm.Start models.JobRunning w noStops fuel).log ∧
      (sm.Start models.JobRunning w noStops fuel).sm.CurrentState = models.JobFinished ∧
      models.JobError ∉ enteredStates (sm.Start models.JobRunning w noStops fuel).log) := by
  obtain ⟨hcur, hid, _, hforced, hsucc, _, hxP, _, hxE⟩ :=
    Reset_graph_facts c sm0 sm jid p hres hp hen
  have hnf : models.JobPending ∉ sm.ForcedStates := by
    rw [hforced]
    exact pending_not_forced sm0 hF
  have hns : models.JobPending ∉ sm.successors sm.CurrentState := by
    rw [hcur, hsucc]
    decide
  have hfirst := enterState_refused sm models.JobPending w hns hnf
  refine ⟨hcur, ?_, ?_, ?_, ?_⟩
  · rw [hfirst, hid, hcur]
  · intro stops fuel
    rw [Start_refused sm models.JobPending w stops fuel hns hnf]
    obtain ⟨d, hd⟩ := stopAll_frame (stops 0) sm
    rw [hd]
    obtain ⟨rest, hlog, hcalled, _⟩ :=
      enterState_log_head ({ sm with desiredState := d } : JobSM W) models.JobError w
    have hent : enteredStates
          (JobSM.EnterState ({ sm with desiredState := d } : JobSM W) models.JobError w).log
          = [models.JobError] ∨
        enteredStates
          (JobSM.EnterState ({ sm with desiredState := d } : JobSM W) models.JobError w).log
          = [] := by
      rcases enterState_outcome ({ sm with desiredState := d } : JobSM W) models.JobError w
        with ⟨_, _, h⟩ | ⟨_, _, _, h⟩
      · exact Or.inl h
      · exact Or.inr h
    refine ⟨rfl, ?_, ?_, ?_, ?_⟩
    · simp only [calledStates, hlog, hcalled]
    · simp only [enteredStates]
      rcases hent with h | h <;> rw [h] <;> decide
    · simp only [enteredStates]
      rcases hent with h | h <;> rw [h] <;> decide
    · intro herr
      have hE := enterState_allowed ({ sm with desiredState := d } : JobSM W)
        models.JobError w
        (Or.inr (by
          show models.JobError ∈ sm.ForcedStates
          rw [hforced]
          exact forced_of_init sm0 _ hF (Or.inl rfl)))
        (by
          intro h hh
          have hh2 : mapGet sm.Handlers sm.CurrentState = some h := hh
          rw [hcur, hxP] at hh2
          cases hh2)
        (by
          intro h hh
          have hh2 : mapGet sm.Handlers models.JobError = some h := hh
          rw [hxE] at hh2
          cases hh2
          exact herr _)
      rcases enterState_outcome ({ sm with desiredState := d } : JobSM W) models.JobError w
        with ⟨_, h2, _⟩ | ⟨h1, _⟩
      · simp only [h2]
      · rw [hE] at h1
        exact absurd rfl h1
  · intro tagsOf fuel hc hop htags hfuel
    obtain ⟨b, hsm⟩ := Reset_transfer c sm0 sm jid p hres hp hop hen
    subst hsm
    have h := transfer_run c tagsOf hc b jid p sm0.ForcedStates sm0.PreviousState w fuel
      (by rw [htags]; exact hfuel)
    rw [htags] at h
    obtain ⟨h1, h2, h3, h4⟩ := h
    have h5 := error_not_in_traversal p.Tags.length
    rw [← h3] at h5
    refine ⟨Start_first_call_ok _ _ _ _ _ h2, h1, ?_, h4, h5⟩
    have h6 : models.JobRunning ∈ enteredStates
        ((transferEngine c b jid p sm0.ForcedStates sm0.PreviousState
          models.JobPending).Start models.JobRunning w noStops fuel).log := by
      rw [h3]
      exact List.mem_cons_self _ _
    exact h6
  · intro fuel hc hop hfuel
    rcases Reset_graph c sm0 sm jid p hres hp hen with ⟨h1, _⟩ | ⟨_, hsm⟩
    · rw [hop] at h1
      exact absurd h1 (by decide)
    · subst hsm
      obtain ⟨h1, h2, h3, h4⟩ :=
        delete_run c hc jid p sm0.ForcedStates sm0.PreviousState w fuel hfuel
      have h5 : models.JobError ∉
          [models.JobRunning, replication.StateDelete, models.JobFinished] := by decide
      have h6 : models.JobRunning ∈
          [models.JobRunning, replication.StateDelete, models.JobFinished] := by decide
      rw [← h3] at h5 h6
      exact ⟨Start_first_call_ok _ _ _ _ _ h2, h1, h6, h4, h5⟩

/-- Witness of C15: for the transfer job with tags t1, t2, `Start(Pending)` ends in Error
after a refused first call, and `Start(Running)` ends at Finished. -/
theorem C15_witness :
    Model.fresh.ForcedStates = (JobSM.Init Model.fresh).ForcedStates ∧
    JobSM.Reset (Model.collab models.RepOpTransfer ["t1", "t2"] 1 false) Model.fresh 1
      = (none, Model.transferSM false) ∧
    calledStates ((Model.transferSM false).Start models.JobPending Model.w0 noStops 18).log
      = [models.JobPending, models.JobError] ∧
    ((Model.transferSM false).Start models.JobPending Model.w0 noStops 18).sm.CurrentState
      = models.JobError ∧
    ((Model.transferSM false).Start models.JobRunning Model.w0 noStops 18).sm.CurrentState
      = models.JobFinished :=
  have h := C15_start_from_pending (Model.collab models.RepOpTransfer ["t1", "t2"] 1 false)
    Model.fresh (Model.transferSM false) 1 Model.parms Model.w0 rfl rfl rfl (by decide)
  ⟨rfl, rfl, (h.2.2.1 noStops 18).2.1, (h.2.2.1 noStops 18).2.2.2.2 (fun _ => rfl),
    (h.2.2.2.1 Model.World.tags 18 (Model.contract models.RepOpTransfer ["t1", "t2"] 1 false)
      rfl rfl (by decide)).2.2.2.1⟩

/-- Counterexample to C15 as stated: after the successful `Reset` of the transfer job with
tags t1, t2 and an enabled policy, with all handlers succeeding, the first `EnterState` call
of `Start(Pending)` returns a transition error; the run never enters Running and ends in
the forced Error state, not at Finished. -/
theorem C15_counterexample :
    JobSM.Reset (Model.collab models.RepOpTransfer ["t1", "t2"] 1 false) Model.fresh 1
      = (none, Model.transferSM false) ∧
    (Model.transferSM false).CurrentState = models.JobPending ∧
    ((Model.transferSM false).EnterState models.JobPending Model.w0).err
      = some (Error.noTransition 1 models.JobPending models.JobPending) ∧
    ((Model.transferSM false).Start models.JobPending Model.w0 noStops 30).finished = true ∧
    enteredStates ((Model.transferSM false).Start models.JobPending Model.w0 noStops 30).log
      = [models.JobError] ∧
    ((Model.transferSM false).Start models.JobPending Model.w0 noStops 30).sm.CurrentState
      = models.JobError :=
  ⟨rfl, by decide, by decide, by decide, by decide, by decide⟩

/-- C20: for every engine and every job whose policy is disabled, `Reset` returns no error
and the engine it leaves differs from the one before the call only in `JobID`, the desired
state (emptied) and `Parms`: `Transitions`, `Handlers`, `CurrentState`, `PreviousState` and
`ForcedStates` are those the instance had before the call; no table is built for the job. -/
theorem C20_disabled_policy_keeps_graph {B : Type} (c : Collab W B) (sm : JobSM W)
    (jid : Int) (job : RepJob) (policy : RepPolicy)
    (hj : c.GetRepJob jid = Except.ok (some job))
    (hpol : c.GetRepPolicy job.PolicyID = Except.ok (some policy))
    (h0 : policy.Enabled = 0) :
    JobSM.Reset c sm jid =
      (none, { sm with
        JobID := jid
        desiredState := ""
        Parms := some
          { LocalRegURL := c.LocalHarborURL, TargetURL := "", TargetUsername := "",
            TargetPassword := "", Repository := job.Repository, Tags := job.TagList,
            Enabled := 0, Operation := job.Operation } }) ∧
    (JobSM.Reset c sm jid).2.Transitions = sm.Transitions ∧
    (JobSM.Reset c sm jid).2.Handlers = sm.Handlers ∧
    (JobSM.Reset c sm jid).2.CurrentState = sm.CurrentState ∧
    (JobSM.Reset c sm jid).2.PreviousState = sm.PreviousState ∧
    (JobSM.Reset c sm jid).2.ForcedStates = sm.ForcedStates := by
  rw [Reset_disabled c sm jid job policy hj hpol h0]
  exact ⟨rfl, rfl, rfl, rfl, rfl, rfl⟩

/-- Witness of C20: an engine that ran the transfer job is reset for a delete job whose
policy is disabled; it keeps the table of the transfer job. -/
theorem C20_witness :
    (JobSM.Reset (Model.collab models.RepOpDelete ["t1", "t2"] 0 false)
      (Model.transferSM false) 1).1 = none ∧
    (JobSM.Reset (Model.collab models.RepOpDelete ["t1", "t2"] 0 false)
      (Model.transferSM false) 1).2.Transitions = (Model.transferSM false).Transitions :=
  have h := C20_disabled_policy_keeps_graph (Model.collab models.RepOpDelete ["t1", "t2"] 0 false)
    (Model.transferSM false) 1
    { PolicyID := 1, Repository := "library/app", Operation := models.RepOpDelete,
      TagList := ["t1", "t2"] }
    { TargetID := 1, Enabled := 0 } rfl rfl rfl
  ⟨congrArg Prod.fst h.1, h.2.1⟩

/-- C16, amended: for every engine, `AddTransition(src, dst, h)` makes `dst` a successor of
`src` and binds `h` to `dst`; `RemoveTransition(src, dst)` makes `dst` no longer a successor
of `src` and leaves every handler binding as it was, that of `dst` included; neither changes
any other edge, any other handler binding, `CurrentState`, `PreviousState` or the desired
state.  Hence on an engine with no edge `src` → `dst`, `AddTransition(src, dst, h)` followed
by `RemoveTransition(src, dst)` restores the successors of every state, `src` included,
while `h` stays bound to `dst` and the other handler bindings are as before. -/
theorem C16_add_remove_transition (sm : JobSM W) (src dst : String) (h : StateHandler W) :
    (dst ∈ (sm.AddTransition src dst h).successors src ∧
      mapGet (sm.AddTransition src dst h).Handlers dst = some h ∧
      (∀ x y, x ≠ src ∨ y ≠ dst →
        (y ∈ (sm.AddTransition src dst h).successors x ↔ y ∈ sm.successors x)) ∧
      (∀ y, y ≠ dst → mapGet (sm.AddTransition src dst h).Handlers y = mapGet sm.Handlers y) ∧
      (sm.AddTransition src dst h).CurrentState = sm.CurrentState ∧
      (sm.AddTransition src dst h).PreviousState = sm.PreviousState ∧
      (sm.AddTransition src dst h).desiredState = sm.desiredState) ∧
    (dst ∉ (sm.RemoveTransition src dst).successors src ∧
      (sm.RemoveTransition src dst).Handlers = sm.Handlers ∧
      (∀ x y, x ≠ src ∨ y ≠ dst →
        (y ∈ (sm.RemoveTransition src dst).successors x ↔ y ∈ sm.successors x)) ∧
      (sm.RemoveTransition src dst).CurrentState = sm.CurrentState ∧
      (sm.RemoveTransition src dst).PreviousState = sm.PreviousState ∧
      (sm.RemoveTransition src dst).desiredState = sm.desiredState) ∧
    (dst ∉ sm.successors src →
      (∀ x, ((sm.AddTransition src dst h).RemoveTransition src dst).successors x
        = sm.successors x) ∧
      mapGet ((sm.AddTransition src dst h).RemoveTransition src dst).Handlers dst = some h ∧
      (∀ y, y ≠ dst →
        mapGet ((sm.AddTransition src dst h).RemoveTransition src dst).Handlers y
          = mapGet sm.Handlers y)) := by
  have hAddH : (sm.AddTransition src dst h).Handlers = mapSet sm.Handlers dst h := rfl
  refine ⟨⟨?_, ?_, ?_, ?_, rfl, rfl, rfl⟩, ⟨?_, (Remove_frame sm src dst).1, ?_,
    (Remove_frame sm src dst).2.1, (Remove_frame sm src dst).2.2.1,
    (Remove_frame sm src dst).2.2.2.1⟩, ?_⟩
  · rw [successors_Add_self, mem_setAdd]
    exact Or.inr rfl
  · rw [hAddH, mapGet_mapSet_self]
  · intro x y hxy
    by_cases hx : x = src
    · subst hx
      rw [successors_Add_self, mem_setAdd]
      constructor
      · rintro (h1 | h1)
        · exact h1
        · rcases hxy with h2 | h2
          · exact absurd rfl h2
          · exact absurd h1 h2
      · exact Or.inl
    · rw [successors_Add_ne sm src dst x h hx]
  · intro y hy
    rw [hAddH, mapGet_mapSet_ne _ _ _ _ hy]
  · rw [successors_Remove_self, mem_setDel]
    exact fun h1 => h1.2 rfl
  · intro x y hxy
    by_cases hx : x = src
    · subst hx
      rw [successors_Remove_self, mem_setDel]
      constructor
      · exact fun h1 => h1.1
      · intro h1
        refine ⟨h1, ?_⟩
        rcases hxy with h2 | h2
        · exact absurd rfl h2
        · exact h2
    · rw [successors_Remove_ne sm src dst x hx]
  · intro hno
    refine ⟨?_, ?_, ?_⟩
    · intro x
      by_cases hx : x = src
      · subst hx
        rw [successors_Remove_self, successors_Add_self, setDel_setAdd _ _ hno]
      · rw [successors_Remove_ne _ src dst x hx, successors_Add_ne sm src dst x h hx]
    · rw [(Remove_frame _ src dst).1, hAddH, mapGet_mapSet_self]
    · intro y hy
      rw [(Remove_frame _ src dst).1, hAddH, mapGet_mapSet_ne _ _ _ _ hy]

/-- Witness of C16: the edge a → b is added to an engine just initialised and removed again;
a has no successor afterwards, as before. -/
theorem C16_witness :
    "b" ∉ Model.fresh.successors "a" ∧
    ((Model.fresh.AddTransition "a" "b" Model.handlerB).RemoveTransition "a" "b").successors "a"
      = Model.fresh.successors "a" ∧
    mapGet ((Model.fresh.AddTransition "a" "b" Model.handlerB).RemoveTransition "a"
      "b").Handlers "b" = some Model.handlerB :=
  have h := (C16_add_remove_transition Model.fresh "a" "b" Model.handlerB).2.2 (by decide)
  ⟨by decide, h.1 "a", h.2.1⟩

/-- Counterexample to C16 as stated: the engine just initialised has no edge a → b and no
handler for b; after `AddTransition(a, b, h)` and `RemoveTransition(a, b)` the edge is gone
but a handler is still bound to b: the handler bindings are not restored. -/
theorem C16_counterexample :
    "b" ∉ Model.fresh.successors "a" ∧
    (mapGet Model.fresh.Handlers "b").isSome = false ∧
    "b" ∉ ((Model.fresh.AddTransition "a" "b" Model.handlerB).RemoveTransition "a"
      "b").successors "a" ∧
    (mapGet ((Model.fresh.AddTransition "a" "b" Model.handlerB).RemoveTransition "a"
      "b").Handlers "b").isSome = true ∧
    (mapGet (JobSM.RemoveTransition (Model.fresh.AddTransition "a" "b" Model.handlerB) "a"
      "b").Handlers "b").isSome
      ≠ (mapGet Model.fresh.Handlers "b").isSome :=
  ⟨by decide, by decide, by decide, by decide, by decide⟩

/-- C17: for every engine and every target `s` that is a successor of the current state or
forced: if `Exit()` of the handler bound to the current state fails, `EnterState(s)` returns
that error with the empty next-state, leaves the engine unchanged (so `CurrentState` and
`PreviousState`), and invokes no `Enter()`; if `Exit()` does not fail (or no handler is
bound) and `Enter()` of the handler bound to `s` fails, `EnterState(s)` returns that error
with the empty next-state and leaves the engine unchanged. -/
theorem C17_EnterState_handler_failure (sm : JobSM W) (s : String) (w : W)
    (hs : s ∈ sm.successors sm.CurrentState ∨ s ∈ sm.ForcedStates) :
    (∀ xh e w1, mapGet sm.Handlers sm.CurrentState = some xh → xh.Exit w = (some e, w1) →
      (sm.EnterState s w).err = some e ∧ (sm.EnterState s w).next = "" ∧
      (sm.EnterState s w).sm = sm ∧
      (sm.EnterState s w).log = [Event.call s, Event.exit sm.CurrentState, Event.failed e] ∧
      (∀ x, Event.enter x ∉ (sm.EnterState s w).log)) ∧
    (∀ eh n e w2, (∀ h, mapGet sm.Handlers sm.CurrentState = some h → (h.Exit w).1 = none) →
      mapGet sm.Handlers s = some eh → eh.Enter (sm.exitWorld w) = ((n, some e), w2) →
      (sm.EnterState s w).err = some e ∧ (sm.EnterState s w).next = "" ∧
      (sm.EnterState s w).sm = sm ∧
      (sm.EnterState s w).sm.CurrentState = sm.CurrentState ∧
      (sm.EnterState s w).sm.PreviousState = sm.PreviousState) := by
  constructor
  · intro xh e w1 hx hX
    rw [enterState_exit_fails sm s w w1 xh e hs hx hX]
    refine ⟨rfl, rfl, rfl, rfl, ?_⟩
    intro x
    simp
  · intro eh n e w2 hexit he hE
    rw [enterState_enter_fails sm s w w2 eh n e hs hexit he hE]
    exact ⟨rfl, rfl, rfl, rfl, rfl⟩

/-- Witness of C17: in the engine whose handler of state a fails to exit, `EnterState(b)`
returns that error and the engine stays in a. -/
theorem C17_witness :
    ("b" ∈ Model.failingExitSM.successors Model.failingExitSM.CurrentState ∨
      "b" ∈ Model.failingExitSM.ForcedStates) ∧
    (Model.failingExitSM.EnterState "b" Model.w0).err = some (Error.ext "cannot leave") ∧
    (Model.failingExitSM.EnterState "b" Model.w0).sm = Model.failingExitSM :=
  have h := (C17_EnterState_handler_failure Model.failingExitSM "b" Model.w0
    (Or.inl (by decide))).1 (Model.failingExit "b" "cannot leave") (Error.ext "cannot leave")
    Model.w0 rfl rfl
  ⟨Or.inl (by decide), h.1, h.2.2.1⟩

/-- C18, amended: after a successful `Reset` with an enabled policy (transfer or delete), on
an engine initialised by `Init`, no handler is bound to Canceled and Canceled has no
successors.  Hence, when a handler proposes Canceled in a run of `Start`, no stop request is
pending, `Exit()` of the handler bound to the current state succeeds and the Error status
handler succeeds, the rest of the run enters Canceled, receives the continuation sentinel,
fails as an undecidable continuation, enters Error and ends with `CurrentState` = Error and
`PreviousState` = Canceled; in particular so does `Start(s)` when the handler of `s` proposes
Canceled. -/
theorem C18_canceled_is_not_terminal {B : Type} (c : Collab W B) (sm0 sm : JobSM W) (jid : Int)
    (p : RepJobParm) (hF : sm0.ForcedStates = (JobSM.Init sm0).ForcedStates)
    (hres : JobSM.Reset c sm0 jid = (none, sm)) (hp : sm.Parms = some p)
    (hen : p.Enabled ≠ 0)
    (herr : ∀ w1, ((c.StatusUpdater jid models.JobError).Enter w1).1.2 = none) :
    mapGet sm.Handlers models.JobCanceled = none ∧
    sm.successors models.JobCanceled = [] ∧
    (∀ (cur prev : String) (w : W) (fuel k : Nat),
      (∀ h, mapGet sm.Handlers cur = some h → (h.Exit w).1 = none) →
      (JobSM.resume noStops (fuel + 2) k models.JobCanceled none
        { sm with CurrentState := cur, PreviousState := prev } w).finished = true ∧
      (JobSM.resume noStops (fuel + 2) k models.JobCanceled none
        { sm with CurrentState := cur, PreviousState := prev } w).err
        = some Error.unableToContinue ∧
      enteredStates (JobSM.resume noStops (fuel + 2) k models.JobCanceled none
        { sm with CurrentState := cur, PreviousState := prev } w).log
        = [models.JobCanceled, models.JobError] ∧
      (JobSM.resume noStops (fuel + 2) k models.JobCanceled none
        { sm with CurrentState := cur, PreviousState := prev } w).sm.CurrentState
        = models.JobError ∧
      (JobSM.resume noStops (fuel + 2) k models.JobCanceled none
        { sm with CurrentState := cur, PreviousState := prev } w).sm.PreviousState
        = models.JobCanceled ∧
      Event.undecidable ∈ (JobSM.resume noStops (fuel + 2) k models.JobCanceled none
        { sm with CurrentState := cur, PreviousState := prev } w).log) ∧
    (∀ (s : String) (w : W) (fuel : Nat),
      (sm.EnterState s w).err = none → (sm.EnterState s w).next = models.JobCanceled →
      (∀ h, mapGet sm.Handlers s = some h → (h.Exit (sm.EnterState s w).w).1 = none) →
      (sm.Start s w noStops (fuel + 2)).finished = true ∧
      enteredStates (sm.Start s w noStops (fuel + 2)).log
        = [s, models.JobCanceled, models.JobError] ∧
      (sm.Start s w noStops (fuel + 2)).sm.CurrentState = models.JobError ∧
      (sm.Start s w noStops (fuel + 2)).sm.PreviousState = models.JobCanceled) := by
  obtain ⟨_, _, hd, hforced, _, hsucc, _, hno, hxE⟩ :=
    Reset_graph_facts c sm0 sm jid p hres hp hen
  have hF1 : sm.ForcedStates = (JobSM.Init sm).ForcedStates := by
    rw [hforced]
    exact hF
  have herr1 : ∀ h, mapGet sm.Handlers models.JobError = some h →
      ∀ w1, (h.Enter w1).1.2 = none := by
    intro h hh w1
    rw [hxE] at hh
    cases hh
    exact herr w1
  refine ⟨hno, hsucc, ?_, ?_⟩
  · intro cur prev w fuel k hexit
    exact resume_canceled ({ sm with CurrentState := cur, PreviousState := prev } : JobSM W)
      w fuel k hd hF1 hno hsucc hexit herr1
  · intro s w fuel he hn hexit
    have hsm : (sm.EnterState s w).sm
        = { sm with PreviousState := sm.CurrentState, CurrentState := s } := by
      rcases enterState_outcome sm s w with ⟨_, h, _⟩ | ⟨h, _⟩
      · exact h
      · exact absurd he h
    have hent : enteredStates (sm.EnterState s w).log = [s] := by
      rcases enterState_outcome sm s w with ⟨_, _, h⟩ | ⟨h, _⟩
      · exact h
      · exact absurd he h
    have key := resume_canceled
      ({ sm with PreviousState := sm.CurrentState, CurrentState := s } : JobSM W)
      (sm.EnterState s w).w fuel 1 hd hF1 hno hsucc hexit herr1
    have hst0 : ∀ g1 : JobSM W, g1.stopAll (noStops 0) = g1 := fun _ => rfl
    have hS : sm.Start s w noStops (fuel + 2) =
        Run.after (sm.EnterState s w).log
          (JobSM.resume noStops (fuel + 2) 1 models.JobCanceled none
            ({ sm with PreviousState := sm.CurrentState, CurrentState := s } : JobSM W)
            (sm.EnterState s w).w) := by
      rw [Start_eq, hst0, hn, he, hsm]
      rfl
    rw [hS]
    refine ⟨key.1, ?_, key.2.2.2.1, key.2.2.2.2.1⟩
    show enteredStates ((sm.EnterState s w).log ++ _) = _
    rw [enteredStates_append, hent, key.2.2.1]
    rfl

/-- Witness of C18: in the transfer graph whose ManifestPuller proposes Canceled, the rest
of the run from PullManifest enters Canceled, then Error, and ends in Error with
`PreviousState` = Canceled. -/
theorem C18_witness :
    Model.fresh.ForcedStates = (JobSM.Init Model.fresh).ForcedStates ∧
    JobSM.Reset (Model.collabPull models.JobCanceled) Model.fresh 1
      = (none, Model.pullSM models.JobCanceled) ∧
    enteredStates (JobSM.resume noStops 2 3 models.JobCanceled none
      { Model.pullSM models.JobCanceled with
        CurrentState := replication.StatePullManifest,
        PreviousState := replication.StateCheck } Model.w0).log
      = [models.JobCanceled, models.JobError] ∧
    (JobSM.resume noStops 2 3 models.JobCanceled none
      { Model.pullSM models.JobCanceled with
        CurrentState := replication.StatePullManifest,
        PreviousState := replication.StateCheck } Model.w0).sm.CurrentState
      = models.JobError :=
  have h := (C18_canceled_is_not_terminal (Model.collabPull models.JobCanceled) Model.fresh
    (Model.pullSM models.JobCanceled) 1 Model.parms rfl rfl rfl (by decide)
    (fun _ => rfl)).2.2.1 replication.StatePullManifest replication.StateCheck Model.w0 0 3
    (fun h hh => by
      have h0 : mapGet (Model.pullSM models.JobCanceled).Handlers replication.StatePullManifest
          = some (Model.stepHandler models.JobCanceled) := rfl
      rw [h0] at hh
      cases hh
      rfl)
  ⟨rfl, rfl, h.2.2.1, h.2.2.2.1⟩

/-- Counterexample to C18 as stated: after the successful `Reset` of the transfer job with
tags t1, t2 and an enabled policy, with no stop request and an Error status handler that
succeeds, the Checker proposes Canceled and its `Exit()` fails; `EnterState(Canceled)` is
called but Canceled is never entered, no continuation is undecidable, and the run ends with
`CurrentState` = Check and `PreviousState` = Running. -/
theorem C18_counterexample :
    JobSM.Reset Model.collabCancel Model.fresh 1 = (none, Model.cancelSM) ∧
    ((Model.collabCancel.Checker ()).Enter Model.w0).1 = (models.JobCanceled, none) ∧
    (∀ w1, ((Model.collabCancel.StatusUpdater 1 models.JobError).Enter w1).1.2 = none) ∧
    (Model.cancelSM.Start models.JobRunning Model.w0 noStops 30).finished = true ∧
    calledStates (Model.cancelSM.Start models.JobRunning Model.w0 noStops 30).log
      = [models.JobRunning, replication.StateCheck, models.JobCanceled, models.JobError] ∧
    enteredStates (Model.cancelSM.Start models.JobRunning Model.w0 noStops 30).log
      = [models.JobRunning, replication.StateCheck] ∧
    Event.undecidable ∉ (Model.cancelSM.Start models.JobRunning Model.w0 noStops 30).log ∧
    (Model.cancelSM.Start models.JobRunning Model.w0 noStops 30).sm.CurrentState
      = replication.StateCheck ∧
    (Model.cancelSM.Start models.JobRunning Model.w0 noStops 30).sm.PreviousState
      = models.JobRunning :=
  ⟨rfl, rfl, fun _ => rfl, by decide, by decide, by decide, by decide, by decide, by decide⟩

/-- C19: let the current state c of an engine with Error among its forced states have a
registered handler whose `Exit()` succeeds, and let `Enter()` of the handler bound to an
allowed or forced target t fail with error e.  Then `EnterState(t)` returns e and leaves the
engine as it was, so the current state is not advanced.  Every run of `Start` in which this
call happens, as the first call `Start(t)` or as a later call of the loop, whatever `Stop`
calls other goroutines make, ends with error e after exactly two `EnterState` calls from
there, to t and to Error, and `Exit()` of c's handler runs exactly twice, once in each.  If
the second `Exit()` fails, the only `Enter()` invoked is the failed one of t, so the fallback
does not invoke `Enter()` of the Error handler, Error is not entered, and the run ends with
`CurrentState` still c. -/
theorem C19_exit_runs_twice_on_enter_failure (sm : JobSM W) (t : String) (w w1 w2 : W)
    (xh eh : StateHandler W) (n : String) (e : Error)
    (hFE : models.JobError ∈ sm.ForcedStates)
    (ht : t ∈ sm.successors sm.CurrentState ∨ t ∈ sm.ForcedStates)
    (hx : mapGet sm.Handlers sm.CurrentState = some xh) (hX : xh.Exit w = (none, w1))
    (he : mapGet sm.Handlers t = some eh) (hE : eh.Enter w1 = ((n, some e), w2)) :
    (sm.EnterState t w).err = some e ∧ (sm.EnterState t w).sm = sm ∧
    (∀ (stops : Nat → List Int) (fuel : Nat),
      (sm.Start t w stops fuel).finished = true ∧
      (sm.Start t w stops fuel).err = some e ∧
      exitedStates (sm.Start t w stops fuel).log = [sm.CurrentState, sm.CurrentState] ∧
      calledStates (sm.Start t w stops fuel).log = [t, models.JobError] ∧
      (∀ e2 w3, xh.Exit w2 = (some e2, w3) →
        enterCalls (sm.Start t w stops fuel).log = [t] ∧
        Event.entered models.JobError ∉ (sm.Start t w stops fuel).log ∧
        (sm.Start t w stops fuel).sm.CurrentState = sm.CurrentState ∧
        (sm.Start t w stops fuel).log =
          [Event.call t, Event.exit sm.CurrentState, Event.enter t, Event.failed e,
            Event.fallback, Event.call models.JobError, Event.exit sm.CurrentState,
            Event.failed e2])) ∧
    (∀ (stops : Nat → List Int) (fuel k : Nat),
      t ≠ "" → t ≠ models.JobContinue → sm.desiredState = "" →
      (JobSM.resume stops (fuel + 1) k t none sm w).finished = true ∧
      (JobSM.resume stops (fuel + 1) k t none sm w).err = some e ∧
      exitedStates (JobSM.resume stops (fuel + 1) k t none sm w).log
        = [sm.CurrentState, sm.CurrentState] ∧
      calledStates (JobSM.resume stops (fuel + 1) k t none sm w).log = [t, models.JobError] ∧
      (∀ e2 w3, xh.Exit w2 = (some e2, w3) →
        enterCalls (JobSM.resume stops (fuel + 1) k t none sm w).log = [t] ∧
        Event.entered models.JobError ∉ (JobSM.resume stops (fuel + 1) k t none sm w).log ∧
        (JobSM.resume stops (fuel + 1) k t none sm w).sm.CurrentState = sm.CurrentState ∧
        (JobSM.resume stops (fuel + 1) k t none sm w).log =
          [Event.call t, Event.exit sm.CurrentState, Event.enter t, Event.failed e,
            Event.fallback, Event.call models.JobError, Event.exit sm.CurrentState,
            Event.failed e2])) := by
  have hE1 := enterState_enter_fails_after_exit sm t w w1 w2 xh eh n e ht hx hX he hE
  refine ⟨?_, ?_, ?_, ?_⟩
  · rw [hE1]
  · rw [hE1]
  · intro stops fuel
    refine enter_failure_run sm t w w1 w2 xh eh n e stops fuel 1 (stops 0)
      (sm.Start t w stops fuel) hFE ht hx hX he hE ?_
    rw [Start_eq]
    unfold JobSM.resume
    rw [hE1]
  · intro stops fuel k ht0 htc hd
    refine enter_failure_run sm t w w1 w2 xh eh n e stops fuel (k + 1) (stops k)
      (JobSM.resume stops (fuel + 1) k t none sm w) hFE ht hx hX he hE ?_
    unfold JobSM.resume
    rw [loop_call stops fuel k t sm w ht0 htc hd, finish_after, hE1]

/-- Witness of C19: in the engine in state a whose handler of b fails to enter and whose
handler of a exits only once, `Start(b)` calls `EnterState` for b and for Error, `Exit()` of
a runs twice, the second one fails, and the run ends in a. -/
theorem C19_witness :
    models.JobError ∈ Model.enterFailsSM.ForcedStates ∧
    ("b" ∈ Model.enterFailsSM.successors Model.enterFailsSM.CurrentState ∨
      "b" ∈ Model.enterFailsSM.ForcedStates) ∧
    exitedStates (Model.enterFailsSM.Start "b" Model.w0 noStops 5).log = ["a", "a"] ∧
    enterCalls (Model.enterFailsSM.Start "b" Model.w0 noStops 5).log = ["b"] ∧
    (Model.enterFailsSM.Start "b" Model.w0 noStops 5).sm.CurrentState = "a" :=
  have h := (C19_exit_runs_twice_on_enter_failure Model.enterFailsSM "b" Model.w0
    { tags := [], persisted := [] } { tags := [], persisted := [] }
    (Model.exitOnce "b") (Model.failingEnter "cannot enter") "" (Error.ext "cannot enter")
    (by decide) (Or.inl (by decide)) rfl rfl rfl rfl).2.2.1 noStops 5
  have h2 := h.2.2.2.2 (Error.ext "already left") { tags := [], persisted := [] } rfl
  ⟨by decide, Or.inl (by decide), h.2.2.1, h2.1, h2.2.2.1⟩

end claims
